import Mathlib

/-!
# runner-mei/permissions: placeholder rewriting and the CRUD accessors

A shallow embedding of `user.go` and `dao.go`.

* Go strings are embedded as Lean strings, read as sequences of characters.
  The rewriter only looks for the ASCII character `?` and only writes ASCII,
  so cutting at a `?` never splits an encoded character.
* A Go result pair `(v, err)` is a Lean pair whose second component is an
  `Option Error`; `none` is Go's `nil` error.  A pointer result `*T` is an
  `Option T`, a slice result an `Option (List T)`; `none` is `nil`.
* The store (`*sql.DB`), the clock (`time.Now`) and the list of statements
  handed to the store are threaded through the accessors as a `World`.
* The accessors are embedded over an arbitrary store.  What is read back after
  a write depends on the store itself, which is not part of the package; those
  properties are stated on a reference store modelled from the schema contract
  of the specification (section "A reference store").
-/

namespace Permissions

/-! ## Errors (`user.go`, lines 13-22) -/

/-- A Go `error` value, identified by its message. -/
structure Error where
  text : String
deriving DecidableEq, Repr

/-- Go's `errors.New`. -/
def errors.New (text : String) : Error := ⟨text⟩

/-- `ErrNotUpdated`: no record was updated. -/
def ErrNotUpdated : Error := errors.New "no record is updated"

/-- `ErrNotDeleted`: no record was deleted. -/
def ErrNotDeleted : Error := errors.New "no record is deleted"

/-- `ThrowPrimaryKeyInvalid`: the error for an invalid primary key. -/
def ThrowPrimaryKeyInvalid (tableName : String) : Error :=
  errors.New ("primary key of '" ++ tableName ++ "' is invalid")

/-! ## Placeholder formats (`user.go`, lines 31-74) -/

/-- Go's `strings.Index(s, "?")` for a one-character needle: the position of
the first occurrence, `none` where Go returns `-1`. -/
def strings.Index : List Char → Char → Option Nat
  | [], _ => none
  | c :: cs, x => if c = x then some 0 else (strings.Index cs x).map (· + 1)

/-- The output of `fmt.Fprintf(buf, "$%d", i)`. -/
def dollarMarker (i : Nat) : List Char := '$' :: (Nat.repr i).data

/-- `Question` leaves placeholders as question marks. -/
def Question (sql : String) : String × Option Error :=
  (sql, none)

/-- The `for` loop of `Dollar` together with the final `buf.WriteString(sql)`.
One unit of fuel is one pass through the loop body; `none` means the fuel ran
out before the loop was left. -/
def Dollar.loop : Nat → List Char → Nat → List Char → Option (List Char)
  | 0, _, _, _ => none
  | fuel + 1, buf, i, sql =>
    match strings.Index sql '?' with
    | none => some (buf ++ sql)
    | some p =>
      if (sql.drop p).length > 1 ∧ (sql.drop p).take 2 = ['?', '?'] then
        let buf := buf ++ sql.take p
        let buf := buf ++ ['?']
        if (sql.drop p).length = 1 then
          some (buf ++ sql)
        else
          Dollar.loop fuel buf i (sql.drop (p + 2))
      else
        let i := i + 1
        let buf := buf ++ sql.take p
        let buf := buf ++ dollarMarker i
        Dollar.loop fuel buf i (sql.drop (p + 1))

/-- `Dollar` run with a given amount of fuel. -/
def Dollar.run (fuel : Nat) (sql : String) : Option (String × Option Error) :=
  (Dollar.loop fuel [] 0 sql.data).map fun out => (String.mk out, none)

/-- `Dollar` replaces placeholders with dollar-prefixed positional
placeholders.  Every pass of the loop shortens `sql`, so one unit of fuel per
character and one more for the last pass is given. -/
def Dollar (sql : String) : Option (String × Option Error) :=
  Dollar.run (sql.length + 1) sql

/-- The reference rewrite in the words of the specification, reading the query
left to right with `n` markers numbered so far: a `?` directly followed by a
`?` gives one literal `?` and uses no number, any other `?` gives the next
numbered marker, any other character is copied. -/
def numberedRewrite : Nat → List Char → List Char
  | _, [] => []
  | n, [c] => if c = '?' then dollarMarker (n + 1) else [c]
  | n, c :: d :: rest =>
    if c = '?' then
      if d = '?' then '?' :: numberedRewrite n rest
      else dollarMarker (n + 1) ++ numberedRewrite (n + 1) (d :: rest)
    else c :: numberedRewrite n (d :: rest)


/-! ## Values, scan destinations and the store (`database/sql`, `lib/pq`) -/

/-- A Go `time.Time`, as an instant counted in nanoseconds; the zero value of
the type is `Time.zero`. -/
structure Time where
  nanos : Int
deriving DecidableEq, Repr

/-- The zero value of `time.Time`. -/
def Time.zero : Time := ⟨0⟩

/-- An argument bound to a statement (`interface{}`): the accessors only bind
`int64`, `string` and `time.Time` values. -/
inductive Value where
  | int64 (v : Int)
  | string (s : String)
  | time (t : Time)
deriving DecidableEq, Repr

/-- Go's `sql.NullString`. -/
structure NullString where
  String : String
  Valid : Bool
deriving DecidableEq, Repr

/-- Go's `sql.NullInt64`. -/
structure NullInt64 where
  Int64 : Int
  Valid : Bool
deriving DecidableEq, Repr

/-- The `NullTime` holder of `lib/pq`. -/
structure NullTime where
  Time : Time
  Valid : Bool
deriving DecidableEq, Repr

/-- The kinds of destination the accessors hand to `Scan`. -/
inductive Dest where
  | int64
  | string
  | NullString
  | NullInt64
  | NullTime
deriving DecidableEq, Repr

/-- The content of a destination of a given kind. -/
@[reducible] def Dest.Holds : Dest → Type
  | .int64 => Int
  | .string => String
  | .NullString => Permissions.NullString
  | .NullInt64 => Permissions.NullInt64
  | .NullTime => Permissions.NullTime

/-- The contents of a list of destinations, in order. -/
@[reducible] def Dests : List Dest → Type
  | [] => Unit
  | d :: ds => d.Holds × Dests ds

/-- The `RowScanner` interface (`user.go`, lines 24-29): `Scan` receives the
destinations with their current contents and leaves them with new contents,
returning an error or `nil`. -/
structure RowScanner where
  Scan : (ds : List Dest) → Dests ds → Dests ds × Option Error

/-- A cursor (`*sql.Rows`): the rows that successive `Next()` calls step
through, and what `Err()` reports once `Next()` has returned false. -/
structure Rows where
  rows : List RowScanner
  Err : Option Error

/-- An `sql.Result`. -/
structure Result where
  LastInsertId : Int × Option Error
  RowsAffected : Int × Option Error
deriving DecidableEq, Repr

/-- A statement handed to the store: its text and its bound arguments. -/
structure Statement where
  query : String
  args : List Value
deriving DecidableEq, Repr

/-- The store collaborator (`*sql.DB`) over a store state `σ`.  `Exec` and
`Query` return either a result or an error, as `database/sql` does. -/
structure DB (σ : Type) where
  Exec : String → List Value → σ → Except Error Result × σ
  QueryRow : String → List Value → σ → RowScanner × σ
  Query : String → List Value → σ → Except Error Rows × σ

/-- What the accessors act on: the store's state, the statements handed to the
store so far (oldest first), and the clock with the number of times it has
been read. -/
structure World (σ : Type) where
  store : σ
  issued : List Statement
  clock : Nat → Time
  ticks : Nat

/-- The package-level switches `PlaceholderFormat` and `IsReturning`
(`user.go`, lines 68-73). -/
structure Config where
  PlaceholderFormat : String → String × Option Error
  IsReturning : Bool

variable {σ : Type}

/-- Go's `time.Now()`: reads the clock. -/
def time.Now (w : World σ) : Time × World σ :=
  (w.clock w.ticks, { w with ticks := w.ticks + 1 })

/-- The call `db.Exec(query, args...)`. -/
def DB.exec (db : DB σ) (query : String) (args : List Value) (w : World σ) :
    Except Error Result × World σ :=
  ((db.Exec query args w.store).1,
    { w with store := (db.Exec query args w.store).2,
             issued := w.issued ++ [⟨query, args⟩] })

/-- The call `db.QueryRow(query, args...)`. -/
def DB.queryRow (db : DB σ) (query : String) (args : List Value) (w : World σ) :
    RowScanner × World σ :=
  ((db.QueryRow query args w.store).1,
    { w with store := (db.QueryRow query args w.store).2,
             issued := w.issued ++ [⟨query, args⟩] })

/-- The call `db.Query(query, args...)`. -/
def DB.query (db : DB σ) (query : String) (args : List Value) (w : World σ) :
    Except Error Rows × World σ :=
  ((db.Query query args w.store).1,
    { w with store := (db.Query query args w.store).2,
             issued := w.issued ++ [⟨query, args⟩] })

/-! ## Entities (`user.go`, lines 76-126) -/

/-- A user role. -/
structure Role where
  ID : Int := 0
  Name : String := ""
  Description : String := ""
  PermissionKeys : String := ""
  UpdatedAt : Time := Time.zero
  CreatedAt : Time := Time.zero
deriving DecidableEq, Repr

/-- A user. -/
structure User where
  ID : Int := 0
  Name : String := ""
  Description : String := ""
  Password : String := ""
  Phone : String := ""
  Email : String := ""
  State : Int := 0
  CreatedAt : Time := Time.zero
  UpdatedAt : Time := Time.zero
deriving DecidableEq, Repr

/-- A property of a user. -/
structure UserProfile where
  ID : Int := 0
  User : String := ""
  Name : String := ""
  Value : String := ""
  CreatedAt : Time := Time.zero
  UpdatedAt : Time := Time.zero
deriving DecidableEq, Repr

/-! ## The `roles` accessor (`dao.go`, lines 10-179) -/

/-- The destinations of `roles.scan`, in the order of the call. -/
@[reducible] def roles.scanDests : List Dest :=
  [.int64, .string, .NullString, .NullString, .NullTime, .NullTime]

/-- `roles.scan`: decodes one row into a `Role`. -/
def roles.scan (scanner : RowScanner) : Option Role × Option Error :=
  let value : Role := {}
  let nullDescription : NullString := ⟨"", false⟩
  let nullPermissionKeys : NullString := ⟨"", false⟩
  let nullCreatedAt : NullTime := ⟨Time.zero, false⟩
  let nullUpdatedAt : NullTime := ⟨Time.zero, false⟩
  match scanner.Scan roles.scanDests
      (value.ID, value.Name, nullDescription, nullPermissionKeys, nullCreatedAt,
        nullUpdatedAt, ()) with
  | (_, some e) => (none, some e)
  | ((id, name, nullDescription, nullPermissionKeys, nullCreatedAt, nullUpdatedAt, _),
      none) =>
    let value := { value with ID := id, Name := name }
    let value :=
      if nullDescription.Valid then { value with Description := nullDescription.String }
      else value
    let value :=
      if nullPermissionKeys.Valid then
        { value with PermissionKeys := nullPermissionKeys.String }
      else value
    let value :=
      if nullCreatedAt.Valid then { value with CreatedAt := nullCreatedAt.Time } else value
    let value :=
      if nullUpdatedAt.Valid then { value with UpdatedAt := nullUpdatedAt.Time } else value
    (some value, none)

/-- The constant `rolePrefix`. -/
def rolePrefix : String :=
  "select id, name, description, permission_keys, created_at, updated_at from tpt_roles "

/-- `roles.QueryRowWith`. -/
def roles.QueryRowWith (cfg : Config) (db : DB σ) (queryString : String)
    (args : List Value) (w : World σ) : (Option Role × Option Error) × World σ :=
  match cfg.PlaceholderFormat queryString with
  | (_, some err) => ((none, some err), w)
  | (queryString, none) =>
    let (row, w) := db.queryRow (rolePrefix ++ queryString) args w
    (roles.scan row, w)

/-- The `for rows.Next()` loop of `roles.QueryWith`, from the rows not yet
visited and the `results` gathered so far, up to the `return`.  `results` is a
`[]*Role`: a list of pointers. -/
def roles.QueryWith.loop (Err : Option Error) :
    List RowScanner → List (Option Role) → Option (List (Option Role)) × Option Error
  | [], results => (some results, Err)
  | row :: rest, results =>
    match roles.scan row with
    | (_, some err) => (none, some err)
    | (v, none) => roles.QueryWith.loop Err rest (results ++ [v])

/-- `roles.QueryWith`.  The deferred `rows.Close()` releases the cursor and has
no part in the result. -/
def roles.QueryWith (cfg : Config) (db : DB σ) (queryString : String)
    (args : List Value) (w : World σ) :
    (Option (List (Option Role)) × Option Error) × World σ :=
  match cfg.PlaceholderFormat queryString with
  | (_, some err) => ((none, some err), w)
  | (queryString, none) =>
    match db.query (rolePrefix ++ queryString) args w with
    | (.error err, w) => ((none, some err), w)
    | (.ok rows, w) => (roles.QueryWith.loop rows.Err rows.rows [], w)

/-- `roles.FindByID`. -/
def roles.FindByID (cfg : Config) (db : DB σ) (id : Int) (w : World σ) :
    (Option Role × Option Error) × World σ :=
  roles.QueryRowWith cfg db "WHERE id = ?" [.int64 id] w

/-- `roles.FindByName`. -/
def roles.FindByName (cfg : Config) (db : DB σ) (name : String) (w : World σ) :
    (Option Role × Option Error) × World σ :=
  roles.QueryRowWith cfg db "WHERE name = ?" [.string name] w

/-- `roles.FindByUserID`. -/
def roles.FindByUserID (cfg : Config) (db : DB σ) (userID : Int) (w : World σ) :
    (Option (List (Option Role)) × Option Error) × World σ :=
  roles.QueryWith cfg db
    "WHERE EXISTS (SELECT * FROM tpt_user_roles WHERE user_id = ? AND tpt_roles.id = tpt_user_roles.role_id)"
    [.int64 userID] w

/-- `roles.FindByUserName`. -/
def roles.FindByUserName (cfg : Config) (db : DB σ) (username : String) (w : World σ) :
    (Option (List (Option Role)) × Option Error) × World σ :=
  roles.QueryWith cfg db
    "WHERE EXISTS (SELECT * FROM tpt_user_roles WHERE tpt_roles.id = tpt_user_roles.role_id AND EXISTS (SELECT * FROM tpt_users WHERE name = ? AND tpt_user_roles.user_id = tpt_users.id))"
    [.string username] w

/-- The statement template `sqlString` of `roles.CreateIt`. -/
def roles.CreateIt.sqlString : String :=
  "INSERT INTO tpt_roles(name, description, permission_keys, created_at, updated_at) VALUES (?, ?, ?, ?, ?)"

/-- `roles.CreateIt`.  The result is the returned pair, the entity behind the
pointer `value` after the call, and the world. -/
def roles.CreateIt (cfg : Config) (db : DB σ) (value : Role) (w : World σ) :
    (Int × Option Error) × Role × World σ :=
  let sqlString := roles.CreateIt.sqlString
  match cfg.PlaceholderFormat sqlString with
  | (_, some err) => ((0, some err), value, w)
  | (sqlString, none) =>
    let (now, w) := time.Now w
    if cfg.IsReturning then
      let sqlString := sqlString ++ " RETURNING \"id\""
      let (row, w) := db.queryRow sqlString
        [.string value.Name, .string value.Description, .string value.PermissionKeys,
          .time now, .time now] w
      let (dst, err) := row.Scan [.int64] (value.ID, ())
      let value := { value with ID := dst.1 }
      ((value.ID, err), value, w)
    else
      match db.exec sqlString
        [.string value.Name, .string value.Description, .string value.PermissionKeys,
          .time now, .time now] w with
      | (.error err, w) => ((0, some err), value, w)
      | (.ok result, w) => (result.LastInsertId, value, w)

/-- The statement template `updateString` of `roles.UpdateIt`. -/
def roles.UpdateIt.updateString : String :=
  "UPDATE tpt_roles SET name=?, description=?, permission_keys=?, updated_at=? WHERE id = ?"

/-- `roles.UpdateIt`. -/
def roles.UpdateIt (cfg : Config) (db : DB σ) (value : Role) (w : World σ) :
    Option Error × World σ :=
  if 0 = value.ID then
    (some (ThrowPrimaryKeyInvalid "tpt_roles"), w)
  else
    let updateString := roles.UpdateIt.updateString
    match cfg.PlaceholderFormat updateString with
    | (_, some err) => (some err, w)
    | (updateString, none) =>
      let (now, w) := time.Now w
      match db.exec updateString
        [.string value.Name, .string value.Description, .string value.PermissionKeys,
          .time now, .int64 value.ID] w with
      | (.error err, w) => (some err, w)
      | (.ok result, w) =>
        match result.RowsAffected with
        | (_, some err) => (some err, w)
        | (rowsAffected, none) =>
          if 0 = rowsAffected then (some ErrNotUpdated, w) else (none, w)

/-- The statement template `deleteString` of `roles.DeleteByID`. -/
def roles.DeleteByID.deleteString : String :=
  "DELETE FROM tpt_roles WHERE id = ?"

/-- `roles.DeleteByID`. -/
def roles.DeleteByID (cfg : Config) (db : DB σ) (key : Int) (w : World σ) :
    Option Error × World σ :=
  if 0 = key then
    (some (ThrowPrimaryKeyInvalid "tpt_roles"), w)
  else
    let deleteString := roles.DeleteByID.deleteString
    match cfg.PlaceholderFormat deleteString with
    | (_, some err) => (some err, w)
    | (deleteString, none) =>
      match db.exec deleteString [.int64 key] w with
      | (.error err, w) => (some err, w)
      | (.ok result, w) =>
        match result.RowsAffected with
        | (_, some err) => (some err, w)
        | (rowsAffected, none) =>
          if rowsAffected = 0 then (some ErrNotDeleted, w) else (none, w)

/-- `roles.DeleteIt`. -/
def roles.DeleteIt (cfg : Config) (db : DB σ) (value : Role) (w : World σ) :
    Option Error × World σ :=
  roles.DeleteByID cfg db value.ID w

/-! ## The `users` accessor (`dao.go`, lines 181-405) -/

/-- The destinations of `users.scan`, in the order of the call. -/
@[reducible] def users.scanDests : List Dest :=
  [.int64, .string, .NullString, .NullString, .NullString, .NullString, .NullInt64,
    .NullTime, .NullTime]

/-- `users.scan`: decodes one row into a `User`. -/
def users.scan (scanner : RowScanner) : Option User × Option Error :=
  let value : User := {}
  let nullDescription : NullString := ⟨"", false⟩
  let nullPassword : NullString := ⟨"", false⟩
  let nullPhone : NullString := ⟨"", false⟩
  let nullEmail : NullString := ⟨"", false⟩
  let nullState : NullInt64 := ⟨0, false⟩
  let nullCreatedAt : NullTime := ⟨Time.zero, false⟩
  let nullUpdatedAt : NullTime := ⟨Time.zero, false⟩
  match scanner.Scan users.scanDests
      (value.ID, value.Name, nullDescription, nullPassword, nullPhone, nullEmail,
        nullState, nullCreatedAt, nullUpdatedAt, ()) with
  | (_, some e) => (none, some e)
  | ((id, name, nullDescription, nullPassword, nullPhone, nullEmail, nullState,
        nullCreatedAt, nullUpdatedAt, _), none) =>
    let value := { value with ID := id, Name := name }
    let value :=
      if nullDescription.Valid then { value with Description := nullDescription.String }
      else value
    let value :=
      if nullPassword.Valid then { value with Password := nullPassword.String } else value
    let value :=
      if nullPhone.Valid then { value with Phone := nullPhone.String } else value
    let value :=
      if nullEmail.Valid then { value with Email := nullEmail.String } else value
    let value :=
      if nullState.Valid then { value with State := nullState.Int64 } else value
    let value :=
      if nullCreatedAt.Valid then { value with CreatedAt := nullCreatedAt.Time } else value
    let value :=
      if nullUpdatedAt.Valid then { value with UpdatedAt := nullUpdatedAt.Time } else value
    (some value, none)

/-- The constant `userPrefix`. -/
def userPrefix : String :=
  "select id, name, description, password, phone, email, state, created_at, updated_at from tpt_users "

/-- `users.QueryRowWith`. -/
def users.QueryRowWith (cfg : Config) (db : DB σ) (queryString : String)
    (args : List Value) (w : World σ) : (Option User × Option Error) × World σ :=
  match cfg.PlaceholderFormat queryString with
  | (_, some err) => ((none, some err), w)
  | (queryString, none) =>
    let (row, w) := db.queryRow (userPrefix ++ queryString) args w
    (users.scan row, w)

/-- The `for rows.Next()` loop of `users.QueryWith` up to the `return`. -/
def users.QueryWith.loop (Err : Option Error) :
    List RowScanner → List (Option User) → Option (List (Option User)) × Option Error
  | [], results => (some results, Err)
  | row :: rest, results =>
    match users.scan row with
    | (_, some err) => (none, some err)
    | (v, none) => users.QueryWith.loop Err rest (results ++ [v])

/-- `users.QueryWith`. -/
def users.QueryWith (cfg : Config) (db : DB σ) (queryString : String)
    (args : List Value) (w : World σ) :
    (Option (List (Option User)) × Option Error) × World σ :=
  match cfg.PlaceholderFormat queryString with
  | (_, some err) => ((none, some err), w)
  | (queryString, none) =>
    match db.query (userPrefix ++ queryString) args w with
    | (.error err, w) => ((none, some err), w)
    | (.ok rows, w) => (users.QueryWith.loop rows.Err rows.rows [], w)

/-- `users.FindByID`. -/
def users.FindByID (cfg : Config) (db : DB σ) (id : Int) (w : World σ) :
    (Option User × Option Error) × World σ :=
  users.QueryRowWith cfg db "WHERE id = ?" [.int64 id] w

/-- `users.FindByName`. -/
def users.FindByName (cfg : Config) (db : DB σ) (name : String) (w : World σ) :
    (Option User × Option Error) × World σ :=
  users.QueryRowWith cfg db "WHERE name = ?" [.string name] w

/-- The statement template `insertString` of `users.AddRole`. -/
def users.AddRole.insertString : String :=
  "INSERT INTO tpt_user_roles(user_id, role_id, created_at, updated_at) VALUES (?, ?, ?, ?)"

/-- `users.AddRole`. -/
def users.AddRole (cfg : Config) (db : DB σ) (userID roleID : Int) (w : World σ) :
    Option Error × World σ :=
  let insertString := users.AddRole.insertString
  match cfg.PlaceholderFormat insertString with
  | (_, some err) => (some err, w)
  | (insertString, none) =>
    let (now, w) := time.Now w
    match db.exec insertString [.int64 userID, .int64 roleID, .time now, .time now] w with
    | (.error err, w) => (some err, w)
    | (.ok _, w) => (none, w)

/-- The statement template `deleteString` of `users.RemoveRole`. -/
def users.RemoveRole.deleteString : String :=
  "DELETE FROM tpt_user_roles WHERE user_id = ? AND role_id = ?"

/-- `users.RemoveRole`. -/
def users.RemoveRole (cfg : Config) (db : DB σ) (userID roleID : Int) (w : World σ) :
    Option Error × World σ :=
  let deleteString := users.RemoveRole.deleteString
  match cfg.PlaceholderFormat deleteString with
  | (_, some err) => (some err, w)
  | (deleteString, none) =>
    match db.exec deleteString [.int64 userID, .int64 roleID] w with
    | (.error err, w) => (some err, w)
    | (.ok _, w) => (none, w)

/-- `users.ListRoles`. -/
def users.ListRoles (cfg : Config) (db : DB σ) (userID : Int) (w : World σ) :
    (Option (List (Option Role)) × Option Error) × World σ :=
  roles.FindByUserID cfg db userID w

/-- The statement template `sqlString` of `users.CreateIt`. -/
def users.CreateIt.sqlString : String :=
  "INSERT INTO tpt_users(name, description, password, phone, email, state, created_at, updated_at) VALUES (?, ?, ?, ?, ?, ?, ?, ?)"

/-- `users.CreateIt`. -/
def users.CreateIt (cfg : Config) (db : DB σ) (value : User) (w : World σ) :
    (Int × Option Error) × User × World σ :=
  let sqlString := users.CreateIt.sqlString
  match cfg.PlaceholderFormat sqlString with
  | (_, some err) => ((0, some err), value, w)
  | (sqlString, none) =>
    let (now, w) := time.Now w
    if cfg.IsReturning then
      let sqlString := sqlString ++ " RETURNING \"id\""
      let (row, w) := db.queryRow sqlString
        [.string value.Name, .string value.Description, .string value.Password,
          .string value.Phone, .string value.Email, .int64 value.State,
          .time now, .time now] w
      let (dst, err) := row.Scan [.int64] (value.ID, ())
      let value := { value with ID := dst.1 }
      ((value.ID, err), value, w)
    else
      match db.exec sqlString
        [.string value.Name, .string value.Description, .string value.Password,
          .string value.Phone, .string value.Email, .int64 value.State,
          .time now, .time now] w with
      | (.error err, w) => ((0, some err), value, w)
      | (.ok result, w) => (result.LastInsertId, value, w)

/-- The statement template `updateString` of `users.UpdateIt`. -/
def users.UpdateIt.updateString : String :=
  "UPDATE tpt_users SET name=?, description=?, password=?, phone=?, email=?, state=?, updated_at=? WHERE id = ?"

/-- `users.UpdateIt`. -/
def users.UpdateIt (cfg : Config) (db : DB σ) (value : User) (w : World σ) :
    Option Error × World σ :=
  if 0 = value.ID then
    (some (ThrowPrimaryKeyInvalid "tpt_users"), w)
  else
    let updateString := users.UpdateIt.updateString
    match cfg.PlaceholderFormat updateString with
    | (_, some err) => (some err, w)
    | (updateString, none) =>
      let (now, w) := time.Now w
      match db.exec updateString
        [.string value.Name, .string value.Description, .string value.Password,
          .string value.Phone, .string value.Email, .int64 value.State,
          .time now, .int64 value.ID] w with
      | (.error err, w) => (some err, w)
      | (.ok result, w) =>
        match result.RowsAffected with
        | (_, some err) => (some err, w)
        | (rowsAffected, none) =>
          if 0 = rowsAffected then (some ErrNotUpdated, w) else (none, w)

/-- The statement template `deleteString` of `users.DeleteByID`. -/
def users.DeleteByID.deleteString : String :=
  "DELETE FROM tpt_users WHERE id = ?"

/-- `users.DeleteByID`. -/
def users.DeleteByID (cfg : Config) (db : DB σ) (key : Int) (w : World σ) :
    Option Error × World σ :=
  if 0 = key then
    (some (ThrowPrimaryKeyInvalid "tpt_users"), w)
  else
    let deleteString := users.DeleteByID.deleteString
    match cfg.PlaceholderFormat deleteString with
    | (_, some err) => (some err, w)
    | (deleteString, none) =>
      match db.exec deleteString [.int64 key] w with
      | (.error err, w) => (some err, w)
      | (.ok result, w) =>
        match result.RowsAffected with
        | (_, some err) => (some err, w)
        | (rowsAffected, none) =>
          if rowsAffected = 0 then (some ErrNotDeleted, w) else (none, w)

/-- `users.DeleteIt`. -/
def users.DeleteIt (cfg : Config) (db : DB σ) (value : User) (w : World σ) :
    Option Error × World σ :=
  users.DeleteByID cfg db value.ID w

/-! ## The `userProfiles` accessor (`dao.go`, lines 407-573) -/

/-- The destinations of `userProfiles.scan`, in the order of the call. -/
@[reducible] def userProfiles.scanDests : List Dest :=
  [.int64, .NullString, .NullString, .NullString, .NullTime, .NullTime]

/-- `userProfiles.scan`: decodes one row into a `UserProfile`. -/
def userProfiles.scan (scanner : RowScanner) : Option UserProfile × Option Error :=
  let value : UserProfile := {}
  let nullUser : NullString := ⟨"", false⟩
  let nullName : NullString := ⟨"", false⟩
  let nullValue : NullString := ⟨"", false⟩
  let nullCreatedAt : NullTime := ⟨Time.zero, false⟩
  let nullUpdatedAt : NullTime := ⟨Time.zero, false⟩
  match scanner.Scan userProfiles.scanDests
      (value.ID, nullUser, nullName, nullValue, nullCreatedAt, nullUpdatedAt, ()) with
  | (_, some e) => (none, some e)
  | ((id, nullUser, nullName, nullValue, nullCreatedAt, nullUpdatedAt, _), none) =>
    let value := { value with ID := id }
    let value :=
      if nullUser.Valid then { value with User := nullUser.String } else value
    let value :=
      if nullName.Valid then { value with Name := nullName.String } else value
    let value :=
      if nullValue.Valid then { value with Value := nullValue.String } else value
    let value :=
      if nullCreatedAt.Valid then { value with CreatedAt := nullCreatedAt.Time } else value
    let value :=
      if nullUpdatedAt.Valid then { value with UpdatedAt := nullUpdatedAt.Time } else value
    (some value, none)

/-- The constant `userProfilePrefix`. -/
def userProfilePrefix : String :=
  "select id, usr, name, value, created_at, updated_at from tpt_user_profiles "

/-- `userProfiles.QueryRowWith`. -/
def userProfiles.QueryRowWith (cfg : Config) (db : DB σ) (queryString : String)
    (args : List Value) (w : World σ) : (Option UserProfile × Option Error) × World σ :=
  match cfg.PlaceholderFormat queryString with
  | (_, some err) => ((none, some err), w)
  | (queryString, none) =>
    let (row, w) := db.queryRow (userProfilePrefix ++ queryString) args w
    (userProfiles.scan row, w)

/-- The `for rows.Next()` loop of `userProfiles.QueryWith` up to the `return`. -/
def userProfiles.QueryWith.loop (Err : Option Error) :
    List RowScanner → List (Option UserProfile) →
      Option (List (Option UserProfile)) × Option Error
  | [], results => (some results, Err)
  | row :: rest, results =>
    match userProfiles.scan row with
    | (_, some err) => (none, some err)
    | (v, none) => userProfiles.QueryWith.loop Err rest (results ++ [v])

/-- `userProfiles.QueryWith`. -/
def userProfiles.QueryWith (cfg : Config) (db : DB σ) (queryString : String)
    (args : List Value) (w : World σ) :
    (Option (List (Option UserProfile)) × Option Error) × World σ :=
  match cfg.PlaceholderFormat queryString with
  | (_, some err) => ((none, some err), w)
  | (queryString, none) =>
    match db.query (userProfilePrefix ++ queryString) args w with
    | (.error err, w) => ((none, some err), w)
    | (.ok rows, w) => (userProfiles.QueryWith.loop rows.Err rows.rows [], w)

/-- `userProfiles.FindByID`. -/
def userProfiles.FindByID (cfg : Config) (db : DB σ) (id : Int) (w : World σ) :
    (Option UserProfile × Option Error) × World σ :=
  userProfiles.QueryRowWith cfg db "WHERE id = ?" [.int64 id] w

/-- The statement template `sqlString` of `userProfiles.CreateIt`. -/
def userProfiles.CreateIt.sqlString : String :=
  "INSERT INTO tpt_user_profiles(usr, name, value, created_at, updated_at) VALUES (?, ?, ?, ?, ?)"

/-- `userProfiles.CreateIt`. -/
def userProfiles.CreateIt (cfg : Config) (db : DB σ) (value : UserProfile) (w : World σ) :
    (Int × Option Error) × UserProfile × World σ :=
  let sqlString := userProfiles.CreateIt.sqlString
  match cfg.PlaceholderFormat sqlString with
  | (_, some err) => ((0, some err), value, w)
  | (sqlString, none) =>
    let (now, w) := time.Now w
    if cfg.IsReturning then
      let sqlString := sqlString ++ " RETURNING \"id\""
      let (row, w) := db.queryRow sqlString
        [.string value.User, .string value.Name, .string value.Value,
          .time now, .time now] w
      let (dst, err) := row.Scan [.int64] (value.ID, ())
      let value := { value with ID := dst.1 }
      ((value.ID, err), value, w)
    else
      match db.exec sqlString
        [.string value.User, .string value.Name, .string value.Value,
          .time now, .time now] w with
      | (.error err, w) => ((0, some err), value, w)
      | (.ok result, w) => (result.LastInsertId, value, w)

/-- The statement template `updateString` of `userProfiles.UpdateIt`. -/
def userProfiles.UpdateIt.updateString : String :=
  "UPDATE tpt_user_profiles SET usr=?, name=?, value=?, updated_at=? WHERE id = ?"

/-- `userProfiles.UpdateIt`. -/
def userProfiles.UpdateIt (cfg : Config) (db : DB σ) (value : UserProfile) (w : World σ) :
    Option Error × World σ :=
  if 0 = value.ID then
    (some (ThrowPrimaryKeyInvalid "tpt_user_profiles"), w)
  else
    let updateString := userProfiles.UpdateIt.updateString
    match cfg.PlaceholderFormat updateString with
    | (_, some err) => (some err, w)
    | (updateString, none) =>
      let (now, w) := time.Now w
      match db.exec updateString
        [.string value.User, .string value.Name, .string value.Value,
          .time now, .int64 value.ID] w with
      | (.error err, w) => (some err, w)
      | (.ok result, w) =>
        match result.RowsAffected with
        | (_, some err) => (some err, w)
        | (rowsAffected, none) =>
          if 0 = rowsAffected then (some ErrNotUpdated, w) else (none, w)

/-- The statement template `deleteString` of `userProfiles.DeleteByID`. -/
def userProfiles.DeleteByID.deleteString : String :=
  "DELETE FROM tpt_user_profiles WHERE id = ?"

/-- `userProfiles.DeleteByID`. -/
def userProfiles.DeleteByID (cfg : Config) (db : DB σ) (key : Int) (w : World σ) :
    Option Error × World σ :=
  if 0 = key then
    (some (ThrowPrimaryKeyInvalid "tpt_user_profiles"), w)
  else
    let deleteString := userProfiles.DeleteByID.deleteString
    match cfg.PlaceholderFormat deleteString with
    | (_, some err) => (some err, w)
    | (deleteString, none) =>
      match db.exec deleteString [.int64 key] w with
      | (.error err, w) => (some err, w)
      | (.ok result, w) =>
        match result.RowsAffected with
        | (_, some err) => (some err, w)
        | (rowsAffected, none) =>
          if rowsAffected = 0 then (some ErrNotDeleted, w) else (none, w)

/-- `userProfiles.DeleteIt`. -/
def userProfiles.DeleteIt (cfg : Config) (db : DB σ) (value : UserProfile) (w : World σ) :
    Option Error × World σ :=
  userProfiles.DeleteByID cfg db value.ID w

/-! ## The contents of the scan destinations before `Scan` is called -/

/-- The destinations of `roles.scan` at the call: all hold their zero value. -/
def roles.scanZero : Dests roles.scanDests :=
  (0, "", ⟨"", false⟩, ⟨"", false⟩, ⟨Time.zero, false⟩, ⟨Time.zero, false⟩, ())

/-- The destinations of `users.scan` at the call: all hold their zero value. -/
def users.scanZero : Dests users.scanDests :=
  (0, "", ⟨"", false⟩, ⟨"", false⟩, ⟨"", false⟩, ⟨"", false⟩, ⟨0, false⟩,
    ⟨Time.zero, false⟩, ⟨Time.zero, false⟩, ())

/-- The destinations of `userProfiles.scan` at the call: all hold their zero
value. -/
def userProfiles.scanZero : Dests userProfiles.scanDests :=
  (0, ⟨"", false⟩, ⟨"", false⟩, ⟨"", false⟩, ⟨Time.zero, false⟩, ⟨Time.zero, false⟩, ())

/-! ## Statement shapes, for reading the templates -/

/-- The text `select c1, c2, ... from table ` with a trailing blank. -/
def selectList (columns : List String) (table : String) : String :=
  "select " ++ ", ".intercalate columns ++ " from " ++ table ++ " "

/-- The text `INSERT INTO table(c1, c2, ...) VALUES (?, ?, ...)` with one
marker for each column. -/
def insertInto (table : String) (columns : List String) : String :=
  "INSERT INTO " ++ table ++ "(" ++ ", ".intercalate columns ++ ") VALUES ("
    ++ ", ".intercalate (columns.map fun _ => "?") ++ ")"

/-! ## Sample collaborators, for instantiating the theorems -/

/-- A value in a column of a sample row; `null` is SQL NULL. -/
inductive Cell where
  | null
  | int64 (v : Int)
  | string (s : String)
  | time (t : Time)
deriving DecidableEq, Repr

/-- What a sample row writes into a destination for a cell: a plain `int64` or
`string` destination takes a cell of its own type and nothing else (NULL
included); a `NullString` or `NullInt64` holder takes NULL as invalid and a
cell of its own type as valid; a `NullTime` holder is valid for a time and
invalid, with the zero time, for anything else.  `none` is a failed
conversion. -/
def Dest.convert : (d : Dest) → Cell → Option d.Holds
  | .int64, .int64 v => some v
  | .string, .string s => some s
  | .NullString, .null => some ⟨"", false⟩
  | .NullString, .string s => some ⟨s, true⟩
  | .NullInt64, .null => some ⟨0, false⟩
  | .NullInt64, .int64 v => some ⟨v, true⟩
  | .NullTime, .time t => some ⟨t, true⟩
  | .NullTime, _ => some ⟨Time.zero, false⟩
  | _, _ => none

/-- Filling destinations from cells, position by position; a failed
conversion, or a wrong number of destinations, is an error and leaves the
remaining destinations as they were. -/
def Cell.fill : (ds : List Dest) → List Cell → Dests ds → Dests ds × Option Error
  | [], [], _ => ((), none)
  | [], _ :: _, cur => (cur, some (errors.New "sql: expected fewer destination arguments"))
  | _ :: _, [], cur => (cur, some (errors.New "sql: expected more destination arguments"))
  | d :: ds, c :: cs, (cur, rest) =>
    match d.convert c with
    | none => ((cur, rest), some (errors.New "sql: Scan error: unsupported conversion"))
    | some v => ((v, (Cell.fill ds cs rest).1), (Cell.fill ds cs rest).2)

/-- A sample row holding the given cells. -/
def sampleRow (cells : List Cell) : RowScanner :=
  ⟨fun ds cur => Cell.fill ds cells cur⟩

/-- A sample row whose fetch fails, as `*sql.Row` does when the query matched
nothing. -/
def failingRow (e : Error) : RowScanner :=
  ⟨fun _ cur => (cur, some e)⟩

/-- A sample store: it counts the statements it receives and answers every
`Exec`, `QueryRow` and `Query` with the given results. -/
def sampleDB (exec : Except Error Result) (row : RowScanner) (rows : Except Error Rows) :
    DB Nat where
  Exec := fun _ _ s => (exec, s + 1)
  QueryRow := fun _ _ s => (row, s + 1)
  Query := fun _ _ s => (rows, s + 1)

/-- A sample world: an untouched store and a clock showing 1000, 1001, ... -/
def sampleWorld : World Nat :=
  { store := 0, issued := [], clock := fun n => ⟨1000 + n⟩, ticks := 0 }

/-- The store's error for an empty single-row result, `sql.ErrNoRows`. -/
def ErrNoRows : Error := errors.New "sql: no rows in result set"

/-- The package defaults: `PlaceholderFormat = Question`, `IsReturning = false`. -/
def defaultConfig : Config :=
  { PlaceholderFormat := Question, IsReturning := false }

/-- The configuration with the given `IsReturning` and `PlaceholderFormat = Question`. -/
def questionConfig (isReturning : Bool) : Config :=
  { PlaceholderFormat := Question, IsReturning := isReturning }

/-! ## The affected-row check, in the words of the specification -/

/-- What is asked of a targeted mutation whose statement the store answered
with `out`: a failed execution or a failed affected-row query is returned as
it is; with an affected-row count `n` the result is `sentinel` when `n = 0`
and `nil` otherwise. -/
def AffectedRowsContract (out : Except Error Result) (sentinel : Error)
    (ret : Option Error) : Prop :=
  (∀ e, out = .error e → ret = some e) ∧
  (∀ res n e, out = .ok res → res.RowsAffected = (n, some e) → ret = some e) ∧
  (∀ res n, out = .ok res → res.RowsAffected = (n, none) →
    (ret = some sentinel ↔ n = 0) ∧ (n ≠ 0 → ret = none))

/-- A sample role row: role 3, named "admin", with a NULL description and a
NULL updated_at. -/
def sampleRoleRow : RowScanner :=
  sampleRow [.int64 3, .string "admin", .null, .string "k1,k2", .time ⟨5⟩, .null]

/-- A sample store that executes every statement, reports one affected row
and 7 as the last inserted identity, and answers every single-row query with a
row holding the identity 7. -/
def insertingDB : DB Nat :=
  sampleDB (.ok ⟨(7, none), (1, none)⟩) (sampleRow [.int64 7]) (.error ErrNoRows)


/-! ## The numbered policy as a configuration, and reading markers -/

/-- `Dollar` as a value of `PlaceholderFormat`.  The loop of `Dollar` always
ends within its fuel; were it not to, the call would not return, which is
shown here as an error. -/
def Dollar.format (sql : String) : String × Option Error :=
  match Dollar sql with
  | some r => r
  | none => (sql, some (errors.New "Dollar: the loop did not end"))

/-- The configuration of the tests: `PlaceholderFormat = Dollar` with the given
`IsReturning`. -/
def dollarConfig (isReturning : Bool) : Config :=
  { PlaceholderFormat := Dollar.format, IsReturning := isReturning }

/-- Whether a text contains a doubled marker `??`. -/
def hasDoubledMarker : List Char → Bool
  | [] => false
  | [_] => false
  | c :: d :: rest => (c == '?' && d == '?') || hasDoubledMarker (d :: rest)

/-- The number of `?` characters of a text. -/
def countMarkers (s : List Char) : Nat :=
  s.count '?'

/-- Reading the numbered markers of a text from left to right.  The state is
`none` outside a marker, `some none` right after a `$`, and `some (some v)`
inside the digits of a marker whose digits so far read `v`. -/
def dollarMarkers.go : Option (Option Nat) → List Char → List Nat
  | some (some v), [] => [v]
  | _, [] => []
  | st, c :: cs =>
    if c.isDigit then
      match st with
      | none => dollarMarkers.go none cs
      | some none => dollarMarkers.go (some (some (c.toNat - '0'.toNat))) cs
      | some (some v) => dollarMarkers.go (some (some (10 * v + (c.toNat - '0'.toNat)))) cs
    else
      (match st with
        | some (some v) => [v]
        | _ => []) ++ dollarMarkers.go (if c = '$' then some none else none) cs

/-- The numbers of the markers `$n` of a text (a `$` directly followed by
decimal digits), in the order in which they occur. -/
def dollarMarkers (s : List Char) : List Nat :=
  dollarMarkers.go none s

/-- The placeholder arity of one call, in the words of the claim: the template
has no doubled marker and as many `?` as there are bound arguments `k`; the
call hands one statement to the store, with `k` arguments, in whose text no `?`
is left and the numbered markers are `$1`, ..., `$k`, once each, in increasing
order. -/
def PlaceholderArity (template : String) (k : Nat) (before after : List Statement) :
    Prop :=
  hasDoubledMarker template.data = false ∧ countMarkers template.data = k ∧
  ∃ s : Statement, after = before ++ [s] ∧ s.args.length = k ∧
    '?' ∉ s.query.data ∧ dollarMarkers s.query.data = List.range' 1 k

/-! ## A reference store

The store behind `*sql.DB` is a collaborator of the package and not part of its
source.  For the claims that speak of what is read back after a write, the
store is modelled from the schema contract of the specification (§6; the same
four tables are created by `dbTest` in `user_test.go`): it reads the text of
each statement, binds the arguments to the markers, and runs the statement on
its tables. -/

/-- Modelled from the spec: the store's tables (§6).  A row of a table gives
the content of each column by name; a column the table does not have reads
NULL. -/
abbrev Record := String → Cell

/-- Modelled from the spec: the store's state (§6): the rows of each table by
table name, oldest first, and the last identity the store assigned in each
table. -/
structure Store where
  rows : String → List Record
  serial : String → Int

/-- Modelled from the spec: the declaration of one table of the schema
contract (§6): its columns in order, the columns other than `id` that are
unique, and the columns that refer to the `id` of another table with a
cascading delete. -/
structure TableDef where
  name : String
  columns : List String
  unique : List String
  references : List (String × String)
deriving DecidableEq, Repr

/-- Modelled from the spec: the schema contract (§6): roles, users,
user_profiles and user_roles with their columns, unique names for roles and
users, and user_roles referring to users and roles. -/
def schema : List TableDef :=
  [ { name := "tpt_roles",
      columns := ["id", "name", "description", "permission_keys", "created_at", "updated_at"],
      unique := ["name"], references := [] },
    { name := "tpt_users",
      columns := ["id", "name", "description", "password", "phone", "email", "state",
        "created_at", "updated_at"],
      unique := ["name"], references := [] },
    { name := "tpt_user_profiles",
      columns := ["id", "usr", "name", "value", "created_at", "updated_at"],
      unique := [], references := [] },
    { name := "tpt_user_roles",
      columns := ["id", "user_id", "role_id", "created_at", "updated_at"],
      unique := [], references := [("user_id", "tpt_users"), ("role_id", "tpt_roles")] } ]

/-- Modelled from the spec: the declaration of a table of the schema by name. -/
def tableDef (table : String) : Option TableDef :=
  schema.find? fun t => t.name == table

/-- Modelled from the spec: an operand of a statement of the store: the
argument bound to a marker (counted from 1), or a column of a table in scope
(scope 0 is the innermost table). -/
inductive Operand where
  | param (n : Nat)
  | column (scope : Nat) (name : String)
deriving DecidableEq, Repr

/-- Modelled from the spec: a condition of a statement of the store: an
equality, a conjunction, or `EXISTS (SELECT * FROM table WHERE cond)`. -/
inductive Cond where
  | eq (a b : Operand)
  | and (c d : Cond)
  | exists (table : String) (c : Cond)
deriving DecidableEq, Repr

/-- Modelled from the spec: the statements the store understands (§6:
single-row and multi-row query, statement execution), as read from their
text. -/
inductive Sql where
  | select (columns : List String) (table : String) (cond : Cond)
  | insert (table : String) (columns : List String) (values : List Operand)
      (returning : Option String)
  | update (table : String) (sets : List (String × Operand)) (cond : Cond)
  | delete (table : String) (cond : Cond)
deriving DecidableEq, Repr

/-! ### Reading the text of a statement -/

/-- Modelled from the spec: a piece of statement text: an identifier-like
word (letters, digits, `_`, `.`, `$`), a double-quoted identifier, or a single
other character. -/
inductive Lexeme where
  | word (cs : List Char)
  | quoted (cs : List Char)
  | punct (c : Char)
deriving DecidableEq, Repr

/-- Modelled from the spec: whether a character belongs to a word. -/
def isWordChar (c : Char) : Bool :=
  c.isAlphanum || c == '_' || c == '.' || c == '$'

/-- Modelled from the spec: the word gathered so far, if any. -/
def Lexeme.flush (acc : List Char) : List Lexeme :=
  if acc.isEmpty then [] else [.word acc]

/-- Modelled from the spec: cutting statement text into pieces; `acc` is the
word being gathered and `inQuote` tells whether a double quote is open.  An
unclosed quote is kept as a lone quote character. -/
def lexemes : List Char → List Char → Bool → List Lexeme
  | [], acc, false => Lexeme.flush acc
  | [], _, true => [.punct '"']
  | c :: cs, acc, true =>
    if c = '"' then .quoted acc :: lexemes cs [] false else lexemes cs (acc ++ [c]) true
  | c :: cs, acc, false =>
    if c = '"' then Lexeme.flush acc ++ lexemes cs [] true
    else if isWordChar c then lexemes cs (acc ++ [c]) false
    else if c.isWhitespace then Lexeme.flush acc ++ lexemes cs [] false
    else Lexeme.flush acc ++ .punct c :: lexemes cs [] false

/-- Modelled from the spec: a token of a statement: a name with an optional
table qualifier (unquoted names and keywords are folded to lower case), a
marker with the number of the argument it stands for, or punctuation. -/
inductive Token where
  | name (qualifier : Option String) (name : String)
  | param (n : Nat)
  | lparen
  | rparen
  | comma
  | eq
  | star
  | bad
deriving DecidableEq, Repr

/-- Modelled from the spec: the number written by a non-empty run of decimal
digits, most significant first; `acc` is the value read so far. -/
def digitsValue : List Char → Nat → Option Nat
  | [], _ => none
  | [c], acc => if c.isDigit then some (10 * acc + (c.toNat - '0'.toNat)) else none
  | c :: d :: cs, acc =>
    if c.isDigit then digitsValue (d :: cs) (10 * acc + (c.toNat - '0'.toNat)) else none

/-- Modelled from the spec: the token of a word: `$n` is the marker of
argument `n`, `t.c` a qualified name, anything else a name. -/
def Token.ofWord (cs : List Char) : Token :=
  match cs with
  | '$' :: ds =>
    match digitsValue ds 0 with
    | some n => .param n
    | none => .bad
  | _ =>
    let lower := cs.map Char.toLower
    match lower.span (· != '.') with
    | (n, []) => .name none (String.mk n)
    | (t, _ :: c) => .name (some (String.mk t)) (String.mk c)

/-- Modelled from the spec: the tokens of a list of pieces; the `k`-th `?`
from the left is the marker of argument `k` (`used` counts the `?` seen). -/
def tokens : List Lexeme → Nat → List Token
  | [], _ => []
  | .word cs :: rest, used => Token.ofWord cs :: tokens rest used
  | .quoted cs :: rest, used => .name none (String.mk cs) :: tokens rest used
  | .punct c :: rest, used =>
    if c = '?' then .param (used + 1) :: tokens rest (used + 1)
    else if c = '(' then .lparen :: tokens rest used
    else if c = ')' then .rparen :: tokens rest used
    else if c = ',' then .comma :: tokens rest used
    else if c = '=' then .eq :: tokens rest used
    else if c = '*' then .star :: tokens rest used
    else .bad :: tokens rest used

/-- Modelled from the spec: whether a table of the schema has a column. -/
def hasColumn (table column : String) : Bool :=
  match tableDef table with
  | some t => t.columns.contains column
  | none => false

/-- Modelled from the spec: resolving an unqualified column: the innermost
table in scope that has it. -/
def resolveColumn : List String → String → Nat → Option Operand
  | [], _, _ => none
  | t :: scopes, c, depth =>
    if hasColumn t c then some (.column depth c) else resolveColumn scopes c (depth + 1)

/-- Modelled from the spec: resolving a qualified column `t.c`: the innermost
scope of table `t`, which must have the column. -/
def resolveQualified : List String → String → String → Nat → Option Operand
  | [], _, _, _ => none
  | s :: scopes, t, c, depth =>
    if s = t then (if hasColumn t c then some (.column depth c) else none)
    else resolveQualified scopes t c (depth + 1)

/-- Modelled from the spec: an operand from a token, with the tables in scope
(innermost first). -/
def Operand.ofToken (scopes : List String) : Token → Option Operand
  | .param n => some (.param n)
  | .name none c => resolveColumn scopes c 0
  | .name (some t) c => resolveQualified scopes t c 0
  | _ => none

/-- Modelled from the spec: reading a condition `atom AND atom ...`, an atom
being `operand = operand` or `EXISTS (SELECT * FROM table WHERE condition)`;
the result is the condition and the tokens after it.  The fuel bounds the
nesting and the number of atoms; `none` is a text that is not a condition. -/
def Cond.read : Nat → List String → List Token → Option (Cond × List Token)
  | 0, _, _ => none
  | fuel + 1, scopes, toks =>
    let atom : Option (Cond × List Token) :=
      match toks with
      | .name none "exists" :: .lparen :: .name none "select" :: .star ::
          .name none "from" :: .name none t :: .name none "where" :: rest =>
        if (tableDef t).isSome then
          match Cond.read fuel (t :: scopes) rest with
          | some (c, .rparen :: rest) => some (.exists t c, rest)
          | _ => none
        else none
      | a :: .eq :: b :: rest =>
        match Operand.ofToken scopes a, Operand.ofToken scopes b with
        | some x, some y => some (.eq x y, rest)
        | _, _ => none
      | _ => none
    match atom with
    | some (c, .name none "and" :: rest) =>
      match Cond.read fuel scopes rest with
      | some (d, rest) => some (.and c d, rest)
      | none => none
    | r => r

/-- Modelled from the spec: reading `name, name, ...`: the names and the
tokens after them. -/
def readNames : List Token → List String × List Token
  | .name none c :: .comma :: rest => (c :: (readNames rest).1, (readNames rest).2)
  | .name none c :: rest => ([c], rest)
  | rest => ([], rest)

/-- Modelled from the spec: reading `marker, marker, ...`: the operands and the
tokens after them. -/
def readParams : List Token → List Operand × List Token
  | .param n :: .comma :: rest => (.param n :: (readParams rest).1, (readParams rest).2)
  | .param n :: rest => ([.param n], rest)
  | rest => ([], rest)

/-- Modelled from the spec: reading `column = marker, column = marker, ...`:
the assignments and the tokens after them. -/
def readSets : List Token → List (String × Operand) × List Token
  | .name none c :: .eq :: .param n :: .comma :: rest =>
    ((c, .param n) :: (readSets rest).1, (readSets rest).2)
  | .name none c :: .eq :: .param n :: rest => ([(c, .param n)], rest)
  | rest => ([], rest)

/-- Modelled from the spec: whether all the named columns are columns of the
table. -/
def hasColumns (table : String) (columns : List String) : Bool :=
  columns.all fun c => hasColumn table c

/-- Modelled from the spec: reading the tokens of a statement: a select of
named columns from one table with a condition, an insert of markers into named
columns with an optional `RETURNING column`, an update of named columns to
markers with a condition, or a delete with a condition.  Tables and columns
must be in the schema; `none` is a text the store rejects. -/
def Sql.ofTokens (toks : List Token) : Option Sql :=
  match toks with
  | .name none "select" :: rest =>
    match readNames rest with
    | (columns, .name none "from" :: .name none t :: .name none "where" :: rest) =>
      if columns ≠ [] ∧ hasColumns t columns then
        match Cond.read rest.length [t] rest with
        | some (c, []) => some (.select columns t c)
        | _ => none
      else none
    | _ => none
  | .name none "insert" :: .name none "into" :: .name none t :: .lparen :: rest =>
    match readNames rest with
    | (columns, .rparen :: .name none "values" :: .lparen :: rest) =>
      if columns ≠ [] ∧ hasColumns t columns then
        match readParams rest with
        | (values, [.rparen]) =>
          if values.length = columns.length then some (.insert t columns values none)
          else none
        | (values, [.rparen, .name none "returning", .name none r]) =>
          if values.length = columns.length ∧ hasColumn t r then
            some (.insert t columns values (some r))
          else none
        | _ => none
      else none
    | _ => none
  | .name none "update" :: .name none t :: .name none "set" :: rest =>
    match readSets rest with
    | (sets, .name none "where" :: rest) =>
      if sets ≠ [] ∧ hasColumns t (sets.map Prod.fst) then
        match Cond.read rest.length [t] rest with
        | some (c, []) => some (.update t sets c)
        | _ => none
      else none
    | _ => none
  | .name none "delete" :: .name none "from" :: .name none t :: .name none "where" :: rest =>
    if (tableDef t).isSome then
      match Cond.read rest.length [t] rest with
      | some (c, []) => some (.delete t c)
      | _ => none
    else none
  | _ => none

/-- Modelled from the spec: reading the text of a statement. -/
def Sql.read (query : String) : Option Sql :=
  Sql.ofTokens (tokens (lexemes query.data [] false) 0)

/-! ### Running a statement -/

/-- Modelled from the spec: the cell the store keeps for a bound argument. -/
def Value.toCell : Value → Cell
  | .int64 v => .int64 v
  | .string s => .string s
  | .time t => .time t

/-- Modelled from the spec: equality in a condition: NULL is equal to
nothing, two other cells are equal when they are the same. -/
def Cell.sqlEq : Cell → Cell → Bool
  | .null, _ => false
  | _, .null => false
  | a, b => decide (a = b)

/-- Modelled from the spec: the cell of an operand, with the bound arguments
and the rows in scope (innermost first). -/
def Operand.eval (args : List Value) (scopes : List Record) : Operand → Cell
  | .param n =>
    match n with
    | 0 => .null
    | k + 1 =>
      match args.get? k with
      | some v => v.toCell
      | none => .null
  | .column scope name =>
    match scopes.get? scope with
    | some r => r name
    | none => .null

/-- Modelled from the spec: whether a condition holds, with the store, the
bound arguments and the rows in scope (innermost first). -/
def Cond.eval (s : Store) (args : List Value) : Cond → List Record → Bool
  | .eq a b, scopes => (a.eval args scopes).sqlEq (b.eval args scopes)
  | .and c d, scopes => Cond.eval s args c scopes && Cond.eval s args d scopes
  | .exists table c, scopes => (s.rows table).any fun r => Cond.eval s args c (r :: scopes)

/-- Modelled from the spec: the highest argument number an operand uses. -/
def Operand.arity : Operand → Nat
  | .param n => n
  | .column _ _ => 0

/-- Modelled from the spec: the highest argument number a condition uses. -/
def Cond.arity : Cond → Nat
  | .eq a b => max a.arity b.arity
  | .and c d => max c.arity d.arity
  | .exists _ c => c.arity

/-- Modelled from the spec: the number of arguments a statement requires: the
highest argument number it uses. -/
def Sql.arity : Sql → Nat
  | .select _ _ cond => cond.arity
  | .insert _ _ values _ => (values.map Operand.arity).foldl max 0
  | .update _ sets cond => max ((sets.map fun p => p.2.arity).foldl max 0) cond.arity
  | .delete _ cond => cond.arity

/-- Modelled from the spec: what running a statement gives: the new state,
the rows of the result, the number of affected rows and the identity of the
inserted row. -/
structure Outcome where
  store : Store
  rows : List (List Cell)
  affected : Int
  lastId : Int

/-- Modelled from the spec: the state with the rows of one table replaced. -/
def Store.setRows (s : Store) (table : String) (rows : List Record) : Store :=
  { s with rows := fun t => if t = table then rows else s.rows t }

/-- Modelled from the spec: a row with some columns replaced. -/
def Record.set (r : Record) (sets : List (String × Cell)) : Record :=
  fun c =>
    match sets.lookup c with
    | some v => v
    | none => r c

/-- Modelled from the spec: the row an insert writes: the named columns hold
the bound cells, `id` when not named holds the identity the store assigns,
every other column is NULL. -/
def insertRecord (id : Int) (columns : List String) (cells : List Cell) : Record :=
  fun c =>
    match (columns.zip cells).lookup c with
    | some v => v
    | none => if c = "id" then .int64 id else .null

/-- Modelled from the spec: whether a row has, in a unique column, a value
some row of the table already has. -/
def violatesUnique (rows : List Record) (r : Record) (column : String) : Bool :=
  rows.any fun x => (x column).sqlEq (r column)

/-- Modelled from the spec: whether a row refers, in a referring column, to
an identity the referred table does not have. -/
def missingReference (s : Store) (r : Record) (ref : String × String) : Bool :=
  r ref.1 != .null && !((s.rows ref.2).any fun x => (x "id").sqlEq (r ref.1))

/-- Modelled from the spec: whether no two rows have equal values in a
column. -/
def distinctOn : List Record → String → Bool
  | [], _ => true
  | r :: rest, c => !(rest.any fun x => (x c).sqlEq (r c)) && distinctOn rest c

/-- Modelled from the spec: the identity held by a row. -/
def Record.id (r : Record) : Int :=
  match r "id" with
  | .int64 v => v
  | _ => 0

/-- Modelled from the spec: a select (§6): the named columns of the rows that
meet the condition, in table order; the state is unchanged. -/
def Store.select (s : Store) (table : String) (hit : Record → Bool)
    (columns : List String) : Outcome :=
  { store := s, rows := ((s.rows table).filter hit).map fun r => columns.map r,
    affected := 0, lastId := 0 }

/-- Modelled from the spec: the result rows of an insert: with `RETURNING
column`, one row holding that column of the inserted row; otherwise none. -/
def returningRows (r : Record) : Option String → List (List Cell)
  | some c => [[r c]]
  | none => []

/-- Modelled from the spec: an insert (§6; "every entity's identity is assigned
by the store on creation", "Name is unique per Role and per User at the store
level"): the row gets the next identity of the table unless `id` is named; the
insert fails when the identity or a unique column repeats a value of the
table, or a referring column names an identity that does not exist. -/
def Store.insert (s : Store) (td : TableDef) (columns : List String) (cells : List Cell)
    (returning : Option String) : Except Error Outcome :=
  if ("id" :: td.unique).any
      (violatesUnique (s.rows td.name) (insertRecord (s.serial td.name + 1) columns cells))
  then
    .error (errors.New "pq: duplicate key value violates unique constraint")
  else if td.references.any
      (missingReference s (insertRecord (s.serial td.name + 1) columns cells)) then
    .error (errors.New "pq: insert or update violates foreign key constraint")
  else
    .ok { store :=
            { rows := fun t =>
                if t = td.name then
                  s.rows td.name ++ [insertRecord (s.serial td.name + 1) columns cells]
                else s.rows t,
              serial := fun t =>
                if t = td.name ∧ ¬ columns.contains "id" then s.serial td.name + 1
                else s.serial t },
          rows := returningRows (insertRecord (s.serial td.name + 1) columns cells) returning,
          affected := 1,
          lastId := (insertRecord (s.serial td.name + 1) columns cells).id }

/-- Modelled from the spec: an update (§6): the rows that meet the condition
are rewritten, under the same constraints as an insert, and their number is
reported. -/
def Store.update (s : Store) (td : TableDef) (hit : Record → Bool)
    (change : Record → Record) : Except Error Outcome :=
  if ("id" :: td.unique).any
      (fun c => !distinctOn ((s.rows td.name).map fun r => if hit r then change r else r) c)
  then
    .error (errors.New "pq: duplicate key value violates unique constraint")
  else if td.references.any (fun ref =>
      ((s.rows td.name).map fun r => if hit r then change r else r).any
        fun r => missingReference s r ref) then
    .error (errors.New "pq: insert or update violates foreign key constraint")
  else
    .ok { store :=
            s.setRows td.name ((s.rows td.name).map fun r => if hit r then change r else r),
          rows := [],
          affected := ((s.rows td.name).filter hit).length,
          lastId := 0 }

/-- Modelled from the spec: a delete (§6, "cascading delete from roles/users to
user_roles enforced by the store"): the rows that meet the condition are
removed, and with them the rows of other tables that refer to them; the
number of rows removed from the table itself is reported. -/
def Store.delete (s : Store) (table : String) (hit : Record → Bool) : Outcome :=
  { store :=
      { s with
        rows := fun t =>
          match tableDef t with
          | some td =>
            ((s.setRows table ((s.rows table).filter fun r => !hit r)).rows t).filter fun r =>
              !(td.references.any fun ref =>
                ref.2 == table &&
                  ((s.rows table).filter hit).any fun d => (d "id").sqlEq (r ref.1))
          | none => (s.setRows table ((s.rows table).filter fun r => !hit r)).rows t },
    rows := [], affected := ((s.rows table).filter hit).length, lastId := 0 }

/-- Modelled from the spec: running a statement on a state with bound
arguments (§6). -/
def Sql.run (s : Store) (args : List Value) : Sql → Except Error Outcome
  | .select columns table cond =>
    .ok (s.select table (fun r => cond.eval s args [r]) columns)
  | .insert table columns values returning =>
    match tableDef table with
    | none => .error (errors.New "pq: relation does not exist")
    | some td => s.insert td columns (values.map fun v => v.eval args []) returning
  | .update table sets cond =>
    match tableDef table with
    | none => .error (errors.New "pq: relation does not exist")
    | some td =>
      s.update td (fun r => cond.eval s args [r])
        (fun r => r.set (sets.map fun p => (p.1, p.2.eval args [r])))
  | .delete table cond =>
    .ok (s.delete table fun r => cond.eval s args [r])

/-- Modelled from the spec: the store receiving the text of a statement and
its arguments: a text it cannot read, or a number of arguments other than the
statement requires, is an error. -/
def Store.run (s : Store) (query : String) (args : List Value) : Except Error Outcome :=
  match Sql.read query with
  | none => .error (errors.New "pq: syntax error")
  | some sql =>
    if args.length = sql.arity then sql.run s args
    else .error (errors.New "pq: wrong number of parameters")

/-- Modelled from the spec: the row a single-row query hands out: the first
row of the result, or a row whose fetch fails with the empty-result error
(§4.3).  Cells are converted as `sampleRow` converts them. -/
def rowScanner : List (List Cell) → RowScanner
  | [] => failingRow ErrNoRows
  | r :: _ => sampleRow r

/-- Modelled from the spec: the store collaborator (§6): statement execution
with affected-row count and last-inserted-id, single-row query and multi-row
query.  A failed statement leaves the state as it was. -/
def refDB : DB Store where
  Exec := fun query args s =>
    match s.run query args with
    | .error e => (.error e, s)
    | .ok o => (.ok ⟨(o.lastId, none), (o.affected, none)⟩, o.store)
  QueryRow := fun query args s =>
    match s.run query args with
    | .error e => (failingRow e, s)
    | .ok o => (rowScanner o.rows, o.store)
  Query := fun query args s =>
    match s.run query args with
    | .error e => (.error e, s)
    | .ok o => (.ok ⟨o.rows.map sampleRow, none⟩, o.store)

/-- Modelled from the spec: the store with empty tables. -/
def Store.empty : Store :=
  { rows := fun _ => [], serial := fun _ => 0 }

/-- A world on the empty reference store, with a clock showing 1000, 1001, ... -/
def emptyWorld : World Store :=
  { store := Store.empty, issued := [], clock := fun n => ⟨1000 + n⟩, ticks := 0 }

/-! ### What a stored row decodes to -/

/-- The text held by a cell: the string of a string cell, empty otherwise. -/
def Cell.text : Cell → String
  | .string s => s
  | _ => ""

/-- The number held by a cell: the value of an integer cell, 0 otherwise. -/
def Cell.number : Cell → Int
  | .int64 v => v
  | _ => 0

/-- The instant held by a cell: the time of a time cell, the zero time
otherwise. -/
def Cell.instant : Cell → Time
  | .time t => t
  | _ => Time.zero

/-- Whether a cell is NULL or a string. -/
def Cell.isText : Cell → Bool
  | .null => true
  | .string _ => true
  | _ => false

/-- Whether a cell is NULL or an integer. -/
def Cell.isNumber : Cell → Bool
  | .null => true
  | .int64 _ => true
  | _ => false

/-- The columns of `rolePrefix`, in order. -/
def roles.columns : List String :=
  ["id", "name", "description", "permission_keys", "created_at", "updated_at"]

/-- The columns of `userPrefix`, in order. -/
def users.columns : List String :=
  ["id", "name", "description", "password", "phone", "email", "state", "created_at",
    "updated_at"]

/-- The columns of `userProfilePrefix`, in order. -/
def userProfiles.columns : List String :=
  ["id", "usr", "name", "value", "created_at", "updated_at"]

/-- The Role a stored row reads as. -/
def Record.asRole (r : Record) : Role :=
  { ID := (r "id").number, Name := (r "name").text,
    Description := (r "description").text,
    PermissionKeys := (r "permission_keys").text,
    CreatedAt := (r "created_at").instant, UpdatedAt := (r "updated_at").instant }

/-- The User a stored row reads as. -/
def Record.asUser (r : Record) : User :=
  { ID := (r "id").number, Name := (r "name").text,
    Description := (r "description").text, Password := (r "password").text,
    Phone := (r "phone").text, Email := (r "email").text, State := (r "state").number,
    CreatedAt := (r "created_at").instant, UpdatedAt := (r "updated_at").instant }

/-- The UserProfile a stored row reads as. -/
def Record.asUserProfile (r : Record) : UserProfile :=
  { ID := (r "id").number, User := (r "usr").text, Name := (r "name").text,
    Value := (r "value").text,
    CreatedAt := (r "created_at").instant, UpdatedAt := (r "updated_at").instant }

/-- A role row the accessor can read: the identity is an integer, the name a
string, and description and permission_keys are NULL or strings. -/
def Record.isRole (r : Record) : Prop :=
  (∃ v, r "id" = .int64 v) ∧ (∃ n, r "name" = .string n) ∧
  (r "description").isText = true ∧ (r "permission_keys").isText = true

/-- A user row the accessor can read: the identity is an integer, the name a
string, the other text columns are NULL or strings, and state is NULL or an
integer. -/
def Record.isUser (r : Record) : Prop :=
  (∃ v, r "id" = .int64 v) ∧ (∃ n, r "name" = .string n) ∧
  (r "description").isText = true ∧ (r "password").isText = true ∧
  (r "phone").isText = true ∧ (r "email").isText = true ∧ (r "state").isNumber = true

/-- A profile row the accessor can read: the identity is an integer and usr,
name and value are NULL or strings. -/
def Record.isUserProfile (r : Record) : Prop :=
  (∃ v, r "id" = .int64 v) ∧ (r "usr").isText = true ∧ (r "name").isText = true ∧
  (r "value").isText = true

/-- Whether a cell holds a time. -/
def Cell.isTime : Cell → Bool
  | .time _ => true
  | _ => false

/-- A configuration whose placeholder policy is one of the two built-in ones,
`Question` or `Dollar`. -/
def Config.Builtin (cfg : Config) : Prop :=
  cfg.PlaceholderFormat = Question ∨ cfg.PlaceholderFormat = Dollar.format

/-! ### Sequences of association calls -/

/-- One call of the association manager for a fixed user: `AddRole(u, r)` or
`RemoveRole(u, r)`. -/
inductive RoleOp where
  | add (roleID : Int)
  | remove (roleID : Int)
deriving DecidableEq, Repr

/-- Making the calls in order for the user `userID`; `none` when one of the
calls returns an error. -/
def users.applyRoleOps (cfg : Config) (db : DB σ) (userID : Int) :
    List RoleOp → World σ → Option (World σ)
  | [], w => some w
  | .add r :: ops, w =>
    match users.AddRole cfg db userID r w with
    | (none, w) => users.applyRoleOps cfg db userID ops w
    | (some _, _) => none
  | .remove r :: ops, w =>
    match users.RemoveRole cfg db userID r w with
    | (none, w) => users.applyRoleOps cfg db userID ops w
    | (some _, _) => none

/-- The roles associated after a sequence of calls, in the words of the
claim: a role is associated when it was added and not subsequently removed;
`before` tells which roles were associated before the calls. -/
def RoleOp.associated : List RoleOp → (Int → Bool) → Int → Bool
  | [], before => before
  | .add r :: ops, before => RoleOp.associated ops fun x => x == r || before x
  | .remove r :: ops, before => RoleOp.associated ops fun x => x != r && before x

/-- What a sequence of association calls for the user `u` keeps true of the
state `s` of the reference store, with `s0` the state before the calls and
`live` the roles associated so far: the roles and users tables are those of
`s0`; every join row of `u` names a live role; every live role has a join row
of `u`, and a row in the roles table. -/
structure AssociationsOf (s0 s : Store) (u : Int) (live : Int → Bool) : Prop where
  roles : s.rows "tpt_roles" = s0.rows "tpt_roles"
  users : s.rows "tpt_users" = s0.rows "tpt_users"
  sound : ∀ ur ∈ s.rows "tpt_user_roles", (ur "user_id").sqlEq (.int64 u) = true →
    ∃ r, ur "role_id" = .int64 r ∧ live r = true
  complete : ∀ r, live r = true →
    ∃ ur ∈ s.rows "tpt_user_roles", ur "user_id" = .int64 u ∧ ur "role_id" = .int64 r
  known : ∀ r, live r = true → ∃ ρ ∈ s0.rows "tpt_roles", ρ "id" = .int64 r

/-- A sample state of the reference store, as the tests set it up: the roles
1, 2 and 3 named a1, a2 and a3, the user 1 named user1, and no association. -/
def sampleStore : Store :=
  { rows := fun t =>
      if t = "tpt_roles" then
        [insertRecord 1 ["name", "description", "permission_keys"]
            [.string "a1", .string "a_descr", .string "k1,k2"],
          insertRecord 2 ["name", "description", "permission_keys"]
            [.string "a2", .string "a_descr", .string "k1,k2"],
          insertRecord 3 ["name", "description", "permission_keys"]
            [.string "a3", .string "a_descr", .string "k1,k2"]]
      else if t = "tpt_users" then
        [insertRecord 1 ["name", "description", "password", "phone", "email", "state"]
            [.string "user1", .string "a_descr", .string "a_pwd", .string "123",
              .string "a@h.com", .int64 23]]
      else [],
    serial := fun t => if t = "tpt_roles" then 3 else if t = "tpt_users" then 1 else 0 }

/-- A world on the sample state, with a clock showing 1000, 1001, ... -/
def sampleStoreWorld : World Store :=
  { store := sampleStore, issued := [], clock := fun n => ⟨1000 + n⟩, ticks := 0 }

/-- The sample state with one more role: the role 9, whose name, description
and permission_keys are NULL (the roles table puts no NOT NULL constraint on
them). -/
def nullNameStore : Store :=
  { rows := fun t =>
      if t = "tpt_roles" then sampleStore.rows t ++ [insertRecord 9 [] []]
      else sampleStore.rows t,
    serial := fun t => if t = "tpt_roles" then 9 else sampleStore.serial t }

/-- A world on that state, with a clock showing 1000, 1001, ... -/
def nullNameWorld : World Store :=
  { store := nullNameStore, issued := [], clock := fun n => ⟨1000 + n⟩, ticks := 0 }

/-- The pairs `(user_id, role_id)` of the join table of a state. -/
def Store.associations (s : Store) : List (Cell × Cell) :=
  (s.rows "tpt_user_roles").map fun ur => (ur "user_id", ur "role_id")
/-! ## The placeholder rewriter -/

theorem strings.Index_none {s : List Char} {x : Char} (h : strings.Index s x = none) :
    x ∉ s := by
  induction s with
  | nil => simp
  | cons c cs ih =>
    simp only [strings.Index] at h
    split at h
    · simp at h
    · rename_i hc
      simp only [Option.map_eq_none'] at h
      simp only [List.mem_cons, not_or]
      exact ⟨fun hx => hc hx.symm, ih h⟩

theorem strings.Index_some {s : List Char} {x : Char} {p : Nat}
    (h : strings.Index s x = some p) :
    ∃ pre post, s = pre ++ x :: post ∧ x ∉ pre ∧ pre.length = p := by
  induction s generalizing p with
  | nil => simp [strings.Index] at h
  | cons c cs ih =>
    simp only [strings.Index] at h
    split at h
    · rename_i hc
      simp only [Option.some.injEq] at h
      exact ⟨[], cs, by simp [hc], by simp, by simpa using h⟩
    · rename_i hc
      simp only [Option.map_eq_some'] at h
      obtain ⟨q, hq, rfl⟩ := h
      obtain ⟨pre, post, hs, hpre, hlen⟩ := ih hq
      refine ⟨c :: pre, post, by simp [hs], ?_, by simp [hlen]⟩
      simp only [List.mem_cons, not_or]
      exact ⟨fun hx => hc hx.symm, hpre⟩

theorem numberedRewrite_cons_ne (n : Nat) {c : Char} (hc : c ≠ '?') (rest : List Char) :
    numberedRewrite n (c :: rest) = c :: numberedRewrite n rest := by
  cases rest with
  | nil => simp [numberedRewrite, hc]
  | cons d rest => simp [numberedRewrite, hc]

theorem numberedRewrite_append (n : Nat) {pre : List Char} (hpre : '?' ∉ pre)
    (rest : List Char) :
    numberedRewrite n (pre ++ rest) = pre ++ numberedRewrite n rest := by
  induction pre with
  | nil => simp
  | cons c cs ih =>
    simp only [List.mem_cons, not_or] at hpre
    rw [List.cons_append, numberedRewrite_cons_ne n (fun h => hpre.1 h.symm), ih hpre.2,
      List.cons_append]

theorem numberedRewrite_escape (n : Nat) (rest : List Char) :
    numberedRewrite n ('?' :: '?' :: rest) = '?' :: numberedRewrite n rest := by
  simp [numberedRewrite]

theorem numberedRewrite_marker (n : Nat) (rest : List Char)
    (h : ∀ post, rest ≠ '?' :: post) :
    numberedRewrite n ('?' :: rest) = dollarMarker (n + 1) ++ numberedRewrite (n + 1) rest := by
  cases rest with
  | nil => simp [numberedRewrite]
  | cons d rest =>
    have hd : d ≠ '?' := fun hd => h rest (by rw [hd])
    simp [numberedRewrite, hd]

/-- With more fuel than `sql` has characters the loop of `Dollar` is left
through a `break`, and what it has written is the reference rewrite. -/
theorem Dollar.loop_eq (fuel : Nat) : ∀ (buf : List Char) (i : Nat) (sql : List Char),
    sql.length < fuel → Dollar.loop fuel buf i sql = some (buf ++ numberedRewrite i sql) := by
  induction fuel with
  | zero => intro _ _ _ h; omega
  | succ fuel ih =>
    intro buf i sql hlen
    unfold Dollar.loop
    cases hp : strings.Index sql '?' with
    | none =>
      have := numberedRewrite_append i (strings.Index_none hp) []
      simp only [List.append_nil, numberedRewrite] at this
      simp [this]
    | some p =>
      obtain ⟨pre, post, rfl, hpre, rfl⟩ := strings.Index_some hp
      simp only [List.drop_left, List.take_left, List.length_cons]
      rw [numberedRewrite_append i hpre]
      have hdrop : ∀ k, (pre ++ '?' :: post).drop (pre.length + k) = ('?' :: post).drop k := by
        intro k; rw [List.drop_append]
      cases post with
      | nil =>
        have h1 := hdrop 1
        simp only [List.drop_succ_cons, List.drop_zero] at h1
        have hl : ([] : List Char).length < fuel := by
          simp only [List.length_append, List.length_cons, List.length_nil] at hlen ⊢; omega
        simp [numberedRewrite, h1, ih _ _ _ hl]
      | cons d post =>
        by_cases hd : d = '?'
        · subst hd
          have h2 := hdrop 2
          simp only [List.drop_succ_cons, List.drop_zero] at h2
          have hl : post.length < fuel := by
            simp only [List.length_append, List.length_cons] at hlen; omega
          simp [numberedRewrite_escape, h2, ih _ _ _ hl]
        · have h1 := hdrop 1
          simp only [List.drop_succ_cons, List.drop_zero] at h1
          have hl : (d :: post).length < fuel := by
            simp only [List.length_append, List.length_cons] at hlen ⊢; omega
          have hm := numberedRewrite_marker i (d :: post) (by
            intro q hq; exact hd (List.cons.inj hq).1)
          simp [hd, h1, hm, ih _ _ _ hl]

/-- C1: for every query string `Dollar` leaves its loop, returns no error, and
returns the left-to-right reference rewrite: a `?` directly followed by a `?`
becomes one literal `?` and uses no number, any other `?` becomes `$` and the
decimal of its 1-based rank among the unescaped markers, all other characters
are copied in order.  Any larger amount of fuel gives the same result. -/
theorem Dollar_eq_numberedRewrite (s : String) :
    Dollar s = some (String.mk (numberedRewrite 0 s.data), none) ∧
    ∀ fuel, s.length < fuel →
      Dollar.run fuel s = some (String.mk (numberedRewrite 0 s.data), none) := by
  have key : ∀ fuel, s.length < fuel →
      Dollar.run fuel s = some (String.mk (numberedRewrite 0 s.data), none) := by
    intro fuel hfuel
    unfold Dollar.run
    rw [Dollar.loop_eq fuel [] 0 s.data hfuel]
    rfl
  exact ⟨key (s.length + 1) (Nat.lt_succ_self _), key⟩

/-- C2: the pass-through policy `Question` returns every query string
unchanged together with no error, whatever markers the string contains. -/
theorem Question_identity (s : String) : Question s = (s, none) := rfl

/-! ## Zero identities -/

/-- C3: for the Role, User and UserProfile accessors, every configuration,
store and world: `UpdateIt` on an entity whose ID is 0, `DeleteIt` on such an
entity and `DeleteByID` on 0 return the error with the message
"primary key of '<table>' is invalid" for the accessor's table, and the world
(store state, issued statements, clock) is returned as it was. -/
theorem zero_identity_is_PrimaryKeyInvalid (cfg : Config) (db : DB σ) (w : World σ) :
    (∀ value : Role, value.ID = 0 →
      roles.UpdateIt cfg db value w
        = (some (errors.New "primary key of 'tpt_roles' is invalid"), w) ∧
      roles.DeleteIt cfg db value w
        = (some (errors.New "primary key of 'tpt_roles' is invalid"), w)) ∧
    roles.DeleteByID cfg db 0 w
      = (some (errors.New "primary key of 'tpt_roles' is invalid"), w) ∧
    (∀ value : User, value.ID = 0 →
      users.UpdateIt cfg db value w
        = (some (errors.New "primary key of 'tpt_users' is invalid"), w) ∧
      users.DeleteIt cfg db value w
        = (some (errors.New "primary key of 'tpt_users' is invalid"), w)) ∧
    users.DeleteByID cfg db 0 w
      = (some (errors.New "primary key of 'tpt_users' is invalid"), w) ∧
    (∀ value : UserProfile, value.ID = 0 →
      userProfiles.UpdateIt cfg db value w
        = (some (errors.New "primary key of 'tpt_user_profiles' is invalid"), w) ∧
      userProfiles.DeleteIt cfg db value w
        = (some (errors.New "primary key of 'tpt_user_profiles' is invalid"), w)) ∧
    userProfiles.DeleteByID cfg db 0 w
      = (some (errors.New "primary key of 'tpt_user_profiles' is invalid"), w) := by
  have hr : ThrowPrimaryKeyInvalid "tpt_roles"
      = errors.New "primary key of 'tpt_roles' is invalid" := by decide
  have hu : ThrowPrimaryKeyInvalid "tpt_users"
      = errors.New "primary key of 'tpt_users' is invalid" := by decide
  have hp : ThrowPrimaryKeyInvalid "tpt_user_profiles"
      = errors.New "primary key of 'tpt_user_profiles' is invalid" := by decide
  refine ⟨fun value h => ⟨?_, ?_⟩, ?_, fun value h => ⟨?_, ?_⟩, ?_, fun value h => ⟨?_, ?_⟩, ?_⟩
  · simp [roles.UpdateIt, h, hr]
  · simp [roles.DeleteIt, roles.DeleteByID, h, hr]
  · simp [roles.DeleteByID, hr]
  · simp [users.UpdateIt, h, hu]
  · simp [users.DeleteIt, users.DeleteByID, h, hu]
  · simp [users.DeleteByID, hu]
  · simp [userProfiles.UpdateIt, h, hp]
  · simp [userProfiles.DeleteIt, userProfiles.DeleteByID, h, hp]
  · simp [userProfiles.DeleteByID, hp]

/-! ## Affected-row checks -/

theorem roles_UpdateIt_contract (cfg : Config) (db : DB σ) (w : World σ) (value : Role)
    (q : String) (hid : value.ID ≠ 0)
    (hfmt : cfg.PlaceholderFormat roles.UpdateIt.updateString = (q, none)) :
    AffectedRowsContract
      (db.Exec q
        [.string value.Name, .string value.Description, .string value.PermissionKeys,
          .time (w.clock w.ticks), .int64 value.ID]
        w.store).1
      ErrNotUpdated (roles.UpdateIt cfg db value w).1 := by
  have hid' : ¬ (0 = value.ID) := fun h => hid h.symm
  simp only [roles.UpdateIt, hid', if_false, hfmt, time.Now, DB.exec, AffectedRowsContract]
  refine ⟨?_, ?_, ?_⟩
  · intro e he
    simp [he]
  · intro res n e he hn
    simp [he, hn]
  · intro res n he hn
    by_cases h0 : n = 0
    · simp [he, hn, h0]
    · have h0' : ¬ (0 = n) := fun h => h0 h.symm
      simp [he, hn, h0, h0']

theorem roles_DeleteByID_contract (cfg : Config) (db : DB σ) (w : World σ) (key : Int)
    (q : String) (hid : key ≠ 0)
    (hfmt : cfg.PlaceholderFormat roles.DeleteByID.deleteString = (q, none)) :
    AffectedRowsContract (db.Exec q [.int64 key] w.store).1
      ErrNotDeleted (roles.DeleteByID cfg db key w).1 := by
  have hid' : ¬ (0 = key) := fun h => hid h.symm
  simp only [roles.DeleteByID, hid', if_false, hfmt, DB.exec, AffectedRowsContract]
  refine ⟨?_, ?_, ?_⟩
  · intro e he
    simp [he]
  · intro res n e he hn
    simp [he, hn]
  · intro res n he hn
    by_cases h0 : n = 0
    · simp [he, hn, h0]
    · have h0' : ¬ (0 = n) := fun h => h0 h.symm
      simp [he, hn, h0, h0']

theorem users_UpdateIt_contract (cfg : Config) (db : DB σ) (w : World σ) (value : User)
    (q : String) (hid : value.ID ≠ 0)
    (hfmt : cfg.PlaceholderFormat users.UpdateIt.updateString = (q, none)) :
    AffectedRowsContract
      (db.Exec q
        [.string value.Name, .string value.Description, .string value.Password,
          .string value.Phone, .string value.Email, .int64 value.State,
          .time (w.clock w.ticks), .int64 value.ID]
        w.store).1
      ErrNotUpdated (users.UpdateIt cfg db value w).1 := by
  have hid' : ¬ (0 = value.ID) := fun h => hid h.symm
  simp only [users.UpdateIt, hid', if_false, hfmt, time.Now, DB.exec, AffectedRowsContract]
  refine ⟨?_, ?_, ?_⟩
  · intro e he
    simp [he]
  · intro res n e he hn
    simp [he, hn]
  · intro res n he hn
    by_cases h0 : n = 0
    · simp [he, hn, h0]
    · have h0' : ¬ (0 = n) := fun h => h0 h.symm
      simp [he, hn, h0, h0']

theorem users_DeleteByID_contract (cfg : Config) (db : DB σ) (w : World σ) (key : Int)
    (q : String) (hid : key ≠ 0)
    (hfmt : cfg.PlaceholderFormat users.DeleteByID.deleteString = (q, none)) :
    AffectedRowsContract (db.Exec q [.int64 key] w.store).1
      ErrNotDeleted (users.DeleteByID cfg db key w).1 := by
  have hid' : ¬ (0 = key) := fun h => hid h.symm
  simp only [users.DeleteByID, hid', if_false, hfmt, DB.exec, AffectedRowsContract]
  refine ⟨?_, ?_, ?_⟩
  · intro e he
    simp [he]
  · intro res n e he hn
    simp [he, hn]
  · intro res n he hn
    by_cases h0 : n = 0
    · simp [he, hn, h0]
    · have h0' : ¬ (0 = n) := fun h => h0 h.symm
      simp [he, hn, h0, h0']

theorem userProfiles_UpdateIt_contract (cfg : Config) (db : DB σ) (w : World σ) (value : UserProfile)
    (q : String) (hid : value.ID ≠ 0)
    (hfmt : cfg.PlaceholderFormat userProfiles.UpdateIt.updateString = (q, none)) :
    AffectedRowsContract
      (db.Exec q
        [.string value.User, .string value.Name, .string value.Value,
          .time (w.clock w.ticks), .int64 value.ID]
        w.store).1
      ErrNotUpdated (userProfiles.UpdateIt cfg db value w).1 := by
  have hid' : ¬ (0 = value.ID) := fun h => hid h.symm
  simp only [userProfiles.UpdateIt, hid', if_false, hfmt, time.Now, DB.exec, AffectedRowsContract]
  refine ⟨?_, ?_, ?_⟩
  · intro e he
    simp [he]
  · intro res n e he hn
    simp [he, hn]
  · intro res n he hn
    by_cases h0 : n = 0
    · simp [he, hn, h0]
    · have h0' : ¬ (0 = n) := fun h => h0 h.symm
      simp [he, hn, h0, h0']

theorem userProfiles_DeleteByID_contract (cfg : Config) (db : DB σ) (w : World σ) (key : Int)
    (q : String) (hid : key ≠ 0)
    (hfmt : cfg.PlaceholderFormat userProfiles.DeleteByID.deleteString = (q, none)) :
    AffectedRowsContract (db.Exec q [.int64 key] w.store).1
      ErrNotDeleted (userProfiles.DeleteByID cfg db key w).1 := by
  have hid' : ¬ (0 = key) := fun h => hid h.symm
  simp only [userProfiles.DeleteByID, hid', if_false, hfmt, DB.exec, AffectedRowsContract]
  refine ⟨?_, ?_, ?_⟩
  · intro e he
    simp [he]
  · intro res n e he hn
    simp [he, hn]
  · intro res n he hn
    by_cases h0 : n = 0
    · simp [he, hn, h0]
    · have h0' : ¬ (0 = n) := fun h => h0 h.symm
      simp [he, hn, h0, h0']

/-- C4: for the three accessors and every non-zero identity, once the statement
has been rewritten and handed to the store: if the store executes it and
reports an affected-row count `n`, `UpdateIt` returns `ErrNotUpdated` exactly
when `n = 0` and `nil` otherwise, and `DeleteByID` and `DeleteIt` return
`ErrNotDeleted` exactly when `n = 0` and `nil` otherwise; if the execution or
the affected-row query fails, that error is returned as it is. -/
theorem mutation_reports_affected_rows (cfg : Config) (db : DB σ) (w : World σ) :
    (∀ (value : Role) (q : String), value.ID ≠ 0 →
      cfg.PlaceholderFormat roles.UpdateIt.updateString = (q, none) →
      AffectedRowsContract
        (db.Exec q
          [.string value.Name, .string value.Description, .string value.PermissionKeys,
            .time (w.clock w.ticks), .int64 value.ID]
          w.store).1
        ErrNotUpdated (roles.UpdateIt cfg db value w).1) ∧
    (∀ (key : Int) (q : String), key ≠ 0 →
      cfg.PlaceholderFormat roles.DeleteByID.deleteString = (q, none) →
      AffectedRowsContract (db.Exec q [.int64 key] w.store).1
        ErrNotDeleted (roles.DeleteByID cfg db key w).1) ∧
    (∀ (value : Role) (q : String), value.ID ≠ 0 →
      cfg.PlaceholderFormat roles.DeleteByID.deleteString = (q, none) →
      AffectedRowsContract (db.Exec q [.int64 value.ID] w.store).1
        ErrNotDeleted (roles.DeleteIt cfg db value w).1) ∧
    (∀ (value : User) (q : String), value.ID ≠ 0 →
      cfg.PlaceholderFormat users.UpdateIt.updateString = (q, none) →
      AffectedRowsContract
        (db.Exec q
          [.string value.Name, .string value.Description, .string value.Password,
            .string value.Phone, .string value.Email, .int64 value.State,
            .time (w.clock w.ticks), .int64 value.ID]
          w.store).1
        ErrNotUpdated (users.UpdateIt cfg db value w).1) ∧
    (∀ (key : Int) (q : String), key ≠ 0 →
      cfg.PlaceholderFormat users.DeleteByID.deleteString = (q, none) →
      AffectedRowsContract (db.Exec q [.int64 key] w.store).1
        ErrNotDeleted (users.DeleteByID cfg db key w).1) ∧
    (∀ (value : User) (q : String), value.ID ≠ 0 →
      cfg.PlaceholderFormat users.DeleteByID.deleteString = (q, none) →
      AffectedRowsContract (db.Exec q [.int64 value.ID] w.store).1
        ErrNotDeleted (users.DeleteIt cfg db value w).1) ∧
    (∀ (value : UserProfile) (q : String), value.ID ≠ 0 →
      cfg.PlaceholderFormat userProfiles.UpdateIt.updateString = (q, none) →
      AffectedRowsContract
        (db.Exec q
          [.string value.User, .string value.Name, .string value.Value,
            .time (w.clock w.ticks), .int64 value.ID]
          w.store).1
        ErrNotUpdated (userProfiles.UpdateIt cfg db value w).1) ∧
    (∀ (key : Int) (q : String), key ≠ 0 →
      cfg.PlaceholderFormat userProfiles.DeleteByID.deleteString = (q, none) →
      AffectedRowsContract (db.Exec q [.int64 key] w.store).1
        ErrNotDeleted (userProfiles.DeleteByID cfg db key w).1) ∧
    (∀ (value : UserProfile) (q : String), value.ID ≠ 0 →
      cfg.PlaceholderFormat userProfiles.DeleteByID.deleteString = (q, none) →
      AffectedRowsContract (db.Exec q [.int64 value.ID] w.store).1
        ErrNotDeleted (userProfiles.DeleteIt cfg db value w).1) :=
  ⟨fun value q hid hfmt => roles_UpdateIt_contract cfg db w value q hid hfmt,
    fun key q hid hfmt => roles_DeleteByID_contract cfg db w key q hid hfmt,
    fun value q hid hfmt => roles_DeleteByID_contract cfg db w value.ID q hid hfmt,
    fun value q hid hfmt => users_UpdateIt_contract cfg db w value q hid hfmt,
    fun key q hid hfmt => users_DeleteByID_contract cfg db w key q hid hfmt,
    fun value q hid hfmt => users_DeleteByID_contract cfg db w value.ID q hid hfmt,
    fun value q hid hfmt => userProfiles_UpdateIt_contract cfg db w value q hid hfmt,
    fun key q hid hfmt => userProfiles_DeleteByID_contract cfg db w key q hid hfmt,
    fun value q hid hfmt => userProfiles_DeleteByID_contract cfg db w value.ID q hid hfmt⟩

/-- Witness for C4: on a store that executes the update of role 5 and reports
no affected row, `UpdateIt` returns `ErrNotUpdated`. -/
theorem mutation_reports_affected_rows_witness :
    (roles.UpdateIt defaultConfig
      (sampleDB (.ok ⟨(0, none), (0, none)⟩) (failingRow ErrNoRows) (.error ErrNoRows))
      { ID := 5, Name := "a" } sampleWorld).1 = some ErrNotUpdated :=
  ((((mutation_reports_affected_rows defaultConfig
      (sampleDB (.ok ⟨(0, none), (0, none)⟩) (failingRow ErrNoRows) (.error ErrNoRows))
      sampleWorld).1 { ID := 5, Name := "a" } roles.UpdateIt.updateString (by decide) rfl).2.2
    ⟨(0, none), (0, none)⟩ 0 rfl rfl).1).2 rfl

/-! ## Removing an association -/

/-- C5: for every user and role identity (0 included), every configuration,
store and world, `RemoveRole` returns an error exactly when the placeholder
rewriting returns one or, the rewriting having succeeded, the store's
execution of the statement returns one, and it returns that error; whenever
the store executes the delete, `RemoveRole` returns `nil` whatever the
affected-row count is, so with zero matching rows it does not return
`ErrNotDeleted`. -/
theorem RemoveRole_error_iff (cfg : Config) (db : DB σ) (userID roleID : Int)
    (w : World σ) :
    (∀ q e, cfg.PlaceholderFormat users.RemoveRole.deleteString = (q, some e) →
      users.RemoveRole cfg db userID roleID w = (some e, w)) ∧
    (∀ q e, cfg.PlaceholderFormat users.RemoveRole.deleteString = (q, none) →
      (db.Exec q [.int64 userID, .int64 roleID] w.store).1 = .error e →
      (users.RemoveRole cfg db userID roleID w).1 = some e) ∧
    (∀ q res, cfg.PlaceholderFormat users.RemoveRole.deleteString = (q, none) →
      (db.Exec q [.int64 userID, .int64 roleID] w.store).1 = .ok res →
      (users.RemoveRole cfg db userID roleID w).1 = none ∧
      (users.RemoveRole cfg db userID roleID w).1 ≠ some ErrNotDeleted) ∧
    ((users.RemoveRole cfg db userID roleID w).1 ≠ none ↔
      (cfg.PlaceholderFormat users.RemoveRole.deleteString).2 ≠ none ∨
      ∃ e, (db.Exec (cfg.PlaceholderFormat users.RemoveRole.deleteString).1
        [.int64 userID, .int64 roleID] w.store).1 = .error e) := by
  refine ⟨?_, ?_, ?_, ?_⟩
  · intro q e hfmt
    simp [users.RemoveRole, hfmt]
  · intro q e hfmt hexec
    simp [users.RemoveRole, hfmt, DB.exec, hexec]
  · intro q res hfmt hexec
    simp [users.RemoveRole, hfmt, DB.exec, hexec]
  · rcases hfmt : cfg.PlaceholderFormat users.RemoveRole.deleteString with ⟨q, _ | e⟩
    · rcases hexec : (db.Exec q [.int64 userID, .int64 roleID] w.store).1 with e | res
      · simp [users.RemoveRole, hfmt, DB.exec, hexec]
      · simp [users.RemoveRole, hfmt, DB.exec, hexec]
    · simp [users.RemoveRole, hfmt]

/-- Witness for C5: on a store that executes the delete and reports zero
affected rows, `RemoveRole` on the pair (0, 9) returns `nil`. -/
theorem RemoveRole_error_iff_witness :
    (users.RemoveRole defaultConfig
      (sampleDB (.ok ⟨(0, none), (0, none)⟩) (failingRow ErrNoRows) (.error ErrNoRows))
      0 9 sampleWorld).1 = none :=
  ((RemoveRole_error_iff defaultConfig
      (sampleDB (.ok ⟨(0, none), (0, none)⟩) (failingRow ErrNoRows) (.error ErrNoRows))
      0 9 sampleWorld).2.2.1 users.RemoveRole.deleteString ⟨(0, none), (0, none)⟩
      rfl rfl).1

/-! ## Decoding a row -/

theorem roles_scan_ok (scanner : RowScanner) (id : Int) (name : String)
    (d p : NullString) (c u : NullTime)
    (h : scanner.Scan roles.scanDests roles.scanZero = ((id, name, d, p, c, u, ()), none)) :
    roles.scan scanner =
      (some { ID := id, Name := name,
              Description := if d.Valid then d.String else "",
              PermissionKeys := if p.Valid then p.String else "",
              CreatedAt := if c.Valid then c.Time else Time.zero,
              UpdatedAt := if u.Valid then u.Time else Time.zero }, none) := by
  simp only [roles.scanZero] at h
  simp only [roles.scan, h]
  clear h
  rcases d with ⟨_, _ | _⟩ <;> rcases p with ⟨_, _ | _⟩ <;> rcases c with ⟨_, _ | _⟩ <;>
    rcases u with ⟨_, _ | _⟩ <;> rfl

theorem users_scan_ok (scanner : RowScanner) (id : Int) (name : String)
    (d pw ph em : NullString) (st : NullInt64) (c u : NullTime)
    (h : scanner.Scan users.scanDests users.scanZero
      = ((id, name, d, pw, ph, em, st, c, u, ()), none)) :
    users.scan scanner =
      (some { ID := id, Name := name,
              Description := if d.Valid then d.String else "",
              Password := if pw.Valid then pw.String else "",
              Phone := if ph.Valid then ph.String else "",
              Email := if em.Valid then em.String else "",
              State := if st.Valid then st.Int64 else 0,
              CreatedAt := if c.Valid then c.Time else Time.zero,
              UpdatedAt := if u.Valid then u.Time else Time.zero }, none) := by
  simp only [users.scanZero] at h
  simp only [users.scan, h]
  clear h
  rcases d with ⟨_, _ | _⟩ <;> rcases pw with ⟨_, _ | _⟩ <;> rcases ph with ⟨_, _ | _⟩ <;>
    rcases em with ⟨_, _ | _⟩ <;> rcases st with ⟨_, _ | _⟩ <;> rcases c with ⟨_, _ | _⟩ <;>
    rcases u with ⟨_, _ | _⟩ <;> rfl

theorem userProfiles_scan_ok (scanner : RowScanner) (id : Int)
    (us n v : NullString) (c u : NullTime)
    (h : scanner.Scan userProfiles.scanDests userProfiles.scanZero
      = ((id, us, n, v, c, u, ()), none)) :
    userProfiles.scan scanner =
      (some { ID := id,
              User := if us.Valid then us.String else "",
              Name := if n.Valid then n.String else "",
              Value := if v.Valid then v.String else "",
              CreatedAt := if c.Valid then c.Time else Time.zero,
              UpdatedAt := if u.Valid then u.Time else Time.zero }, none) := by
  simp only [userProfiles.scanZero] at h
  simp only [userProfiles.scan, h]
  clear h
  rcases us with ⟨_, _ | _⟩ <;> rcases n with ⟨_, _ | _⟩ <;> rcases v with ⟨_, _ | _⟩ <;>
    rcases c with ⟨_, _ | _⟩ <;> rcases u with ⟨_, _ | _⟩ <;> rfl

/-- C6: each entity's select list names its columns in the order of the scan
destinations, and when the row scanner succeeds `scan` returns an entity and no
error in which ID (and Name for Role and User) is the value the row gave, and
the field of every holder-decoded column is the holder's value when the holder
is valid (the column was not NULL) and the zero value of its type when it is
not, each column on its own. -/
theorem scan_decodes_positionally :
    (rolePrefix = selectList
        ["id", "name", "description", "permission_keys", "created_at", "updated_at"]
        "tpt_roles" ∧
      ∀ (scanner : RowScanner) (id : Int) (name : String) (d p : NullString)
        (c u : NullTime),
        scanner.Scan roles.scanDests roles.scanZero = ((id, name, d, p, c, u, ()), none) →
        roles.scan scanner =
          (some { ID := id, Name := name,
                  Description := if d.Valid then d.String else "",
                  PermissionKeys := if p.Valid then p.String else "",
                  CreatedAt := if c.Valid then c.Time else Time.zero,
                  UpdatedAt := if u.Valid then u.Time else Time.zero }, none)) ∧
    (userPrefix = selectList
        ["id", "name", "description", "password", "phone", "email", "state", "created_at",
          "updated_at"]
        "tpt_users" ∧
      ∀ (scanner : RowScanner) (id : Int) (name : String) (d pw ph em : NullString)
        (st : NullInt64) (c u : NullTime),
        scanner.Scan users.scanDests users.scanZero
          = ((id, name, d, pw, ph, em, st, c, u, ()), none) →
        users.scan scanner =
          (some { ID := id, Name := name,
                  Description := if d.Valid then d.String else "",
                  Password := if pw.Valid then pw.String else "",
                  Phone := if ph.Valid then ph.String else "",
                  Email := if em.Valid then em.String else "",
                  State := if st.Valid then st.Int64 else 0,
                  CreatedAt := if c.Valid then c.Time else Time.zero,
                  UpdatedAt := if u.Valid then u.Time else Time.zero }, none)) ∧
    (userProfilePrefix = selectList
        ["id", "usr", "name", "value", "created_at", "updated_at"] "tpt_user_profiles" ∧
      ∀ (scanner : RowScanner) (id : Int) (us n v : NullString) (c u : NullTime),
        scanner.Scan userProfiles.scanDests userProfiles.scanZero
          = ((id, us, n, v, c, u, ()), none) →
        userProfiles.scan scanner =
          (some { ID := id,
                  User := if us.Valid then us.String else "",
                  Name := if n.Valid then n.String else "",
                  Value := if v.Valid then v.String else "",
                  CreatedAt := if c.Valid then c.Time else Time.zero,
                  UpdatedAt := if u.Valid then u.Time else Time.zero }, none)) :=
  ⟨⟨by decide, roles_scan_ok⟩, ⟨by decide, users_scan_ok⟩,
    ⟨by decide, userProfiles_scan_ok⟩⟩

theorem sampleRoleRow_Scan :
    sampleRoleRow.Scan roles.scanDests roles.scanZero
      = (((3 : Int), "admin", (⟨"", false⟩ : NullString), (⟨"k1,k2", true⟩ : NullString),
          (⟨⟨5⟩, true⟩ : NullTime), (⟨Time.zero, false⟩ : NullTime), ()), none) := by
  simp [sampleRoleRow, sampleRow, roles.scanDests, roles.scanZero, Cell.fill, Dest.convert]

/-- Witness for C6: a role row whose description and updated_at are NULL and
whose other columns hold values decodes to a Role with those values, an empty
description and a zero update time. -/
theorem scan_decodes_positionally_witness :
    roles.scan sampleRoleRow
      = (some { ID := 3, Name := "admin", Description := "", PermissionKeys := "k1,k2",
                CreatedAt := ⟨5⟩, UpdatedAt := Time.zero }, none) := by
  have h := scan_decodes_positionally.1.2 _ _ _ _ _ _ _ sampleRoleRow_Scan
  simpa using h

/-! ## Single-row fetches -/

theorem roles_scan_error (scanner : RowScanner) (dst : Dests roles.scanDests) (e : Error)
    (h : scanner.Scan roles.scanDests roles.scanZero = (dst, some e)) :
    roles.scan scanner = (none, some e) := by
  simp only [roles.scanZero] at h
  simp only [roles.scan, h]

theorem roles_QueryRowWith_error (cfg : Config) (db : DB σ) (w : World σ)
    (queryString : String) (args : List Value) (q : String)
    (dst : Dests roles.scanDests) (e : Error)
    (hfmt : cfg.PlaceholderFormat queryString = (q, none))
    (h : (db.QueryRow (rolePrefix ++ q) args w.store).1.Scan roles.scanDests roles.scanZero
      = (dst, some e)) :
    (roles.QueryRowWith cfg db queryString args w).1 = (none, some e) := by
  simp only [roles.QueryRowWith, hfmt, DB.queryRow]
  exact roles_scan_error _ dst e h

theorem users_scan_error (scanner : RowScanner) (dst : Dests users.scanDests) (e : Error)
    (h : scanner.Scan users.scanDests users.scanZero = (dst, some e)) :
    users.scan scanner = (none, some e) := by
  simp only [users.scanZero] at h
  simp only [users.scan, h]

theorem users_QueryRowWith_error (cfg : Config) (db : DB σ) (w : World σ)
    (queryString : String) (args : List Value) (q : String)
    (dst : Dests users.scanDests) (e : Error)
    (hfmt : cfg.PlaceholderFormat queryString = (q, none))
    (h : (db.QueryRow (userPrefix ++ q) args w.store).1.Scan users.scanDests users.scanZero
      = (dst, some e)) :
    (users.QueryRowWith cfg db queryString args w).1 = (none, some e) := by
  simp only [users.QueryRowWith, hfmt, DB.queryRow]
  exact users_scan_error _ dst e h

theorem userProfiles_scan_error (scanner : RowScanner) (dst : Dests userProfiles.scanDests) (e : Error)
    (h : scanner.Scan userProfiles.scanDests userProfiles.scanZero = (dst, some e)) :
    userProfiles.scan scanner = (none, some e) := by
  simp only [userProfiles.scanZero] at h
  simp only [userProfiles.scan, h]

theorem userProfiles_QueryRowWith_error (cfg : Config) (db : DB σ) (w : World σ)
    (queryString : String) (args : List Value) (q : String)
    (dst : Dests userProfiles.scanDests) (e : Error)
    (hfmt : cfg.PlaceholderFormat queryString = (q, none))
    (h : (db.QueryRow (userProfilePrefix ++ q) args w.store).1.Scan userProfiles.scanDests userProfiles.scanZero
      = (dst, some e)) :
    (userProfiles.QueryRowWith cfg db queryString args w).1 = (none, some e) := by
  simp only [userProfiles.QueryRowWith, hfmt, DB.queryRow]
  exact userProfiles_scan_error _ dst e h

/-- C7: for the single-row operations of each entity (`QueryRowWith`,
`FindByID`, and `FindByName` for Role and User), with the query rewritten and
handed to the store: whenever the fetch of the row fails with an error `e`
(the store's empty-result error when no row matches is one such `e`), the
operation returns no entity together with exactly `e`. -/
theorem single_row_fetch_error_unchanged (cfg : Config) (db : DB σ) (w : World σ) :
    (∀ (queryString : String) (args : List Value) (q : String)
        (dst : Dests roles.scanDests) (e : Error),
      cfg.PlaceholderFormat queryString = (q, none) →
      (db.QueryRow (rolePrefix ++ q) args w.store).1.Scan roles.scanDests roles.scanZero
        = (dst, some e) →
      (roles.QueryRowWith cfg db queryString args w).1 = (none, some e)) ∧
    (∀ (id : Int) (q : String) (dst : Dests roles.scanDests) (e : Error),
      cfg.PlaceholderFormat "WHERE id = ?" = (q, none) →
      (db.QueryRow (rolePrefix ++ q) [.int64 id] w.store).1.Scan roles.scanDests
        roles.scanZero = (dst, some e) →
      (roles.FindByID cfg db id w).1 = (none, some e)) ∧
    (∀ (name : String) (q : String) (dst : Dests roles.scanDests) (e : Error),
      cfg.PlaceholderFormat "WHERE name = ?" = (q, none) →
      (db.QueryRow (rolePrefix ++ q) [.string name] w.store).1.Scan roles.scanDests
        roles.scanZero = (dst, some e) →
      (roles.FindByName cfg db name w).1 = (none, some e)) ∧
    (∀ (queryString : String) (args : List Value) (q : String)
        (dst : Dests users.scanDests) (e : Error),
      cfg.PlaceholderFormat queryString = (q, none) →
      (db.QueryRow (userPrefix ++ q) args w.store).1.Scan users.scanDests users.scanZero
        = (dst, some e) →
      (users.QueryRowWith cfg db queryString args w).1 = (none, some e)) ∧
    (∀ (id : Int) (q : String) (dst : Dests users.scanDests) (e : Error),
      cfg.PlaceholderFormat "WHERE id = ?" = (q, none) →
      (db.QueryRow (userPrefix ++ q) [.int64 id] w.store).1.Scan users.scanDests
        users.scanZero = (dst, some e) →
      (users.FindByID cfg db id w).1 = (none, some e)) ∧
    (∀ (name : String) (q : String) (dst : Dests users.scanDests) (e : Error),
      cfg.PlaceholderFormat "WHERE name = ?" = (q, none) →
      (db.QueryRow (userPrefix ++ q) [.string name] w.store).1.Scan users.scanDests
        users.scanZero = (dst, some e) →
      (users.FindByName cfg db name w).1 = (none, some e)) ∧
    (∀ (queryString : String) (args : List Value) (q : String)
        (dst : Dests userProfiles.scanDests) (e : Error),
      cfg.PlaceholderFormat queryString = (q, none) →
      (db.QueryRow (userProfilePrefix ++ q) args w.store).1.Scan userProfiles.scanDests userProfiles.scanZero
        = (dst, some e) →
      (userProfiles.QueryRowWith cfg db queryString args w).1 = (none, some e)) ∧
    (∀ (id : Int) (q : String) (dst : Dests userProfiles.scanDests) (e : Error),
      cfg.PlaceholderFormat "WHERE id = ?" = (q, none) →
      (db.QueryRow (userProfilePrefix ++ q) [.int64 id] w.store).1.Scan userProfiles.scanDests
        userProfiles.scanZero = (dst, some e) →
      (userProfiles.FindByID cfg db id w).1 = (none, some e)) :=
  ⟨fun queryString args q dst e hfmt h =>
      roles_QueryRowWith_error cfg db w queryString args q dst e hfmt h,
    fun id q dst e hfmt h =>
      roles_QueryRowWith_error cfg db w "WHERE id = ?" [.int64 id] q dst e hfmt h,
    fun name q dst e hfmt h =>
      roles_QueryRowWith_error cfg db w "WHERE name = ?" [.string name] q dst e hfmt h,
    fun queryString args q dst e hfmt h =>
      users_QueryRowWith_error cfg db w queryString args q dst e hfmt h,
    fun id q dst e hfmt h =>
      users_QueryRowWith_error cfg db w "WHERE id = ?" [.int64 id] q dst e hfmt h,
    fun name q dst e hfmt h =>
      users_QueryRowWith_error cfg db w "WHERE name = ?" [.string name] q dst e hfmt h,
    fun queryString args q dst e hfmt h =>
      userProfiles_QueryRowWith_error cfg db w queryString args q dst e hfmt h,
    fun id q dst e hfmt h =>
      userProfiles_QueryRowWith_error cfg db w "WHERE id = ?" [.int64 id] q dst e hfmt h⟩

/-- Witness for C7: on a store whose row fetch fails with the empty-result
error, `roles.FindByID 42` returns no entity and that very error. -/
theorem single_row_fetch_error_unchanged_witness :
    (roles.FindByID defaultConfig
      (sampleDB (.error ErrNoRows) (failingRow ErrNoRows) (.error ErrNoRows))
      42 sampleWorld).1 = (none, some ErrNoRows) :=
  (single_row_fetch_error_unchanged defaultConfig
      (sampleDB (.error ErrNoRows) (failingRow ErrNoRows) (.error ErrNoRows))
      sampleWorld).2.1 42 "WHERE id = ?" roles.scanZero ErrNoRows rfl rfl

/-! ## Multi-row fetches -/

theorem roles_scan_some (scanner : RowScanner) (h : (roles.scan scanner).2 = none) :
    (roles.scan scanner).1 ≠ none := by
  rcases hres : scanner.Scan roles.scanDests roles.scanZero with ⟨dst, _ | e⟩
  · rw [roles_scan_ok scanner dst.1 dst.2.1 dst.2.2.1 dst.2.2.2.1
      dst.2.2.2.2.1 dst.2.2.2.2.2.1 hres]
    simp
  · rw [roles_scan_error scanner dst e hres] at h
    simp at h

theorem roles_QueryWith_loop_ok (Err : Option Error) :
    ∀ (rows : List RowScanner) (results : List (Option Role)),
      (∀ r ∈ rows, (roles.scan r).2 = none) →
      roles.QueryWith.loop Err rows results
        = (some (results ++ rows.map fun r => (roles.scan r).1), Err) := by
  intro rows
  induction rows with
  | nil => intro results _; simp [roles.QueryWith.loop]
  | cons row rest ih =>
    intro results hall
    have hrow : roles.scan row = ((roles.scan row).1, none) :=
      Prod.ext rfl (hall row (List.mem_cons_self _ _))
    have hrest := ih (results ++ [(roles.scan row).1])
      (fun r hr => hall r (List.mem_cons_of_mem _ hr))
    unfold roles.QueryWith.loop
    rw [hrow]
    simpa using hrest

theorem roles_QueryWith_loop_error (Err : Option Error) (r : RowScanner)
    (post : List RowScanner) (e : Error) (he : (roles.scan r).2 = some e) :
    ∀ (pre : List RowScanner) (results : List (Option Role)),
      (∀ x ∈ pre, (roles.scan x).2 = none) →
      roles.QueryWith.loop Err (pre ++ r :: post) results = (none, some e) := by
  intro pre
  induction pre with
  | nil =>
    intro results _
    have hr : roles.scan r = ((roles.scan r).1, some e) := Prod.ext rfl he
    rw [List.nil_append]
    unfold roles.QueryWith.loop
    rw [hr]
  | cons row rest ih =>
    intro results hall
    have hrow : roles.scan row = ((roles.scan row).1, none) :=
      Prod.ext rfl (hall row (List.mem_cons_self _ _))
    rw [List.cons_append]
    unfold roles.QueryWith.loop
    rw [hrow]
    exact ih _ (fun x hx => hall x (List.mem_cons_of_mem _ hx))

theorem roles_QueryWith_rows (cfg : Config) (db : DB σ) (w : World σ)
    (queryString : String) (args : List Value) (q : String) (rows : Rows)
    (hfmt : cfg.PlaceholderFormat queryString = (q, none))
    (hq : (db.Query (rolePrefix ++ q) args w.store).1 = .ok rows) :
    ((∀ r ∈ rows.rows, (roles.scan r).2 = none) → rows.Err = none →
      (roles.QueryWith cfg db queryString args w).1
        = (some (rows.rows.map fun r => (roles.scan r).1), none) ∧
      (∀ x ∈ rows.rows.map (fun r => (roles.scan r).1), x ≠ none) ∧
      (rows.rows.map fun r => (roles.scan r).1).length = rows.rows.length) ∧
    (rows.rows = [] → rows.Err = none →
      (roles.QueryWith cfg db queryString args w).1 = (some [], none)) ∧
    (∀ (pre : List RowScanner) (r : RowScanner) (post : List RowScanner) (e : Error),
      rows.rows = pre ++ r :: post → (∀ x ∈ pre, (roles.scan x).2 = none) →
      (roles.scan r).2 = some e →
      (roles.QueryWith cfg db queryString args w).1 = (none, some e)) := by
  have hrun : (roles.QueryWith cfg db queryString args w).1
      = roles.QueryWith.loop rows.Err rows.rows [] := by
    simp only [roles.QueryWith, hfmt, DB.query, hq]
  refine ⟨?_, ?_, ?_⟩
  · intro hall herr
    refine ⟨?_, ?_, by simp⟩
    · rw [hrun, roles_QueryWith_loop_ok rows.Err rows.rows [] hall, herr]
      simp
    · intro x hx
      obtain ⟨r, hr, rfl⟩ := List.mem_map.1 hx
      exact roles_scan_some r (hall r hr)
  · intro hnil herr
    rw [hrun, hnil, herr]
    simp [roles.QueryWith.loop]
  · intro pre r post e hrows hall he
    rw [hrun, hrows]
    exact roles_QueryWith_loop_error rows.Err r post e he pre [] hall

theorem users_scan_some (scanner : RowScanner) (h : (users.scan scanner).2 = none) :
    (users.scan scanner).1 ≠ none := by
  rcases hres : scanner.Scan users.scanDests users.scanZero with ⟨dst, _ | e⟩
  · rw [users_scan_ok scanner dst.1 dst.2.1 dst.2.2.1 dst.2.2.2.1
      dst.2.2.2.2.1 dst.2.2.2.2.2.1 dst.2.2.2.2.2.2.1 dst.2.2.2.2.2.2.2.1 dst.2.2.2.2.2.2.2.2.1 hres]
    simp
  · rw [users_scan_error scanner dst e hres] at h
    simp at h

theorem users_QueryWith_loop_ok (Err : Option Error) :
    ∀ (rows : List RowScanner) (results : List (Option User)),
      (∀ r ∈ rows, (users.scan r).2 = none) →
      users.QueryWith.loop Err rows results
        = (some (results ++ rows.map fun r => (users.scan r).1), Err) := by
  intro rows
  induction rows with
  | nil => intro results _; simp [users.QueryWith.loop]
  | cons row rest ih =>
    intro results hall
    have hrow : users.scan row = ((users.scan row).1, none) :=
      Prod.ext rfl (hall row (List.mem_cons_self _ _))
    have hrest := ih (results ++ [(users.scan row).1])
      (fun r hr => hall r (List.mem_cons_of_mem _ hr))
    unfold users.QueryWith.loop
    rw [hrow]
    simpa using hrest

theorem users_QueryWith_loop_error (Err : Option Error) (r : RowScanner)
    (post : List RowScanner) (e : Error) (he : (users.scan r).2 = some e) :
    ∀ (pre : List RowScanner) (results : List (Option User)),
      (∀ x ∈ pre, (users.scan x).2 = none) →
      users.QueryWith.loop Err (pre ++ r :: post) results = (none, some e) := by
  intro pre
  induction pre with
  | nil =>
    intro results _
    have hr : users.scan r = ((users.scan r).1, some e) := Prod.ext rfl he
    rw [List.nil_append]
    unfold users.QueryWith.loop
    rw [hr]
  | cons row rest ih =>
    intro results hall
    have hrow : users.scan row = ((users.scan row).1, none) :=
      Prod.ext rfl (hall row (List.mem_cons_self _ _))
    rw [List.cons_append]
    unfold users.QueryWith.loop
    rw [hrow]
    exact ih _ (fun x hx => hall x (List.mem_cons_of_mem _ hx))

theorem users_QueryWith_rows (cfg : Config) (db : DB σ) (w : World σ)
    (queryString : String) (args : List Value) (q : String) (rows : Rows)
    (hfmt : cfg.PlaceholderFormat queryString = (q, none))
    (hq : (db.Query (userPrefix ++ q) args w.store).1 = .ok rows) :
    ((∀ r ∈ rows.rows, (users.scan r).2 = none) → rows.Err = none →
      (users.QueryWith cfg db queryString args w).1
        = (some (rows.rows.map fun r => (users.scan r).1), none) ∧
      (∀ x ∈ rows.rows.map (fun r => (users.scan r).1), x ≠ none) ∧
      (rows.rows.map fun r => (users.scan r).1).length = rows.rows.length) ∧
    (rows.rows = [] → rows.Err = none →
      (users.QueryWith cfg db queryString args w).1 = (some [], none)) ∧
    (∀ (pre : List RowScanner) (r : RowScanner) (post : List RowScanner) (e : Error),
      rows.rows = pre ++ r :: post → (∀ x ∈ pre, (users.scan x).2 = none) →
      (users.scan r).2 = some e →
      (users.QueryWith cfg db queryString args w).1 = (none, some e)) := by
  have hrun : (users.QueryWith cfg db queryString args w).1
      = users.QueryWith.loop rows.Err rows.rows [] := by
    simp only [users.QueryWith, hfmt, DB.query, hq]
  refine ⟨?_, ?_, ?_⟩
  · intro hall herr
    refine ⟨?_, ?_, by simp⟩
    · rw [hrun, users_QueryWith_loop_ok rows.Err rows.rows [] hall, herr]
      simp
    · intro x hx
      obtain ⟨r, hr, rfl⟩ := List.mem_map.1 hx
      exact users_scan_some r (hall r hr)
  · intro hnil herr
    rw [hrun, hnil, herr]
    simp [users.QueryWith.loop]
  · intro pre r post e hrows hall he
    rw [hrun, hrows]
    exact users_QueryWith_loop_error rows.Err r post e he pre [] hall

theorem userProfiles_scan_some (scanner : RowScanner) (h : (userProfiles.scan scanner).2 = none) :
    (userProfiles.scan scanner).1 ≠ none := by
  rcases hres : scanner.Scan userProfiles.scanDests userProfiles.scanZero with ⟨dst, _ | e⟩
  · rw [userProfiles_scan_ok scanner dst.1 dst.2.1 dst.2.2.1 dst.2.2.2.1
      dst.2.2.2.2.1 dst.2.2.2.2.2.1 hres]
    simp
  · rw [userProfiles_scan_error scanner dst e hres] at h
    simp at h

theorem userProfiles_QueryWith_loop_ok (Err : Option Error) :
    ∀ (rows : List RowScanner) (results : List (Option UserProfile)),
      (∀ r ∈ rows, (userProfiles.scan r).2 = none) →
      userProfiles.QueryWith.loop Err rows results
        = (some (results ++ rows.map fun r => (userProfiles.scan r).1), Err) := by
  intro rows
  induction rows with
  | nil => intro results _; simp [userProfiles.QueryWith.loop]
  | cons row rest ih =>
    intro results hall
    have hrow : userProfiles.scan row = ((userProfiles.scan row).1, none) :=
      Prod.ext rfl (hall row (List.mem_cons_self _ _))
    have hrest := ih (results ++ [(userProfiles.scan row).1])
      (fun r hr => hall r (List.mem_cons_of_mem _ hr))
    unfold userProfiles.QueryWith.loop
    rw [hrow]
    simpa using hrest

theorem userProfiles_QueryWith_loop_error (Err : Option Error) (r : RowScanner)
    (post : List RowScanner) (e : Error) (he : (userProfiles.scan r).2 = some e) :
    ∀ (pre : List RowScanner) (results : List (Option UserProfile)),
      (∀ x ∈ pre, (userProfiles.scan x).2 = none) →
      userProfiles.QueryWith.loop Err (pre ++ r :: post) results = (none, some e) := by
  intro pre
  induction pre with
  | nil =>
    intro results _
    have hr : userProfiles.scan r = ((userProfiles.scan r).1, some e) := Prod.ext rfl he
    rw [List.nil_append]
    unfold userProfiles.QueryWith.loop
    rw [hr]
  | cons row rest ih =>
    intro results hall
    have hrow : userProfiles.scan row = ((userProfiles.scan row).1, none) :=
      Prod.ext rfl (hall row (List.mem_cons_self _ _))
    rw [List.cons_append]
    unfold userProfiles.QueryWith.loop
    rw [hrow]
    exact ih _ (fun x hx => hall x (List.mem_cons_of_mem _ hx))

theorem userProfiles_QueryWith_rows (cfg : Config) (db : DB σ) (w : World σ)
    (queryString : String) (args : List Value) (q : String) (rows : Rows)
    (hfmt : cfg.PlaceholderFormat queryString = (q, none))
    (hq : (db.Query (userProfilePrefix ++ q) args w.store).1 = .ok rows) :
    ((∀ r ∈ rows.rows, (userProfiles.scan r).2 = none) → rows.Err = none →
      (userProfiles.QueryWith cfg db queryString args w).1
        = (some (rows.rows.map fun r => (userProfiles.scan r).1), none) ∧
      (∀ x ∈ rows.rows.map (fun r => (userProfiles.scan r).1), x ≠ none) ∧
      (rows.rows.map fun r => (userProfiles.scan r).1).length = rows.rows.length) ∧
    (rows.rows = [] → rows.Err = none →
      (userProfiles.QueryWith cfg db queryString args w).1 = (some [], none)) ∧
    (∀ (pre : List RowScanner) (r : RowScanner) (post : List RowScanner) (e : Error),
      rows.rows = pre ++ r :: post → (∀ x ∈ pre, (userProfiles.scan x).2 = none) →
      (userProfiles.scan r).2 = some e →
      (userProfiles.QueryWith cfg db queryString args w).1 = (none, some e)) := by
  have hrun : (userProfiles.QueryWith cfg db queryString args w).1
      = userProfiles.QueryWith.loop rows.Err rows.rows [] := by
    simp only [userProfiles.QueryWith, hfmt, DB.query, hq]
  refine ⟨?_, ?_, ?_⟩
  · intro hall herr
    refine ⟨?_, ?_, by simp⟩
    · rw [hrun, userProfiles_QueryWith_loop_ok rows.Err rows.rows [] hall, herr]
      simp
    · intro x hx
      obtain ⟨r, hr, rfl⟩ := List.mem_map.1 hx
      exact userProfiles_scan_some r (hall r hr)
  · intro hnil herr
    rw [hrun, hnil, herr]
    simp [userProfiles.QueryWith.loop]
  · intro pre r post e hrows hall he
    rw [hrun, hrows]
    exact userProfiles_QueryWith_loop_error rows.Err r post e he pre [] hall

/-- C8: for each entity's `QueryWith`, with the query rewritten and a cursor
returned by the store: when every row decodes and the cursor ends without an
error, the result is the list of the decoded rows, one entity for each row in
cursor order, and no error; when the cursor has no rows it is the empty
non-nil sequence and no error; when a row fails to decode after the rows
before it decoded, the result is no sequence and that row's error. -/
theorem QueryWith_lists_decoded_rows (cfg : Config) (db : DB σ) (w : World σ)
    (queryString : String) (args : List Value) (q : String) (rows : Rows)
    (hfmt : cfg.PlaceholderFormat queryString = (q, none)) :
    ((db.Query (rolePrefix ++ q) args w.store).1 = .ok rows →
      ((∀ r ∈ rows.rows, (roles.scan r).2 = none) → rows.Err = none →
        (roles.QueryWith cfg db queryString args w).1
          = (some (rows.rows.map fun r => (roles.scan r).1), none) ∧
        (∀ x ∈ rows.rows.map (fun r => (roles.scan r).1), x ≠ none) ∧
        (rows.rows.map fun r => (roles.scan r).1).length = rows.rows.length) ∧
      (rows.rows = [] → rows.Err = none →
        (roles.QueryWith cfg db queryString args w).1 = (some [], none)) ∧
      (∀ (pre : List RowScanner) (r : RowScanner) (post : List RowScanner) (e : Error),
        rows.rows = pre ++ r :: post → (∀ x ∈ pre, (roles.scan x).2 = none) →
        (roles.scan r).2 = some e →
        (roles.QueryWith cfg db queryString args w).1 = (none, some e))) ∧
    ((db.Query (userPrefix ++ q) args w.store).1 = .ok rows →
      ((∀ r ∈ rows.rows, (users.scan r).2 = none) → rows.Err = none →
        (users.QueryWith cfg db queryString args w).1
          = (some (rows.rows.map fun r => (users.scan r).1), none) ∧
        (∀ x ∈ rows.rows.map (fun r => (users.scan r).1), x ≠ none) ∧
        (rows.rows.map fun r => (users.scan r).1).length = rows.rows.length) ∧
      (rows.rows = [] → rows.Err = none →
        (users.QueryWith cfg db queryString args w).1 = (some [], none)) ∧
      (∀ (pre : List RowScanner) (r : RowScanner) (post : List RowScanner) (e : Error),
        rows.rows = pre ++ r :: post → (∀ x ∈ pre, (users.scan x).2 = none) →
        (users.scan r).2 = some e →
        (users.QueryWith cfg db queryString args w).1 = (none, some e))) ∧
    ((db.Query (userProfilePrefix ++ q) args w.store).1 = .ok rows →
      ((∀ r ∈ rows.rows, (userProfiles.scan r).2 = none) → rows.Err = none →
        (userProfiles.QueryWith cfg db queryString args w).1
          = (some (rows.rows.map fun r => (userProfiles.scan r).1), none) ∧
        (∀ x ∈ rows.rows.map (fun r => (userProfiles.scan r).1), x ≠ none) ∧
        (rows.rows.map fun r => (userProfiles.scan r).1).length = rows.rows.length) ∧
      (rows.rows = [] → rows.Err = none →
        (userProfiles.QueryWith cfg db queryString args w).1 = (some [], none)) ∧
      (∀ (pre : List RowScanner) (r : RowScanner) (post : List RowScanner) (e : Error),
        rows.rows = pre ++ r :: post → (∀ x ∈ pre, (userProfiles.scan x).2 = none) →
        (userProfiles.scan r).2 = some e →
        (userProfiles.QueryWith cfg db queryString args w).1 = (none, some e))) :=
  ⟨fun hq => roles_QueryWith_rows cfg db w queryString args q rows hfmt hq,
    fun hq => users_QueryWith_rows cfg db w queryString args q rows hfmt hq,
    fun hq => userProfiles_QueryWith_rows cfg db w queryString args q rows hfmt hq⟩

/-- Witness for C8: on a store whose cursor holds the sample role row twice and
ends without an error, `roles.QueryWith` returns the two decoded roles in
order. -/
theorem QueryWith_lists_decoded_rows_witness :
    (roles.QueryWith defaultConfig
      (sampleDB (.error ErrNoRows) (failingRow ErrNoRows)
        (.ok ⟨[sampleRoleRow, sampleRoleRow], none⟩))
      "WHERE id > ?" [.int64 0] sampleWorld).1
      = (some [some { ID := 3, Name := "admin", Description := "", PermissionKeys := "k1,k2",
                      CreatedAt := ⟨5⟩, UpdatedAt := Time.zero },
               some { ID := 3, Name := "admin", Description := "", PermissionKeys := "k1,k2",
                      CreatedAt := ⟨5⟩, UpdatedAt := Time.zero }], none) := by
  have hrow : roles.scan sampleRoleRow
      = (some { ID := 3, Name := "admin", Description := "", PermissionKeys := "k1,k2",
                CreatedAt := ⟨5⟩, UpdatedAt := Time.zero }, none) := by
    have h := roles_scan_ok _ _ _ _ _ _ _ sampleRoleRow_Scan
    simpa using h
  have h := (((QueryWith_lists_decoded_rows defaultConfig
      (sampleDB (.error ErrNoRows) (failingRow ErrNoRows)
        (.ok ⟨[sampleRoleRow, sampleRoleRow], none⟩))
      sampleWorld "WHERE id > ?" [.int64 0] "WHERE id > ?"
      ⟨[sampleRoleRow, sampleRoleRow], none⟩ rfl).1 rfl).1
      (by intro r hr; simp at hr; subst hr; rw [hrow]) rfl).1
  rw [h]
  simp [hrow]

/-! ## Creating an entity -/

theorem roles_CreateIt_issued (cfg : Config) (db : DB σ) (w : World σ) (value : Role)
    (q : String) (hfmt : cfg.PlaceholderFormat roles.CreateIt.sqlString = (q, none)) :
    (roles.CreateIt cfg db value w).2.2.issued = w.issued ++
      [⟨if cfg.IsReturning then q ++ " RETURNING \"id\"" else q,
        [.string value.Name, .string value.Description, .string value.PermissionKeys,
          .time (w.clock w.ticks), .time (w.clock w.ticks)]⟩] := by
  simp only [roles.CreateIt, hfmt, time.Now]
  cases hret : cfg.IsReturning
  · simp only [Bool.false_eq_true, if_false, DB.exec]
    cases (db.Exec q
      [.string value.Name, .string value.Description, .string value.PermissionKeys,
        .time (w.clock w.ticks), .time (w.clock w.ticks)]
      w.store).1 <;> rfl
  · simp only [if_true, DB.queryRow]

theorem roles_CreateIt_returning_ID (cfg : Config) (db : DB σ) (w : World σ) (value : Role)
    (hret : cfg.IsReturning = true) (hok : (roles.CreateIt cfg db value w).1.2 = none) :
    (roles.CreateIt cfg db value w).2.1.ID = (roles.CreateIt cfg db value w).1.1 := by
  rcases hfmt : cfg.PlaceholderFormat roles.CreateIt.sqlString with ⟨q, _ | e⟩
  · simp only [roles.CreateIt, hfmt, time.Now, hret, if_true, DB.queryRow]
  · simp [roles.CreateIt, hfmt] at hok

theorem users_CreateIt_issued (cfg : Config) (db : DB σ) (w : World σ) (value : User)
    (q : String) (hfmt : cfg.PlaceholderFormat users.CreateIt.sqlString = (q, none)) :
    (users.CreateIt cfg db value w).2.2.issued = w.issued ++
      [⟨if cfg.IsReturning then q ++ " RETURNING \"id\"" else q,
        [.string value.Name, .string value.Description, .string value.Password,
          .string value.Phone, .string value.Email, .int64 value.State,
          .time (w.clock w.ticks), .time (w.clock w.ticks)]⟩] := by
  simp only [users.CreateIt, hfmt, time.Now]
  cases hret : cfg.IsReturning
  · simp only [Bool.false_eq_true, if_false, DB.exec]
    cases (db.Exec q
      [.string value.Name, .string value.Description, .string value.Password,
        .string value.Phone, .string value.Email, .int64 value.State,
        .time (w.clock w.ticks), .time (w.clock w.ticks)]
      w.store).1 <;> rfl
  · simp only [if_true, DB.queryRow]

theorem users_CreateIt_returning_ID (cfg : Config) (db : DB σ) (w : World σ) (value : User)
    (hret : cfg.IsReturning = true) (hok : (users.CreateIt cfg db value w).1.2 = none) :
    (users.CreateIt cfg db value w).2.1.ID = (users.CreateIt cfg db value w).1.1 := by
  rcases hfmt : cfg.PlaceholderFormat users.CreateIt.sqlString with ⟨q, _ | e⟩
  · simp only [users.CreateIt, hfmt, time.Now, hret, if_true, DB.queryRow]
  · simp [users.CreateIt, hfmt] at hok

theorem userProfiles_CreateIt_issued (cfg : Config) (db : DB σ) (w : World σ) (value : UserProfile)
    (q : String) (hfmt : cfg.PlaceholderFormat userProfiles.CreateIt.sqlString = (q, none)) :
    (userProfiles.CreateIt cfg db value w).2.2.issued = w.issued ++
      [⟨if cfg.IsReturning then q ++ " RETURNING \"id\"" else q,
        [.string value.User, .string value.Name, .string value.Value,
          .time (w.clock w.ticks), .time (w.clock w.ticks)]⟩] := by
  simp only [userProfiles.CreateIt, hfmt, time.Now]
  cases hret : cfg.IsReturning
  · simp only [Bool.false_eq_true, if_false, DB.exec]
    cases (db.Exec q
      [.string value.User, .string value.Name, .string value.Value,
        .time (w.clock w.ticks), .time (w.clock w.ticks)]
      w.store).1 <;> rfl
  · simp only [if_true, DB.queryRow]

theorem userProfiles_CreateIt_returning_ID (cfg : Config) (db : DB σ) (w : World σ) (value : UserProfile)
    (hret : cfg.IsReturning = true) (hok : (userProfiles.CreateIt cfg db value w).1.2 = none) :
    (userProfiles.CreateIt cfg db value w).2.1.ID = (userProfiles.CreateIt cfg db value w).1.1 := by
  rcases hfmt : cfg.PlaceholderFormat userProfiles.CreateIt.sqlString with ⟨q, _ | e⟩
  · simp only [userProfiles.CreateIt, hfmt, time.Now, hret, if_true, DB.queryRow]
  · simp [userProfiles.CreateIt, hfmt] at hok

/-- C10: for the three `CreateIt` operations and both settings of
`IsReturning`, once the insert has been rewritten, the arguments bound to the
insert handed to the store are the entity's mutable fields in the order of the
columns of the insert followed by one reading of the clock, bound both as
created_at and as updated_at; the statement does not change when the entity's
own CreatedAt and UpdatedAt change. -/
theorem CreateIt_binds_fields_then_one_instant (cfg : Config) (db : DB σ) (w : World σ) :
    (roles.CreateIt.sqlString = insertInto "tpt_roles"
        ["name", "description", "permission_keys", "created_at", "updated_at"] ∧
      (∀ (value : Role) (q : String),
        cfg.PlaceholderFormat roles.CreateIt.sqlString = (q, none) →
        (roles.CreateIt cfg db value w).2.2.issued = w.issued ++
          [⟨if cfg.IsReturning then q ++ " RETURNING \"id\"" else q,
            [.string value.Name, .string value.Description, .string value.PermissionKeys,
              .time (w.clock w.ticks), .time (w.clock w.ticks)]⟩]) ∧
      (∀ (value : Role) (c u : Time),
        (roles.CreateIt cfg db { value with CreatedAt := c, UpdatedAt := u } w).2.2.issued
          = (roles.CreateIt cfg db value w).2.2.issued)) ∧
    (users.CreateIt.sqlString = insertInto "tpt_users"
        ["name", "description", "password", "phone", "email", "state", "created_at",
          "updated_at"] ∧
      (∀ (value : User) (q : String),
        cfg.PlaceholderFormat users.CreateIt.sqlString = (q, none) →
        (users.CreateIt cfg db value w).2.2.issued = w.issued ++
          [⟨if cfg.IsReturning then q ++ " RETURNING \"id\"" else q,
            [.string value.Name, .string value.Description, .string value.Password,
              .string value.Phone, .string value.Email, .int64 value.State,
              .time (w.clock w.ticks), .time (w.clock w.ticks)]⟩]) ∧
      (∀ (value : User) (c u : Time),
        (users.CreateIt cfg db { value with CreatedAt := c, UpdatedAt := u } w).2.2.issued
          = (users.CreateIt cfg db value w).2.2.issued)) ∧
    (userProfiles.CreateIt.sqlString = insertInto "tpt_user_profiles"
        ["usr", "name", "value", "created_at", "updated_at"] ∧
      (∀ (value : UserProfile) (q : String),
        cfg.PlaceholderFormat userProfiles.CreateIt.sqlString = (q, none) →
        (userProfiles.CreateIt cfg db value w).2.2.issued = w.issued ++
          [⟨if cfg.IsReturning then q ++ " RETURNING \"id\"" else q,
            [.string value.User, .string value.Name, .string value.Value,
              .time (w.clock w.ticks), .time (w.clock w.ticks)]⟩]) ∧
      (∀ (value : UserProfile) (c u : Time),
        (userProfiles.CreateIt cfg db { value with CreatedAt := c, UpdatedAt := u } w).2.2.issued
          = (userProfiles.CreateIt cfg db value w).2.2.issued)) :=
  ⟨⟨by decide, fun value q hfmt => roles_CreateIt_issued cfg db w value q hfmt, by
      intro value c u
      rcases hfmt : cfg.PlaceholderFormat roles.CreateIt.sqlString with ⟨q, _ | e⟩
      · rw [roles_CreateIt_issued cfg db w _ q hfmt, roles_CreateIt_issued cfg db w _ q hfmt]
      · simp only [roles.CreateIt, hfmt]⟩,
    ⟨by decide, fun value q hfmt => users_CreateIt_issued cfg db w value q hfmt, by
      intro value c u
      rcases hfmt : cfg.PlaceholderFormat users.CreateIt.sqlString with ⟨q, _ | e⟩
      · rw [users_CreateIt_issued cfg db w _ q hfmt, users_CreateIt_issued cfg db w _ q hfmt]
      · simp only [users.CreateIt, hfmt]⟩,
    ⟨by decide, fun value q hfmt => userProfiles_CreateIt_issued cfg db w value q hfmt, by
      intro value c u
      rcases hfmt : cfg.PlaceholderFormat userProfiles.CreateIt.sqlString with ⟨q, _ | e⟩
      · rw [userProfiles_CreateIt_issued cfg db w _ q hfmt, userProfiles_CreateIt_issued cfg db w _ q hfmt]
      · simp only [userProfiles.CreateIt, hfmt]⟩⟩

/-- Witness for C10: in returning mode the insert of a role whose own
timestamps are 1 and 2 binds its three mutable fields and twice the clock's
reading 1000. -/
theorem CreateIt_binds_fields_then_one_instant_witness :
    (roles.CreateIt (questionConfig true) insertingDB
      { Name := "a", Description := "a_descr", PermissionKeys := "k1,k2",
        CreatedAt := ⟨1⟩, UpdatedAt := ⟨2⟩ } sampleWorld).2.2.issued
      = [⟨roles.CreateIt.sqlString ++ " RETURNING \"id\"",
          [.string "a", .string "a_descr", .string "k1,k2", .time ⟨1000⟩, .time ⟨1000⟩]⟩] :=
  (CreateIt_binds_fields_then_one_instant (questionConfig true) insertingDB
    sampleWorld).1.2.1
    { Name := "a", Description := "a_descr", PermissionKeys := "k1,k2",
      CreatedAt := ⟨1⟩, UpdatedAt := ⟨2⟩ } roles.CreateIt.sqlString rfl

/-- C9 at the failing input: with `IsReturning = false`, on a store that
executes the insert and reports 7 as the last inserted identity, `CreateIt` on
a Transient entity returns 7 and no error for each of the three accessors, and
the entity behind the pointer still has ID 0.  In returning mode on the same
store the role's ID is 7 afterwards. -/
theorem CreateIt_lastInsertId_leaves_entity_transient :
    ((roles.CreateIt (questionConfig false) insertingDB
        { Name := "a", Description := "a_descr", PermissionKeys := "k1,k2" }
        sampleWorld).1 = (7, none) ∧
      (roles.CreateIt (questionConfig false) insertingDB
        { Name := "a", Description := "a_descr", PermissionKeys := "k1,k2" }
        sampleWorld).2.1.ID = 0) ∧
    ((users.CreateIt (questionConfig false) insertingDB
        { Name := "a", Description := "a_descr", Password := "a_pwd", Phone := "123",
          Email := "a@h.com", State := 23 } sampleWorld).1 = (7, none) ∧
      (users.CreateIt (questionConfig false) insertingDB
        { Name := "a", Description := "a_descr", Password := "a_pwd", Phone := "123",
          Email := "a@h.com", State := 23 } sampleWorld).2.1.ID = 0) ∧
    ((userProfiles.CreateIt (questionConfig false) insertingDB
        { User := "u1", Name := "a", Value := "a_descr" } sampleWorld).1 = (7, none) ∧
      (userProfiles.CreateIt (questionConfig false) insertingDB
        { User := "u1", Name := "a", Value := "a_descr" } sampleWorld).2.1.ID = 0) ∧
    ((roles.CreateIt (questionConfig true) insertingDB
        { Name := "a", Description := "a_descr", PermissionKeys := "k1,k2" }
        sampleWorld).1 = (7, none) ∧
      (roles.CreateIt (questionConfig true) insertingDB
        { Name := "a", Description := "a_descr", PermissionKeys := "k1,k2" }
        sampleWorld).2.1.ID = 7) :=
  ⟨⟨rfl, rfl⟩, ⟨rfl, rfl⟩, ⟨rfl, rfl⟩, ⟨rfl, rfl⟩⟩


/-! ## A doubled marker at the end of the query -/

theorem numberedRewrite_append_escape : ∀ (n : Nat) (t : List Char),
    t.getLast? ≠ some '?' →
    numberedRewrite n (t ++ ['?', '?']) = numberedRewrite n t ++ ['?']
  | n, [], _ => by simp [numberedRewrite]
  | n, [c], h => by
    have hc : c ≠ '?' := by simpa using h
    simp [numberedRewrite, hc]
  | n, c :: d :: rest, h => by
    have hlast : (d :: rest).getLast? ≠ some '?' := by
      simpa [List.getLast?_cons_cons] using h
    by_cases hc : c = '?'
    · subst hc
      by_cases hd : d = '?'
      · subst hd
        cases rest with
        | nil => simp at h
        | cons e rest =>
          have hrest : (e :: rest).getLast? ≠ some '?' := by
            simpa [List.getLast?_cons_cons] using hlast
          have ih := numberedRewrite_append_escape n (e :: rest) hrest
          simp only [List.cons_append] at ih ⊢
          rw [numberedRewrite_escape, numberedRewrite_escape, ih, List.cons_append]
      · have ih := numberedRewrite_append_escape (n + 1) (d :: rest) hlast
        have hne : ∀ post, d :: rest ≠ '?' :: post := fun post hq => hd (List.cons.inj hq).1
        have hne2 : ∀ post, d :: (rest ++ ['?', '?']) ≠ '?' :: post :=
          fun post hq => hd (List.cons.inj hq).1
        simp only [List.cons_append] at ih ⊢
        rw [numberedRewrite_marker n _ hne, numberedRewrite_marker n _ hne2, ih,
          List.append_assoc]
    · have ih := numberedRewrite_append_escape n (d :: rest) hlast
      simp only [List.cons_append] at ih ⊢
      rw [numberedRewrite_cons_ne n hc, numberedRewrite_cons_ne n hc, ih, List.cons_append]

theorem Dollar_value (s : String) :
    Dollar s = some (String.mk (numberedRewrite 0 s.data), none) := by
  unfold Dollar Dollar.run
  rw [Dollar.loop_eq (s.length + 1) [] 0 s.data (Nat.lt_succ_self _)]
  rfl

/-- C14: for every string `t` that does not end with `?`, `Dollar` on `t`
followed by a doubled marker leaves its loop, returns no error, and returns
what `Dollar` returns on `t` followed by one literal `?`: the doubled marker at
the very end uses no number and nothing is written after it. -/
theorem Dollar_trailing_doubled_marker (t : String) (h : t.data.getLast? ≠ some '?') :
    ∃ out, Dollar t = some (out, none) ∧ Dollar (t ++ "??") = some (out ++ "?", none) := by
  refine ⟨String.mk (numberedRewrite 0 t.data), Dollar_value t, ?_⟩
  rw [Dollar_value]
  have hdata : (t ++ "??").data = t.data ++ ['?', '?'] := by
    rw [String.data_append]
  rw [hdata, numberedRewrite_append_escape 0 t.data h]
  rfl

/-- Witness for C14: the query `a = ? and b = ` does not end with `?`, and with
a doubled marker appended it is rewritten to `a = $1 and b = ?`. -/
theorem Dollar_trailing_doubled_marker_witness :
    ∃ out, Dollar "a = ? and b = " = some (out, none) ∧
      Dollar ("a = ? and b = " ++ "??") = some (out ++ "?", none) :=
  Dollar_trailing_doubled_marker "a = ? and b = " (by decide)

/-! ## A NULL name -/

/-- C13 at the failing input: `roles.scan` and `users.scan` hand `Scan` a plain
string destination for the name column, while `userProfiles.scan` hands it a
`NullString` holder.  A role row and a user row whose name is NULL and whose
other columns hold values fail to decode: `scan` returns no entity and the
conversion error.  The role row with a NULL description instead of a NULL name
decodes with an empty description, and a profile row with a NULL name decodes
with an empty name. -/
theorem scan_NULL_name_is_an_error :
    (roles.scanDests.get? 1 = some Dest.string ∧
      users.scanDests.get? 1 = some Dest.string ∧
      userProfiles.scanDests.get? 2 = some Dest.NullString) ∧
    roles.scan (sampleRow [.int64 3, .null, .string "a_descr", .string "k1,k2",
        .time ⟨5⟩, .time ⟨6⟩])
      = (none, some (errors.New "sql: Scan error: unsupported conversion")) ∧
    users.scan (sampleRow [.int64 3, .null, .string "a_descr", .string "a_pwd",
        .string "123", .string "a@h.com", .int64 23, .time ⟨5⟩, .time ⟨6⟩])
      = (none, some (errors.New "sql: Scan error: unsupported conversion")) ∧
    roles.scan (sampleRow [.int64 3, .string "a", .null, .string "k1,k2",
        .time ⟨5⟩, .time ⟨6⟩])
      = (some { ID := 3, Name := "a", Description := "", PermissionKeys := "k1,k2",
                CreatedAt := ⟨5⟩, UpdatedAt := ⟨6⟩ }, none) ∧
    userProfiles.scan (sampleRow [.int64 3, .string "u1", .null, .string "v",
        .time ⟨5⟩, .time ⟨6⟩])
      = (some { ID := 3, User := "u1", Name := "", Value := "v",
                CreatedAt := ⟨5⟩, UpdatedAt := ⟨6⟩ }, none) := by
  refine ⟨⟨rfl, rfl, rfl⟩, ?_, ?_, ?_, ?_⟩
  · exact roles_scan_error _
      (3, "", ⟨"", false⟩, ⟨"", false⟩, ⟨Time.zero, false⟩, ⟨Time.zero, false⟩, ()) _
      (by simp [sampleRow, roles.scanDests, roles.scanZero, Cell.fill, Dest.convert])
  · exact users_scan_error _
      (3, "", ⟨"", false⟩, ⟨"", false⟩, ⟨"", false⟩, ⟨"", false⟩, ⟨0, false⟩,
        ⟨Time.zero, false⟩, ⟨Time.zero, false⟩, ()) _
      (by simp [sampleRow, users.scanDests, users.scanZero, Cell.fill, Dest.convert])
  · have h := roles_scan_ok (sampleRow [.int64 3, .string "a", .null, .string "k1,k2",
        .time ⟨5⟩, .time ⟨6⟩]) 3 "a" ⟨"", false⟩ ⟨"k1,k2", true⟩ ⟨⟨5⟩, true⟩ ⟨⟨6⟩, true⟩
      (by simp [sampleRow, roles.scanDests, roles.scanZero, Cell.fill, Dest.convert])
    simpa using h
  · have h := userProfiles_scan_ok (sampleRow [.int64 3, .string "u1", .null, .string "v",
        .time ⟨5⟩, .time ⟨6⟩]) 3 ⟨"u1", true⟩ ⟨"", false⟩ ⟨"v", true⟩ ⟨⟨5⟩, true⟩ ⟨⟨6⟩, true⟩
      (by simp [sampleRow, userProfiles.scanDests, userProfiles.scanZero, Cell.fill,
        Dest.convert])
    simpa using h

/-! ## Placeholder arity of the package's statements -/

set_option maxRecDepth 100000

theorem Dollar_format_value (s : String) :
    Dollar.format s = (String.mk (numberedRewrite 0 s.data), none) := by
  unfold Dollar.format
  rw [Dollar_value]

theorem PlaceholderArity_intro (template : String) (k : Nat) (before after : List Statement)
    (q : String) (args : List Value) (h1 : hasDoubledMarker template.data = false)
    (h2 : countMarkers template.data = k) (h3 : after = before ++ [⟨q, args⟩])
    (h4 : args.length = k) (h5 : '?' ∉ q.data)
    (h6 : dollarMarkers q.data = List.range' 1 k) :
    PlaceholderArity template k before after :=
  ⟨h1, h2, ⟨q, args⟩, h3, h4, h5, h6⟩

theorem roles_FindByID_arity (isReturning : Bool) (db : DB σ) (w : World σ) (id : Int) :
    PlaceholderArity "WHERE id = ?" 1 w.issued
      (roles.FindByID (dollarConfig isReturning) db id w).2.issued := by
  have hiss : (roles.FindByID (dollarConfig isReturning) db id w).2.issued
      = w.issued ++ [⟨(rolePrefix ++ String.mk (numberedRewrite 0 ("WHERE id = ?").data)),
        [.int64 id]⟩] := by
    simp only [roles.FindByID, roles.QueryRowWith, DB.queryRow, dollarConfig, Dollar_format_value]
  exact PlaceholderArity_intro _ _ _ _ _ _ (by decide) (by decide) hiss rfl (by decide)
    (by decide)

theorem roles_FindByName_arity (isReturning : Bool) (db : DB σ) (w : World σ) (name : String) :
    PlaceholderArity "WHERE name = ?" 1 w.issued
      (roles.FindByName (dollarConfig isReturning) db name w).2.issued := by
  have hiss : (roles.FindByName (dollarConfig isReturning) db name w).2.issued
      = w.issued ++ [⟨(rolePrefix ++ String.mk (numberedRewrite 0 ("WHERE name = ?").data)),
        [.string name]⟩] := by
    simp only [roles.FindByName, roles.QueryRowWith, DB.queryRow, dollarConfig, Dollar_format_value]
  exact PlaceholderArity_intro _ _ _ _ _ _ (by decide) (by decide) hiss rfl (by decide)
    (by decide)

theorem roles_FindByUserID_arity (isReturning : Bool) (db : DB σ) (w : World σ) (userID : Int) :
    PlaceholderArity 
      "WHERE EXISTS (SELECT * FROM tpt_user_roles WHERE user_id = ? AND tpt_roles.id = tpt_user_roles.role_id)" 1 w.issued
      (roles.FindByUserID (dollarConfig isReturning) db userID w).2.issued := by
  have hiss : (roles.FindByUserID (dollarConfig isReturning) db userID w).2.issued
      = w.issued ++ [⟨(rolePrefix ++ String.mk (numberedRewrite 0 ("WHERE EXISTS (SELECT * FROM tpt_user_roles WHERE user_id = ? AND tpt_roles.id = tpt_user_roles.role_id)").data)),
        [.int64 userID]⟩] := by
    simp only [roles.FindByUserID, roles.QueryWith, DB.query, dollarConfig, Dollar_format_value]
    cases (db.Query (rolePrefix ++ String.mk (numberedRewrite 0 ("WHERE EXISTS (SELECT * FROM tpt_user_roles WHERE user_id = ? AND tpt_roles.id = tpt_user_roles.role_id)").data))
        [.int64 userID] w.store).1 <;> rfl
  exact PlaceholderArity_intro _ _ _ _ _ _ (by decide) (by decide) hiss rfl (by decide)
    (by decide)

theorem roles_FindByUserName_arity (isReturning : Bool) (db : DB σ) (w : World σ) (username : String) :
    PlaceholderArity 
      "WHERE EXISTS (SELECT * FROM tpt_user_roles WHERE tpt_roles.id = tpt_user_roles.role_id AND EXISTS (SELECT * FROM tpt_users WHERE name = ? AND tpt_user_roles.user_id = tpt_users.id))" 1 w.issued
      (roles.FindByUserName (dollarConfig isReturning) db username w).2.issued := by
  have hiss : (roles.FindByUserName (dollarConfig isReturning) db username w).2.issued
      = w.issued ++ [⟨(rolePrefix ++ String.mk (numberedRewrite 0 ("WHERE EXISTS (SELECT * FROM tpt_user_roles WHERE tpt_roles.id = tpt_user_roles.role_id AND EXISTS (SELECT * FROM tpt_users WHERE name = ? AND tpt_user_roles.user_id = tpt_users.id))").data)),
        [.string username]⟩] := by
    simp only [roles.FindByUserName, roles.QueryWith, DB.query, dollarConfig, Dollar_format_value]
    cases (db.Query (rolePrefix ++ String.mk (numberedRewrite 0 ("WHERE EXISTS (SELECT * FROM tpt_user_roles WHERE tpt_roles.id = tpt_user_roles.role_id AND EXISTS (SELECT * FROM tpt_users WHERE name = ? AND tpt_user_roles.user_id = tpt_users.id))").data))
        [.string username] w.store).1 <;> rfl
  exact PlaceholderArity_intro _ _ _ _ _ _ (by decide) (by decide) hiss rfl (by decide)
    (by decide)

theorem roles_CreateIt_arity (isReturning : Bool) (db : DB σ) (w : World σ) (value : Role) :
    PlaceholderArity roles.CreateIt.sqlString 5 w.issued
      (roles.CreateIt (dollarConfig isReturning) db value w).2.2.issued := by
  have hiss := roles_CreateIt_issued (dollarConfig isReturning) db w value _
    (Dollar_format_value roles.CreateIt.sqlString)
  cases isReturning
  · exact PlaceholderArity_intro _ _ _ _ _ _ (by decide) (by decide) hiss rfl (by decide)
      (by decide)
  · exact PlaceholderArity_intro _ _ _ _ _ _ (by decide) (by decide) hiss rfl (by decide)
      (by decide)

theorem roles_UpdateIt_arity (isReturning : Bool) (db : DB σ) (w : World σ) (value : Role) (hid : value.ID ≠ 0) :
    PlaceholderArity roles.UpdateIt.updateString 5 w.issued
      (roles.UpdateIt (dollarConfig isReturning) db value w).2.issued := by
  have hid' : ¬ (0 = value.ID) := fun h => hid h.symm
  have hiss : (roles.UpdateIt (dollarConfig isReturning) db value w).2.issued
      = w.issued ++ [⟨(String.mk (numberedRewrite 0 (roles.UpdateIt.updateString).data)),
        [.string value.Name, .string value.Description, .string value.PermissionKeys,
          .time (w.clock w.ticks), .int64 value.ID]⟩] := by
    simp only [roles.UpdateIt, time.Now, DB.exec, hid', if_false, dollarConfig, Dollar_format_value]
    cases (db.Exec (String.mk (numberedRewrite 0 (roles.UpdateIt.updateString).data))
        [.string value.Name, .string value.Description, .string value.PermissionKeys,
          .time (w.clock w.ticks), .int64 value.ID] w.store).1 with
    | error e => rfl
    | ok res =>
      dsimp only
      rcases res.RowsAffected with ⟨n, _ | e⟩
      · dsimp only
        split <;> rfl
      · rfl
  exact PlaceholderArity_intro _ _ _ _ _ _ (by decide) (by decide) hiss rfl (by decide)
    (by decide)

theorem roles_DeleteByID_arity (isReturning : Bool) (db : DB σ) (w : World σ) (key : Int) (hid : key ≠ 0) :
    PlaceholderArity roles.DeleteByID.deleteString 1 w.issued
      (roles.DeleteByID (dollarConfig isReturning) db key w).2.issued := by
  have hid' : ¬ (0 = key) := fun h => hid h.symm
  have hiss : (roles.DeleteByID (dollarConfig isReturning) db key w).2.issued
      = w.issued ++ [⟨(String.mk (numberedRewrite 0 (roles.DeleteByID.deleteString).data)),
        [.int64 key]⟩] := by
    simp only [roles.DeleteByID, DB.exec, hid', if_false, dollarConfig, Dollar_format_value]
    cases (db.Exec (String.mk (numberedRewrite 0 (roles.DeleteByID.deleteString).data))
        [.int64 key] w.store).1 with
    | error e => rfl
    | ok res =>
      dsimp only
      rcases res.RowsAffected with ⟨n, _ | e⟩
      · dsimp only
        split <;> rfl
      · rfl
  exact PlaceholderArity_intro _ _ _ _ _ _ (by decide) (by decide) hiss rfl (by decide)
    (by decide)

theorem users_FindByID_arity (isReturning : Bool) (db : DB σ) (w : World σ) (id : Int) :
    PlaceholderArity "WHERE id = ?" 1 w.issued
      (users.FindByID (dollarConfig isReturning) db id w).2.issued := by
  have hiss : (users.FindByID (dollarConfig isReturning) db id w).2.issued
      = w.issued ++ [⟨(userPrefix ++ String.mk (numberedRewrite 0 ("WHERE id = ?").data)),
        [.int64 id]⟩] := by
    simp only [users.FindByID, users.QueryRowWith, DB.queryRow, dollarConfig, Dollar_format_value]
  exact PlaceholderArity_intro _ _ _ _ _ _ (by decide) (by decide) hiss rfl (by decide)
    (by decide)

theorem users_FindByName_arity (isReturning : Bool) (db : DB σ) (w : World σ) (name : String) :
    PlaceholderArity "WHERE name = ?" 1 w.issued
      (users.FindByName (dollarConfig isReturning) db name w).2.issued := by
  have hiss : (users.FindByName (dollarConfig isReturning) db name w).2.issued
      = w.issued ++ [⟨(userPrefix ++ String.mk (numberedRewrite 0 ("WHERE name = ?").data)),
        [.string name]⟩] := by
    simp only [users.FindByName, users.QueryRowWith, DB.queryRow, dollarConfig, Dollar_format_value]
  exact PlaceholderArity_intro _ _ _ _ _ _ (by decide) (by decide) hiss rfl (by decide)
    (by decide)

theorem users_CreateIt_arity (isReturning : Bool) (db : DB σ) (w : World σ) (value : User) :
    PlaceholderArity users.CreateIt.sqlString 8 w.issued
      (users.CreateIt (dollarConfig isReturning) db value w).2.2.issued := by
  have hiss := users_CreateIt_issued (dollarConfig isReturning) db w value _
    (Dollar_format_value users.CreateIt.sqlString)
  cases isReturning
  · exact PlaceholderArity_intro _ _ _ _ _ _ (by decide) (by decide) hiss rfl (by decide)
      (by decide)
  · exact PlaceholderArity_intro _ _ _ _ _ _ (by decide) (by decide) hiss rfl (by decide)
      (by decide)

theorem users_UpdateIt_arity (isReturning : Bool) (db : DB σ) (w : World σ) (value : User) (hid : value.ID ≠ 0) :
    PlaceholderArity users.UpdateIt.updateString 8 w.issued
      (users.UpdateIt (dollarConfig isReturning) db value w).2.issued := by
  have hid' : ¬ (0 = value.ID) := fun h => hid h.symm
  have hiss : (users.UpdateIt (dollarConfig isReturning) db value w).2.issued
      = w.issued ++ [⟨(String.mk (numberedRewrite 0 (users.UpdateIt.updateString).data)),
        [.string value.Name, .string value.Description, .string value.Password,
          .string value.Phone, .string value.Email, .int64 value.State,
          .time (w.clock w.ticks), .int64 value.ID]⟩] := by
    simp only [users.UpdateIt, time.Now, DB.exec, hid', if_false, dollarConfig, Dollar_format_value]
    cases (db.Exec (String.mk (numberedRewrite 0 (users.UpdateIt.updateString).data))
        [.string value.Name, .string value.Description, .string value.Password,
          .string value.Phone, .string value.Email, .int64 value.State,
          .time (w.clock w.ticks), .int64 value.ID] w.store).1 with
    | error e => rfl
    | ok res =>
      dsimp only
      rcases res.RowsAffected with ⟨n, _ | e⟩
      · dsimp only
        split <;> rfl
      · rfl
  exact PlaceholderArity_intro _ _ _ _ _ _ (by decide) (by decide) hiss rfl (by decide)
    (by decide)

theorem users_DeleteByID_arity (isReturning : Bool) (db : DB σ) (w : World σ) (key : Int) (hid : key ≠ 0) :
    PlaceholderArity users.DeleteByID.deleteString 1 w.issued
      (users.DeleteByID (dollarConfig isReturning) db key w).2.issued := by
  have hid' : ¬ (0 = key) := fun h => hid h.symm
  have hiss : (users.DeleteByID (dollarConfig isReturning) db key w).2.issued
      = w.issued ++ [⟨(String.mk (numberedRewrite 0 (users.DeleteByID.deleteString).data)),
        [.int64 key]⟩] := by
    simp only [users.DeleteByID, DB.exec, hid', if_false, dollarConfig, Dollar_format_value]
    cases (db.Exec (String.mk (numberedRewrite 0 (users.DeleteByID.deleteString).data))
        [.int64 key] w.store).1 with
    | error e => rfl
    | ok res =>
      dsimp only
      rcases res.RowsAffected with ⟨n, _ | e⟩
      · dsimp only
        split <;> rfl
      · rfl
  exact PlaceholderArity_intro _ _ _ _ _ _ (by decide) (by decide) hiss rfl (by decide)
    (by decide)

theorem users_AddRole_arity (isReturning : Bool) (db : DB σ) (w : World σ) (userID roleID : Int) :
    PlaceholderArity users.AddRole.insertString 4 w.issued
      (users.AddRole (dollarConfig isReturning) db userID roleID w).2.issued := by
  have hiss : (users.AddRole (dollarConfig isReturning) db userID roleID w).2.issued
      = w.issued ++ [⟨(String.mk (numberedRewrite 0 (users.AddRole.insertString).data)),
        [.int64 userID, .int64 roleID, .time (w.clock w.ticks), .time (w.clock w.ticks)]⟩] := by
    simp only [users.AddRole, time.Now, DB.exec, dollarConfig, Dollar_format_value]
    cases (db.Exec (String.mk (numberedRewrite 0 (users.AddRole.insertString).data))
        [.int64 userID, .int64 roleID, .time (w.clock w.ticks), .time (w.clock w.ticks)] w.store).1 <;> rfl
  exact PlaceholderArity_intro _ _ _ _ _ _ (by decide) (by decide) hiss rfl (by decide)
    (by decide)

theorem users_RemoveRole_arity (isReturning : Bool) (db : DB σ) (w : World σ) (userID roleID : Int) :
    PlaceholderArity users.RemoveRole.deleteString 2 w.issued
      (users.RemoveRole (dollarConfig isReturning) db userID roleID w).2.issued := by
  have hiss : (users.RemoveRole (dollarConfig isReturning) db userID roleID w).2.issued
      = w.issued ++ [⟨(String.mk (numberedRewrite 0 (users.RemoveRole.deleteString).data)),
        [.int64 userID, .int64 roleID]⟩] := by
    simp only [users.RemoveRole, DB.exec, dollarConfig, Dollar_format_value]
    cases (db.Exec (String.mk (numberedRewrite 0 (users.RemoveRole.deleteString).data))
        [.int64 userID, .int64 roleID] w.store).1 <;> rfl
  exact PlaceholderArity_intro _ _ _ _ _ _ (by decide) (by decide) hiss rfl (by decide)
    (by decide)

theorem userProfiles_FindByID_arity (isReturning : Bool) (db : DB σ) (w : World σ) (id : Int) :
    PlaceholderArity "WHERE id = ?" 1 w.issued
      (userProfiles.FindByID (dollarConfig isReturning) db id w).2.issued := by
  have hiss : (userProfiles.FindByID (dollarConfig isReturning) db id w).2.issued
      = w.issued ++ [⟨(userProfilePrefix ++ String.mk (numberedRewrite 0 ("WHERE id = ?").data)),
        [.int64 id]⟩] := by
    simp only [userProfiles.FindByID, userProfiles.QueryRowWith, DB.queryRow, dollarConfig, Dollar_format_value]
  exact PlaceholderArity_intro _ _ _ _ _ _ (by decide) (by decide) hiss rfl (by decide)
    (by decide)

theorem userProfiles_CreateIt_arity (isReturning : Bool) (db : DB σ) (w : World σ) (value : UserProfile) :
    PlaceholderArity userProfiles.CreateIt.sqlString 5 w.issued
      (userProfiles.CreateIt (dollarConfig isReturning) db value w).2.2.issued := by
  have hiss := userProfiles_CreateIt_issued (dollarConfig isReturning) db w value _
    (Dollar_format_value userProfiles.CreateIt.sqlString)
  cases isReturning
  · exact PlaceholderArity_intro _ _ _ _ _ _ (by decide) (by decide) hiss rfl (by decide)
      (by decide)
  · exact PlaceholderArity_intro _ _ _ _ _ _ (by decide) (by decide) hiss rfl (by decide)
      (by decide)

theorem userProfiles_UpdateIt_arity (isReturning : Bool) (db : DB σ) (w : World σ) (value : UserProfile) (hid : value.ID ≠ 0) :
    PlaceholderArity userProfiles.UpdateIt.updateString 5 w.issued
      (userProfiles.UpdateIt (dollarConfig isReturning) db value w).2.issued := by
  have hid' : ¬ (0 = value.ID) := fun h => hid h.symm
  have hiss : (userProfiles.UpdateIt (dollarConfig isReturning) db value w).2.issued
      = w.issued ++ [⟨(String.mk (numberedRewrite 0 (userProfiles.UpdateIt.updateString).data)),
        [.string value.User, .string value.Name, .string value.Value,
          .time (w.clock w.ticks), .int64 value.ID]⟩] := by
    simp only [userProfiles.UpdateIt, time.Now, DB.exec, hid', if_false, dollarConfig, Dollar_format_value]
    cases (db.Exec (String.mk (numberedRewrite 0 (userProfiles.UpdateIt.updateString).data))
        [.string value.User, .string value.Name, .string value.Value,
          .time (w.clock w.ticks), .int64 value.ID] w.store).1 with
    | error e => rfl
    | ok res =>
      dsimp only
      rcases res.RowsAffected with ⟨n, _ | e⟩
      · dsimp only
        split <;> rfl
      · rfl
  exact PlaceholderArity_intro _ _ _ _ _ _ (by decide) (by decide) hiss rfl (by decide)
    (by decide)

theorem userProfiles_DeleteByID_arity (isReturning : Bool) (db : DB σ) (w : World σ) (key : Int) (hid : key ≠ 0) :
    PlaceholderArity userProfiles.DeleteByID.deleteString 1 w.issued
      (userProfiles.DeleteByID (dollarConfig isReturning) db key w).2.issued := by
  have hid' : ¬ (0 = key) := fun h => hid h.symm
  have hiss : (userProfiles.DeleteByID (dollarConfig isReturning) db key w).2.issued
      = w.issued ++ [⟨(String.mk (numberedRewrite 0 (userProfiles.DeleteByID.deleteString).data)),
        [.int64 key]⟩] := by
    simp only [userProfiles.DeleteByID, DB.exec, hid', if_false, dollarConfig, Dollar_format_value]
    cases (db.Exec (String.mk (numberedRewrite 0 (userProfiles.DeleteByID.deleteString).data))
        [.int64 key] w.store).1 with
    | error e => rfl
    | ok res =>
      dsimp only
      rcases res.RowsAffected with ⟨n, _ | e⟩
      · dsimp only
        split <;> rfl
      · rfl
  exact PlaceholderArity_intro _ _ _ _ _ _ (by decide) (by decide) hiss rfl (by decide)
    (by decide)

theorem users_UpdateIt_issued_text (isReturning : Bool) (db : DB σ) (w : World σ)
    (value : User) (hid : value.ID ≠ 0) :
    (users.UpdateIt (dollarConfig isReturning) db value w).2.issued = w.issued ++
      [⟨"UPDATE tpt_users SET name=$1, description=$2, password=$3, phone=$4, email=$5, state=$6, updated_at=$7 WHERE id = $8",
        [.string value.Name, .string value.Description, .string value.Password,
          .string value.Phone, .string value.Email, .int64 value.State,
          .time (w.clock w.ticks), .int64 value.ID]⟩] := by
  have hid' : ¬ (0 = value.ID) := fun h => hid h.symm
  have htext : String.mk (numberedRewrite 0 users.UpdateIt.updateString.data)
      = "UPDATE tpt_users SET name=$1, description=$2, password=$3, phone=$4, email=$5, state=$6, updated_at=$7 WHERE id = $8" := by
    decide
  simp only [users.UpdateIt, time.Now, DB.exec, hid', if_false, dollarConfig,
    Dollar_format_value, htext]
  cases (db.Exec
      "UPDATE tpt_users SET name=$1, description=$2, password=$3, phone=$4, email=$5, state=$6, updated_at=$7 WHERE id = $8"
      [.string value.Name, .string value.Description, .string value.Password,
        .string value.Phone, .string value.Email, .int64 value.State,
        .time (w.clock w.ticks), .int64 value.ID] w.store).1 with
  | error e => rfl
  | ok res =>
    dsimp only
    rcases res.RowsAffected with ⟨n, _ | e⟩
    · dsimp only
      split <;> rfl
    · rfl

/-- C15: under the `Dollar` policy, with either setting of `IsReturning`, every
call of FindByID, FindByName, FindByUserID, FindByUserName, CreateIt, UpdateIt
and DeleteByID (the last two on a non-zero identity) of each accessor and of
AddRole and RemoveRole has the placeholder arity of its template: the template
has no doubled marker and as many `?` as the call binds arguments, and the
statement handed to the store has no `?` left and exactly the markers `$1`,
..., `$k` in increasing order, `k` being the number of bound arguments.  The
update of a user has `k = 8` and binds the identity last, for `$8`. -/
theorem statements_have_placeholder_arity (isReturning : Bool) (db : DB σ) (w : World σ) :
    (∀ (id : Int), PlaceholderArity "WHERE id = ?" 1 w.issued
      (roles.FindByID (dollarConfig isReturning) db id w).2.issued) ∧
    (∀ (name : String), PlaceholderArity "WHERE name = ?" 1 w.issued
      (roles.FindByName (dollarConfig isReturning) db name w).2.issued) ∧
    (∀ (userID : Int), PlaceholderArity 
        "WHERE EXISTS (SELECT * FROM tpt_user_roles WHERE user_id = ? AND tpt_roles.id = tpt_user_roles.role_id)"
        1 w.issued
      (roles.FindByUserID (dollarConfig isReturning) db userID w).2.issued) ∧
    (∀ (username : String), PlaceholderArity 
        "WHERE EXISTS (SELECT * FROM tpt_user_roles WHERE tpt_roles.id = tpt_user_roles.role_id AND EXISTS (SELECT * FROM tpt_users WHERE name = ? AND tpt_user_roles.user_id = tpt_users.id))"
        1 w.issued
      (roles.FindByUserName (dollarConfig isReturning) db username w).2.issued) ∧
    (∀ (value : Role), PlaceholderArity roles.CreateIt.sqlString 5 w.issued
      (roles.CreateIt (dollarConfig isReturning) db value w).2.2.issued) ∧
    (∀ (value : Role), value.ID ≠ 0 →
      PlaceholderArity roles.UpdateIt.updateString 5 w.issued
      (roles.UpdateIt (dollarConfig isReturning) db value w).2.issued) ∧
    (∀ (key : Int), key ≠ 0 →
      PlaceholderArity roles.DeleteByID.deleteString 1 w.issued
      (roles.DeleteByID (dollarConfig isReturning) db key w).2.issued) ∧
    (∀ (id : Int), PlaceholderArity "WHERE id = ?" 1 w.issued
      (users.FindByID (dollarConfig isReturning) db id w).2.issued) ∧
    (∀ (name : String), PlaceholderArity "WHERE name = ?" 1 w.issued
      (users.FindByName (dollarConfig isReturning) db name w).2.issued) ∧
    (∀ (value : User), PlaceholderArity users.CreateIt.sqlString 8 w.issued
      (users.CreateIt (dollarConfig isReturning) db value w).2.2.issued) ∧
    (∀ (value : User), value.ID ≠ 0 →
      PlaceholderArity users.UpdateIt.updateString 8 w.issued
      (users.UpdateIt (dollarConfig isReturning) db value w).2.issued) ∧
    (∀ (key : Int), key ≠ 0 →
      PlaceholderArity users.DeleteByID.deleteString 1 w.issued
      (users.DeleteByID (dollarConfig isReturning) db key w).2.issued) ∧
    (∀ (userID roleID : Int), PlaceholderArity users.AddRole.insertString 4 w.issued
      (users.AddRole (dollarConfig isReturning) db userID roleID w).2.issued) ∧
    (∀ (userID roleID : Int), PlaceholderArity users.RemoveRole.deleteString 2 w.issued
      (users.RemoveRole (dollarConfig isReturning) db userID roleID w).2.issued) ∧
    (∀ (id : Int), PlaceholderArity "WHERE id = ?" 1 w.issued
      (userProfiles.FindByID (dollarConfig isReturning) db id w).2.issued) ∧
    (∀ (value : UserProfile), PlaceholderArity userProfiles.CreateIt.sqlString 5 w.issued
      (userProfiles.CreateIt (dollarConfig isReturning) db value w).2.2.issued) ∧
    (∀ (value : UserProfile), value.ID ≠ 0 →
      PlaceholderArity userProfiles.UpdateIt.updateString 5 w.issued
      (userProfiles.UpdateIt (dollarConfig isReturning) db value w).2.issued) ∧
    (∀ (key : Int), key ≠ 0 →
      PlaceholderArity userProfiles.DeleteByID.deleteString 1 w.issued
      (userProfiles.DeleteByID (dollarConfig isReturning) db key w).2.issued) ∧
    (∀ (value : User), value.ID ≠ 0 →
      (users.UpdateIt (dollarConfig isReturning) db value w).2.issued = w.issued ++
        [⟨"UPDATE tpt_users SET name=$1, description=$2, password=$3, phone=$4, email=$5, state=$6, updated_at=$7 WHERE id = $8",
          [.string value.Name, .string value.Description, .string value.Password,
            .string value.Phone, .string value.Email, .int64 value.State,
            .time (w.clock w.ticks), .int64 value.ID]⟩]) :=
  ⟨fun id => roles_FindByID_arity isReturning db w id,
    fun name => roles_FindByName_arity isReturning db w name,
    fun userID => roles_FindByUserID_arity isReturning db w userID,
    fun username => roles_FindByUserName_arity isReturning db w username,
    fun value => roles_CreateIt_arity isReturning db w value,
    fun value hid => roles_UpdateIt_arity isReturning db w value hid,
    fun key hid => roles_DeleteByID_arity isReturning db w key hid,
    fun id => users_FindByID_arity isReturning db w id,
    fun name => users_FindByName_arity isReturning db w name,
    fun value => users_CreateIt_arity isReturning db w value,
    fun value hid => users_UpdateIt_arity isReturning db w value hid,
    fun key hid => users_DeleteByID_arity isReturning db w key hid,
    fun userID roleID => users_AddRole_arity isReturning db w userID roleID,
    fun userID roleID => users_RemoveRole_arity isReturning db w userID roleID,
    fun id => userProfiles_FindByID_arity isReturning db w id,
    fun value => userProfiles_CreateIt_arity isReturning db w value,
    fun value hid => userProfiles_UpdateIt_arity isReturning db w value hid,
    fun key hid => userProfiles_DeleteByID_arity isReturning db w key hid,
    fun value hid => users_UpdateIt_issued_text isReturning db w value hid⟩

/-- Witness for C15: on the sample store, the update of user 5 under the
`Dollar` policy hands the store one statement with eight arguments and the
markers `$1` to `$8`. -/
theorem statements_have_placeholder_arity_witness :
    PlaceholderArity users.UpdateIt.updateString 8 sampleWorld.issued
      (users.UpdateIt (dollarConfig true) insertingDB { ID := 5, Name := "a" }
        sampleWorld).2.issued :=
  (statements_have_placeholder_arity true insertingDB sampleWorld).2.2.2.2.2.2.2.2.2.2.1
    { ID := 5, Name := "a" } (by decide)

/-! ## The reference store: reading a stored row -/

theorem Cell.sqlEq_int64 (c : Cell) (v : Int) : c.sqlEq (.int64 v) = true ↔ c = .int64 v := by
  cases c <;> simp [Cell.sqlEq]

theorem Cell.sqlEq_string (c : Cell) (s : String) :
    c.sqlEq (.string s) = true ↔ c = .string s := by
  cases c <;> simp [Cell.sqlEq]

theorem convert_int64 (v : Int) : Dest.convert .int64 (.int64 v) = some v := rfl

theorem convert_string (s : String) : Dest.convert .string (.string s) = some s := rfl

theorem convert_NullString (c : Cell) (h : c.isText = true) :
    Dest.convert .NullString c
      = some ((⟨c.text, decide (c ≠ .null)⟩ : NullString)) := by
  cases c <;> simp [Cell.isText] at h <;> simp [Dest.convert, Cell.text]

theorem convert_NullInt64 (c : Cell) (h : c.isNumber = true) :
    Dest.convert .NullInt64 c
      = some ((⟨c.number, decide (c ≠ .null)⟩ : NullInt64)) := by
  cases c <;> simp [Cell.isNumber] at h <;> simp [Dest.convert, Cell.number]

theorem convert_NullTime (c : Cell) :
    Dest.convert .NullTime c = some ((⟨c.instant, c.isTime⟩ : NullTime)) := by
  cases c <;> simp [Dest.convert, Cell.instant, Cell.isTime]

theorem Cell.ite_text (c : Cell) :
    (if decide (c ≠ .null) = true then c.text else "") = c.text := by
  cases c <;> simp [Cell.text]

theorem Cell.ite_number (c : Cell) :
    (if decide (c ≠ .null) = true then c.number else 0) = c.number := by
  cases c <;> simp [Cell.number]

theorem Cell.ite_instant (c : Cell) :
    (if c.isTime = true then c.instant else Time.zero) = c.instant := by
  cases c <;> simp [Cell.instant, Cell.isTime]

theorem roles_scan_record (r : Record) (h : r.isRole) :
    roles.scan (sampleRow (roles.columns.map r)) = (some r.asRole, none) := by
  obtain ⟨⟨v, hv⟩, ⟨n, hn⟩, hd, hp⟩ := h
  have hscan : (sampleRow (roles.columns.map r)).Scan roles.scanDests roles.scanZero
      = ((v, n, (⟨(r "description").text, decide (r "description" ≠ .null)⟩ : NullString),
          (⟨(r "permission_keys").text, decide (r "permission_keys" ≠ .null)⟩ : NullString),
          (⟨(r "created_at").instant, (r "created_at").isTime⟩ : NullTime),
          (⟨(r "updated_at").instant, (r "updated_at").isTime⟩ : NullTime), ()),
        none) := by
    simp [sampleRow, roles.columns, roles.scanDests, roles.scanZero, Cell.fill, hv, hn,
      convert_int64, convert_string, convert_NullString _ hd, convert_NullString _ hp,
      convert_NullTime]
  rw [roles_scan_ok _ _ _ _ _ _ _ hscan]
  simp only [Cell.ite_text, Cell.ite_instant, Record.asRole]
  simp only [hv, hn, Cell.number, Cell.text]

theorem users_scan_record (r : Record) (h : r.isUser) :
    users.scan (sampleRow (users.columns.map r)) = (some r.asUser, none) := by
  obtain ⟨⟨v, hv⟩, ⟨n, hn⟩, hd, hpw, hph, hem, hst⟩ := h
  have hscan : (sampleRow (users.columns.map r)).Scan users.scanDests users.scanZero
      = ((v, n, (⟨(r "description").text, decide (r "description" ≠ .null)⟩ : NullString),
          (⟨(r "password").text, decide (r "password" ≠ .null)⟩ : NullString),
          (⟨(r "phone").text, decide (r "phone" ≠ .null)⟩ : NullString),
          (⟨(r "email").text, decide (r "email" ≠ .null)⟩ : NullString),
          (⟨(r "state").number, decide (r "state" ≠ .null)⟩ : NullInt64),
          (⟨(r "created_at").instant, (r "created_at").isTime⟩ : NullTime),
          (⟨(r "updated_at").instant, (r "updated_at").isTime⟩ : NullTime), ()),
        none) := by
    simp [sampleRow, users.columns, users.scanDests, users.scanZero, Cell.fill, hv, hn,
      convert_int64, convert_string, convert_NullString _ hd, convert_NullString _ hpw,
      convert_NullString _ hph, convert_NullString _ hem, convert_NullInt64 _ hst,
      convert_NullTime]
  rw [users_scan_ok _ _ _ _ _ _ _ _ _ _ hscan]
  simp only [Cell.ite_text, Cell.ite_number, Cell.ite_instant, Record.asUser]
  simp only [hv, hn, Cell.number, Cell.text]

theorem userProfiles_scan_record (r : Record) (h : r.isUserProfile) :
    userProfiles.scan (sampleRow (userProfiles.columns.map r))
      = (some r.asUserProfile, none) := by
  obtain ⟨⟨v, hv⟩, hus, hn, hval⟩ := h
  have hscan : (sampleRow (userProfiles.columns.map r)).Scan userProfiles.scanDests
        userProfiles.scanZero
      = ((v, (⟨(r "usr").text, decide (r "usr" ≠ .null)⟩ : NullString),
          (⟨(r "name").text, decide (r "name" ≠ .null)⟩ : NullString),
          (⟨(r "value").text, decide (r "value" ≠ .null)⟩ : NullString),
          (⟨(r "created_at").instant, (r "created_at").isTime⟩ : NullTime),
          (⟨(r "updated_at").instant, (r "updated_at").isTime⟩ : NullTime), ()),
        none) := by
    simp [sampleRow, userProfiles.columns, userProfiles.scanDests, userProfiles.scanZero,
      Cell.fill, hv, convert_int64, convert_NullString _ hus, convert_NullString _ hn,
      convert_NullString _ hval, convert_NullTime]
  rw [userProfiles_scan_ok _ _ _ _ _ _ _ hscan]
  simp only [Cell.ite_text, Cell.ite_instant, Record.asUserProfile]
  simp only [hv, Cell.number]

/-! ## The reference store: what the accessors do on it -/

theorem insertRecord_id (id : Int) (columns : List String) (cells : List Cell)
    (hid : (columns.zip cells).lookup "id" = none) :
    insertRecord id columns cells "id" = .int64 id := by
  simp [insertRecord, hid]

theorem Store.insert_ok (s : Store) (td : TableDef) (columns : List String)
    (cells : List Cell) (returning : Option String) (o : Outcome)
    (h : s.insert td columns cells returning = .ok o) :
    o.store.rows td.name
      = s.rows td.name ++ [insertRecord (s.serial td.name + 1) columns cells] ∧
    (∀ t, t ≠ td.name → o.store.rows t = s.rows t) ∧
    o.lastId = (insertRecord (s.serial td.name + 1) columns cells).id ∧
    o.affected = 1 ∧
    o.rows = returningRows (insertRecord (s.serial td.name + 1) columns cells) returning ∧
    (∀ c ∈ "id" :: td.unique,
      violatesUnique (s.rows td.name) (insertRecord (s.serial td.name + 1) columns cells) c
        = false) ∧
    ∀ ref ∈ td.references,
      missingReference s (insertRecord (s.serial td.name + 1) columns cells) ref = false := by
  simp only [Store.insert] at h
  split_ifs at h with hu hf
  cases h
  refine ⟨by simp, ?_, rfl, rfl, rfl, ?_, ?_⟩
  · intro t ht
    simp [ht]
  · intro c hc
    rw [List.any_eq_true] at hu
    cases hv : violatesUnique (s.rows td.name)
      (insertRecord (s.serial td.name + 1) columns cells) c
    · rfl
    · exact absurd ⟨c, hc, hv⟩ hu
  · intro ref href
    rw [List.any_eq_true] at hf
    cases hv : missingReference s (insertRecord (s.serial td.name + 1) columns cells) ref
    · rfl
    · exact absurd ⟨ref, href, hv⟩ hf

theorem Store.update_ok (s : Store) (td : TableDef) (hit : Record → Bool)
    (change : Record → Record) (o : Outcome) (h : s.update td hit change = .ok o) :
    o.store.rows td.name = (s.rows td.name).map (fun r => if hit r then change r else r) ∧
    (∀ t, t ≠ td.name → o.store.rows t = s.rows t) ∧
    o.affected = ((s.rows td.name).filter hit).length := by
  simp only [Store.update] at h
  split_ifs at h with hu hf
  cases h
  refine ⟨by simp [Store.setRows], ?_, rfl⟩
  intro t ht
  simp [Store.setRows, ht]

theorem refDB_Exec_read (s : Store) (q : String) (args : List Value) (sql : Sql)
    (hr : Sql.read q = some sql) (ha : args.length = sql.arity) :
    refDB.Exec q args s =
      match sql.run s args with
      | .error e => (.error e, s)
      | .ok o => (.ok ⟨(o.lastId, none), (o.affected, none)⟩, o.store) := by
  simp only [refDB, Store.run, hr, ha, if_true]

theorem refDB_QueryRow_read (s : Store) (q : String) (args : List Value) (sql : Sql)
    (hr : Sql.read q = some sql) (ha : args.length = sql.arity) :
    refDB.QueryRow q args s =
      match sql.run s args with
      | .error e => (failingRow e, s)
      | .ok o => (rowScanner o.rows, o.store) := by
  simp only [refDB, Store.run, hr, ha, if_true]

theorem refDB_Query_read (s : Store) (q : String) (args : List Value) (sql : Sql)
    (hr : Sql.read q = some sql) (ha : args.length = sql.arity) :
    refDB.Query q args s =
      match sql.run s args with
      | .error e => (.error e, s)
      | .ok o => (.ok ⟨o.rows.map sampleRow, none⟩, o.store) := by
  simp only [refDB, Store.run, hr, ha, if_true]

theorem filter_sqlEq_of_not_violatesUnique (rows : List Record) (r : Record) (c : String)
    (v : Cell) (hr : r c = v) (h : violatesUnique rows r c = false) :
    rows.filter (fun x => (x c).sqlEq v) = [] := by
  rw [List.filter_eq_nil_iff]
  intro x hx hxv
  have : violatesUnique rows r c = true := by
    rw [violatesUnique, List.any_eq_true]
    exact ⟨x, hx, by rw [hr]; exact hxv⟩
  rw [h] at this
  cases this

theorem filter_map_change (rows : List Record) (hit : Record → Bool)
    (change : Record → Record) (hkeep : ∀ r, hit (change r) = hit r) :
    (rows.map fun r => if hit r then change r else r).filter hit
      = (rows.filter hit).map change := by
  induction rows with
  | nil => rfl
  | cons r rest ih =>
    by_cases hr : hit r = true
    · simp [List.filter_cons, hr, hkeep, ih]
    · simp only [Bool.not_eq_true] at hr
      simp [List.filter_cons, hr, ih]

theorem tableDef_roles : tableDef "tpt_roles" = some
    { name := "tpt_roles",
        columns := ["id", "name", "description", "permission_keys", "created_at", "updated_at"],
        unique := ["name"], references := [] } := by
  decide

theorem read_roles_byID (cfg : Config) (h : cfg.Builtin) :
    ∃ q, cfg.PlaceholderFormat "WHERE id = ?" = (q, none) ∧
      Sql.read (rolePrefix ++ q) = some (.select roles.columns "tpt_roles"
        (.eq (.column 0 "id") (.param 1))) := by
  rcases h with h | h <;> rw [h]
  · exact ⟨_, rfl, by decide⟩
  · exact ⟨_, Dollar_format_value _, by decide⟩

theorem read_roles_insert (cfg : Config) (h : cfg.Builtin) :
    ∃ q, cfg.PlaceholderFormat roles.CreateIt.sqlString = (q, none) ∧
      Sql.read q = some (.insert "tpt_roles"
        ["name", "description", "permission_keys", "created_at", "updated_at"]
        [.param 1, .param 2, .param 3, .param 4, .param 5] none) ∧
      Sql.read (q ++ " RETURNING \"id\"") = some (.insert "tpt_roles"
        ["name", "description", "permission_keys", "created_at", "updated_at"]
        [.param 1, .param 2, .param 3, .param 4, .param 5] (some "id")) := by
  rcases h with h | h <;> rw [h]
  · exact ⟨_, rfl, by decide, by decide⟩
  · exact ⟨_, Dollar_format_value _, by decide, by decide⟩

theorem read_roles_update (cfg : Config) (h : cfg.Builtin) :
    ∃ q, cfg.PlaceholderFormat roles.UpdateIt.updateString = (q, none) ∧
      Sql.read q = some (.update "tpt_roles"
        [("name", .param 1), ("description", .param 2), ("permission_keys", .param 3),
        ("updated_at", .param 4)]
        (.eq (.column 0 "id") (.param 5))) := by
  rcases h with h | h <;> rw [h]
  · exact ⟨_, rfl, by decide⟩
  · exact ⟨_, Dollar_format_value _, by decide⟩

theorem roles_FindByID_refDB (cfg : Config) (h : cfg.Builtin) (id : Int) (w : World Store) :
    (roles.FindByID cfg refDB id w).1 = roles.scan (rowScanner
      (((w.store.rows "tpt_roles").filter fun r => (r "id").sqlEq (.int64 id)).map
        fun r => roles.columns.map r)) := by
  obtain ⟨q, hq, hread⟩ := read_roles_byID cfg h
  simp only [roles.FindByID, roles.QueryRowWith, hq, DB.queryRow,
    refDB_QueryRow_read w.store _ [.int64 id] _ hread rfl]
  simp [Sql.run, Store.select, Cond.eval, Operand.eval, Value.toCell]

theorem roles_CreateIt_refDB (cfg : Config) (h : cfg.Builtin) (value : Role)
    (w : World Store) (hok : (roles.CreateIt cfg refDB value w).1.2 = none) :
    (roles.CreateIt cfg refDB value w).1.1 = w.store.serial "tpt_roles" + 1 ∧
    (roles.CreateIt cfg refDB value w).2.2.store.rows "tpt_roles"
      = w.store.rows "tpt_roles" ++ [insertRecord (w.store.serial "tpt_roles" + 1)
          ["name", "description", "permission_keys", "created_at", "updated_at"]
          [.string value.Name, .string value.Description, .string value.PermissionKeys,
          .time (w.clock w.ticks), .time (w.clock w.ticks)]] ∧
    ∀ c ∈ ["id", "name"], violatesUnique (w.store.rows "tpt_roles")
      (insertRecord (w.store.serial "tpt_roles" + 1)
          ["name", "description", "permission_keys", "created_at", "updated_at"]
          [.string value.Name, .string value.Description, .string value.PermissionKeys,
          .time (w.clock w.ticks), .time (w.clock w.ticks)]) c = false := by
  obtain ⟨q, hq, hread, hreadR⟩ := read_roles_insert cfg h
  have hid := insertRecord_id (w.store.serial "tpt_roles" + 1)
    ["name", "description", "permission_keys", "created_at", "updated_at"]
    [.string value.Name, .string value.Description, .string value.PermissionKeys,
          .time (w.clock w.ticks), .time (w.clock w.ticks)] rfl
  cases hret : cfg.IsReturning
  · simp only [roles.CreateIt, hq, hret, Bool.false_eq_true, if_false, time.Now, DB.exec,
      refDB_Exec_read w.store q
        [.string value.Name, .string value.Description, .string value.PermissionKeys,
          .time (w.clock w.ticks), .time (w.clock w.ticks)] _ hread rfl,
      Sql.run, tableDef_roles, List.map, Operand.eval, List.get?, Value.toCell] at hok ⊢
    cases hins : w.store.insert
      { name := "tpt_roles",
        columns := ["id", "name", "description", "permission_keys", "created_at", "updated_at"],
        unique := ["name"], references := [] }
      ["name", "description", "permission_keys", "created_at", "updated_at"]
      [.string value.Name, .string value.Description, .string value.PermissionKeys,
          .time (w.clock w.ticks), .time (w.clock w.ticks)] none with
    | error e => simp [hins] at hok
    | ok o =>
      obtain ⟨h1, _, h3, _, _, h6, _⟩ := Store.insert_ok _ _ _ _ _ _ hins
      simp only [hins]
      refine ⟨?_, h1, h6⟩
      rw [h3]
      simp only [Record.id, hid]
  · simp only [roles.CreateIt, hq, hret, if_true, time.Now, DB.queryRow,
      refDB_QueryRow_read w.store _
        [.string value.Name, .string value.Description, .string value.PermissionKeys,
          .time (w.clock w.ticks), .time (w.clock w.ticks)] _ hreadR rfl,
      Sql.run, tableDef_roles, List.map, Operand.eval, List.get?, Value.toCell] at hok ⊢
    cases hins : w.store.insert
      { name := "tpt_roles",
        columns := ["id", "name", "description", "permission_keys", "created_at", "updated_at"],
        unique := ["name"], references := [] }
      ["name", "description", "permission_keys", "created_at", "updated_at"]
      [.string value.Name, .string value.Description, .string value.PermissionKeys,
          .time (w.clock w.ticks), .time (w.clock w.ticks)] (some "id") with
    | error e => simp [hins, failingRow] at hok
    | ok o =>
      obtain ⟨h1, _, _, _, h5, h6, _⟩ := Store.insert_ok _ _ _ _ _ _ hins
      simp only [hins, h5, returningRows, hid, rowScanner, sampleRow, Cell.fill,
        convert_int64]
      exact ⟨trivial, h1, h6⟩

theorem tableDef_users : tableDef "tpt_users" = some
    { name := "tpt_users",
        columns := ["id", "name", "description", "password", "phone", "email", "state", "created_at",
          "updated_at"],
        unique := ["name"], references := [] } := by
  decide

theorem read_users_byID (cfg : Config) (h : cfg.Builtin) :
    ∃ q, cfg.PlaceholderFormat "WHERE id = ?" = (q, none) ∧
      Sql.read (userPrefix ++ q) = some (.select users.columns "tpt_users"
        (.eq (.column 0 "id") (.param 1))) := by
  rcases h with h | h <;> rw [h]
  · exact ⟨_, rfl, by decide⟩
  · exact ⟨_, Dollar_format_value _, by decide⟩

theorem read_users_insert (cfg : Config) (h : cfg.Builtin) :
    ∃ q, cfg.PlaceholderFormat users.CreateIt.sqlString = (q, none) ∧
      Sql.read q = some (.insert "tpt_users"
        ["name", "description", "password", "phone", "email", "state", "created_at",
        "updated_at"]
        [.param 1, .param 2, .param 3, .param 4, .param 5, .param 6, .param 7, .param 8] none) ∧
      Sql.read (q ++ " RETURNING \"id\"") = some (.insert "tpt_users"
        ["name", "description", "password", "phone", "email", "state", "created_at",
        "updated_at"]
        [.param 1, .param 2, .param 3, .param 4, .param 5, .param 6, .param 7, .param 8] (some "id")) := by
  rcases h with h | h <;> rw [h]
  · exact ⟨_, rfl, by decide, by decide⟩
  · exact ⟨_, Dollar_format_value _, by decide, by decide⟩

theorem read_users_update (cfg : Config) (h : cfg.Builtin) :
    ∃ q, cfg.PlaceholderFormat users.UpdateIt.updateString = (q, none) ∧
      Sql.read q = some (.update "tpt_users"
        [("name", .param 1), ("description", .param 2), ("password", .param 3),
        ("phone", .param 4), ("email", .param 5), ("state", .param 6),
        ("updated_at", .param 7)]
        (.eq (.column 0 "id") (.param 8))) := by
  rcases h with h | h <;> rw [h]
  · exact ⟨_, rfl, by decide⟩
  · exact ⟨_, Dollar_format_value _, by decide⟩

theorem users_FindByID_refDB (cfg : Config) (h : cfg.Builtin) (id : Int) (w : World Store) :
    (users.FindByID cfg refDB id w).1 = users.scan (rowScanner
      (((w.store.rows "tpt_users").filter fun r => (r "id").sqlEq (.int64 id)).map
        fun r => users.columns.map r)) := by
  obtain ⟨q, hq, hread⟩ := read_users_byID cfg h
  simp only [users.FindByID, users.QueryRowWith, hq, DB.queryRow,
    refDB_QueryRow_read w.store _ [.int64 id] _ hread rfl]
  simp [Sql.run, Store.select, Cond.eval, Operand.eval, Value.toCell]

theorem users_CreateIt_refDB (cfg : Config) (h : cfg.Builtin) (value : User)
    (w : World Store) (hok : (users.CreateIt cfg refDB value w).1.2 = none) :
    (users.CreateIt cfg refDB value w).1.1 = w.store.serial "tpt_users" + 1 ∧
    (users.CreateIt cfg refDB value w).2.2.store.rows "tpt_users"
      = w.store.rows "tpt_users" ++ [insertRecord (w.store.serial "tpt_users" + 1)
          ["name", "description", "password", "phone", "email", "state", "created_at",
        "updated_at"]
          [.string value.Name, .string value.Description, .string value.Password,
          .string value.Phone, .string value.Email, .int64 value.State,
          .time (w.clock w.ticks), .time (w.clock w.ticks)]] ∧
    ∀ c ∈ ["id", "name"], violatesUnique (w.store.rows "tpt_users")
      (insertRecord (w.store.serial "tpt_users" + 1)
          ["name", "description", "password", "phone", "email", "state", "created_at",
        "updated_at"]
          [.string value.Name, .string value.Description, .string value.Password,
          .string value.Phone, .string value.Email, .int64 value.State,
          .time (w.clock w.ticks), .time (w.clock w.ticks)]) c = false := by
  obtain ⟨q, hq, hread, hreadR⟩ := read_users_insert cfg h
  have hid := insertRecord_id (w.store.serial "tpt_users" + 1)
    ["name", "description", "password", "phone", "email", "state", "created_at",
        "updated_at"]
    [.string value.Name, .string value.Description, .string value.Password,
          .string value.Phone, .string value.Email, .int64 value.State,
          .time (w.clock w.ticks), .time (w.clock w.ticks)] rfl
  cases hret : cfg.IsReturning
  · simp only [users.CreateIt, hq, hret, Bool.false_eq_true, if_false, time.Now, DB.exec,
      refDB_Exec_read w.store q
        [.string value.Name, .string value.Description, .string value.Password,
          .string value.Phone, .string value.Email, .int64 value.State,
          .time (w.clock w.ticks), .time (w.clock w.ticks)] _ hread rfl,
      Sql.run, tableDef_users, List.map, Operand.eval, List.get?, Value.toCell] at hok ⊢
    cases hins : w.store.insert
      { name := "tpt_users",
        columns := ["id", "name", "description", "password", "phone", "email", "state", "created_at",
          "updated_at"],
        unique := ["name"], references := [] }
      ["name", "description", "password", "phone", "email", "state", "created_at",
        "updated_at"]
      [.string value.Name, .string value.Description, .string value.Password,
          .string value.Phone, .string value.Email, .int64 value.State,
          .time (w.clock w.ticks), .time (w.clock w.ticks)] none with
    | error e => simp [hins] at hok
    | ok o =>
      obtain ⟨h1, _, h3, _, _, h6, _⟩ := Store.insert_ok _ _ _ _ _ _ hins
      simp only [hins]
      refine ⟨?_, h1, h6⟩
      rw [h3]
      simp only [Record.id, hid]
  · simp only [users.CreateIt, hq, hret, if_true, time.Now, DB.queryRow,
      refDB_QueryRow_read w.store _
        [.string value.Name, .string value.Description, .string value.Password,
          .string value.Phone, .string value.Email, .int64 value.State,
          .time (w.clock w.ticks), .time (w.clock w.ticks)] _ hreadR rfl,
      Sql.run, tableDef_users, List.map, Operand.eval, List.get?, Value.toCell] at hok ⊢
    cases hins : w.store.insert
      { name := "tpt_users",
        columns := ["id", "name", "description", "password", "phone", "email", "state", "created_at",
          "updated_at"],
        unique := ["name"], references := [] }
      ["name", "description", "password", "phone", "email", "state", "created_at",
        "updated_at"]
      [.string value.Name, .string value.Description, .string value.Password,
          .string value.Phone, .string value.Email, .int64 value.State,
          .time (w.clock w.ticks), .time (w.clock w.ticks)] (some "id") with
    | error e => simp [hins, failingRow] at hok
    | ok o =>
      obtain ⟨h1, _, _, _, h5, h6, _⟩ := Store.insert_ok _ _ _ _ _ _ hins
      simp only [hins, h5, returningRows, hid, rowScanner, sampleRow, Cell.fill,
        convert_int64]
      exact ⟨trivial, h1, h6⟩

theorem tableDef_userProfiles : tableDef "tpt_user_profiles" = some
    { name := "tpt_user_profiles",
        columns := ["id", "usr", "name", "value", "created_at", "updated_at"],
        unique := [], references := [] } := by
  decide

theorem read_userProfiles_byID (cfg : Config) (h : cfg.Builtin) :
    ∃ q, cfg.PlaceholderFormat "WHERE id = ?" = (q, none) ∧
      Sql.read (userProfilePrefix ++ q) = some (.select userProfiles.columns "tpt_user_profiles"
        (.eq (.column 0 "id") (.param 1))) := by
  rcases h with h | h <;> rw [h]
  · exact ⟨_, rfl, by decide⟩
  · exact ⟨_, Dollar_format_value _, by decide⟩

theorem read_userProfiles_insert (cfg : Config) (h : cfg.Builtin) :
    ∃ q, cfg.PlaceholderFormat userProfiles.CreateIt.sqlString = (q, none) ∧
      Sql.read q = some (.insert "tpt_user_profiles"
        ["usr", "name", "value", "created_at", "updated_at"]
        [.param 1, .param 2, .param 3, .param 4, .param 5] none) ∧
      Sql.read (q ++ " RETURNING \"id\"") = some (.insert "tpt_user_profiles"
        ["usr", "name", "value", "created_at", "updated_at"]
        [.param 1, .param 2, .param 3, .param 4, .param 5] (some "id")) := by
  rcases h with h | h <;> rw [h]
  · exact ⟨_, rfl, by decide, by decide⟩
  · exact ⟨_, Dollar_format_value _, by decide, by decide⟩

theorem read_userProfiles_update (cfg : Config) (h : cfg.Builtin) :
    ∃ q, cfg.PlaceholderFormat userProfiles.UpdateIt.updateString = (q, none) ∧
      Sql.read q = some (.update "tpt_user_profiles"
        [("usr", .param 1), ("name", .param 2), ("value", .param 3),
        ("updated_at", .param 4)]
        (.eq (.column 0 "id") (.param 5))) := by
  rcases h with h | h <;> rw [h]
  · exact ⟨_, rfl, by decide⟩
  · exact ⟨_, Dollar_format_value _, by decide⟩

theorem userProfiles_FindByID_refDB (cfg : Config) (h : cfg.Builtin) (id : Int) (w : World Store) :
    (userProfiles.FindByID cfg refDB id w).1 = userProfiles.scan (rowScanner
      (((w.store.rows "tpt_user_profiles").filter fun r => (r "id").sqlEq (.int64 id)).map
        fun r => userProfiles.columns.map r)) := by
  obtain ⟨q, hq, hread⟩ := read_userProfiles_byID cfg h
  simp only [userProfiles.FindByID, userProfiles.QueryRowWith, hq, DB.queryRow,
    refDB_QueryRow_read w.store _ [.int64 id] _ hread rfl]
  simp [Sql.run, Store.select, Cond.eval, Operand.eval, Value.toCell]

theorem userProfiles_CreateIt_refDB (cfg : Config) (h : cfg.Builtin) (value : UserProfile)
    (w : World Store) (hok : (userProfiles.CreateIt cfg refDB value w).1.2 = none) :
    (userProfiles.CreateIt cfg refDB value w).1.1 = w.store.serial "tpt_user_profiles" + 1 ∧
    (userProfiles.CreateIt cfg refDB value w).2.2.store.rows "tpt_user_profiles"
      = w.store.rows "tpt_user_profiles" ++ [insertRecord (w.store.serial "tpt_user_profiles" + 1)
          ["usr", "name", "value", "created_at", "updated_at"]
          [.string value.User, .string value.Name, .string value.Value,
          .time (w.clock w.ticks), .time (w.clock w.ticks)]] ∧
    ∀ c ∈ ["id"], violatesUnique (w.store.rows "tpt_user_profiles")
      (insertRecord (w.store.serial "tpt_user_profiles" + 1)
          ["usr", "name", "value", "created_at", "updated_at"]
          [.string value.User, .string value.Name, .string value.Value,
          .time (w.clock w.ticks), .time (w.clock w.ticks)]) c = false := by
  obtain ⟨q, hq, hread, hreadR⟩ := read_userProfiles_insert cfg h
  have hid := insertRecord_id (w.store.serial "tpt_user_profiles" + 1)
    ["usr", "name", "value", "created_at", "updated_at"]
    [.string value.User, .string value.Name, .string value.Value,
          .time (w.clock w.ticks), .time (w.clock w.ticks)] rfl
  cases hret : cfg.IsReturning
  · simp only [userProfiles.CreateIt, hq, hret, Bool.false_eq_true, if_false, time.Now, DB.exec,
      refDB_Exec_read w.store q
        [.string value.User, .string value.Name, .string value.Value,
          .time (w.clock w.ticks), .time (w.clock w.ticks)] _ hread rfl,
      Sql.run, tableDef_userProfiles, List.map, Operand.eval, List.get?, Value.toCell] at hok ⊢
    cases hins : w.store.insert
      { name := "tpt_user_profiles",
        columns := ["id", "usr", "name", "value", "created_at", "updated_at"],
        unique := [], references := [] }
      ["usr", "name", "value", "created_at", "updated_at"]
      [.string value.User, .string value.Name, .string value.Value,
          .time (w.clock w.ticks), .time (w.clock w.ticks)] none with
    | error e => simp [hins] at hok
    | ok o =>
      obtain ⟨h1, _, h3, _, _, h6, _⟩ := Store.insert_ok _ _ _ _ _ _ hins
      simp only [hins]
      refine ⟨?_, h1, h6⟩
      rw [h3]
      simp only [Record.id, hid]
  · simp only [userProfiles.CreateIt, hq, hret, if_true, time.Now, DB.queryRow,
      refDB_QueryRow_read w.store _
        [.string value.User, .string value.Name, .string value.Value,
          .time (w.clock w.ticks), .time (w.clock w.ticks)] _ hreadR rfl,
      Sql.run, tableDef_userProfiles, List.map, Operand.eval, List.get?, Value.toCell] at hok ⊢
    cases hins : w.store.insert
      { name := "tpt_user_profiles",
        columns := ["id", "usr", "name", "value", "created_at", "updated_at"],
        unique := [], references := [] }
      ["usr", "name", "value", "created_at", "updated_at"]
      [.string value.User, .string value.Name, .string value.Value,
          .time (w.clock w.ticks), .time (w.clock w.ticks)] (some "id") with
    | error e => simp [hins, failingRow] at hok
    | ok o =>
      obtain ⟨h1, _, _, _, h5, h6, _⟩ := Store.insert_ok _ _ _ _ _ _ hins
      simp only [hins, h5, returningRows, hid, rowScanner, sampleRow, Cell.fill,
        convert_int64]
      exact ⟨trivial, h1, h6⟩

/-! ## The reference store: reading back what was written -/

theorem Cell.sqlEq_self_int64 (v : Int) : (Cell.int64 v).sqlEq (.int64 v) = true := by
  simp [Cell.sqlEq]

theorem Cell.sqlEq_self_string (s : String) : (Cell.string s).sqlEq (.string s) = true := by
  simp [Cell.sqlEq]

theorem roles_UpdateIt_refDB (cfg : Config) (h : cfg.Builtin) (value : Role)
    (w : World Store) (hok : (roles.UpdateIt cfg refDB value w).1 = none) :
    (roles.UpdateIt cfg refDB value w).2.store.rows "tpt_roles"
      = (w.store.rows "tpt_roles").map (fun r =>
          if (r "id").sqlEq (.int64 value.ID) then
            r.set
              [("name", .string value.Name), ("description", .string value.Description),
                ("permission_keys", .string value.PermissionKeys),
                ("updated_at", .time (w.clock w.ticks))]
          else r) ∧
    (w.store.rows "tpt_roles").filter (fun r => (r "id").sqlEq (.int64 value.ID)) ≠ [] := by
  obtain ⟨q, hq, hread⟩ := read_roles_update cfg h
  by_cases hid : 0 = value.ID
  · simp [roles.UpdateIt, hid] at hok
  · simp only [roles.UpdateIt, hid, if_false, hq, time.Now, DB.exec,
      refDB_Exec_read w.store q
        [.string value.Name, .string value.Description, .string value.PermissionKeys,
          .time (w.clock w.ticks), .int64 value.ID] _ hread rfl,
      Sql.run, tableDef_roles, List.map, Cond.eval, Operand.eval, List.get?,
      Value.toCell] at hok ⊢
    generalize hupd : Store.update w.store _ _ _ = res at hok ⊢
    cases res with
    | error e => simp at hok
    | ok o =>
      obtain ⟨h1, _, h3⟩ := Store.update_ok _ _ _ _ _ hupd
      simp only at hok ⊢
      by_cases haff : 0 = o.affected
      · rw [if_pos haff] at hok
        cases hok
      · rw [if_neg haff]
        refine ⟨h1, ?_⟩
        intro hnil
        rw [h3, hnil] at haff
        exact haff rfl

theorem roles_create_then_FindByID (cfg : Config) (h : cfg.Builtin) (value : Role)
    (w : World Store) (hok : (roles.CreateIt cfg refDB value w).1.2 = none) :
    (roles.FindByID cfg refDB (roles.CreateIt cfg refDB value w).1.1
        (roles.CreateIt cfg refDB value w).2.2).1
      = (some { ID := (roles.CreateIt cfg refDB value w).1.1, Name := value.Name, Description := value.Description, PermissionKeys := value.PermissionKeys,
                CreatedAt := w.clock w.ticks, UpdatedAt := w.clock w.ticks }, none) := by
  obtain ⟨hid, hrows, huniq⟩ := roles_CreateIt_refDB cfg h value w hok
  rw [roles_FindByID_refDB cfg h, hrows, hid]
  generalize hrec : insertRecord (w.store.serial "tpt_roles" + 1)
      ["name", "description", "permission_keys", "created_at", "updated_at"]
      [.string value.Name, .string value.Description, .string value.PermissionKeys,
          .time (w.clock w.ticks), .time (w.clock w.ticks)] = rec at huniq ⊢
  have hc0 : rec "id" = .int64 (w.store.serial "tpt_roles" + 1) := by rw [← hrec]; rfl
  have hc1 : rec "name" = .string value.Name := by rw [← hrec]; rfl
  have hc2 : rec "description" = .string value.Description := by rw [← hrec]; rfl
  have hc3 : rec "permission_keys" = .string value.PermissionKeys := by rw [← hrec]; rfl
  have hca : rec "created_at" = .time (w.clock w.ticks) := by rw [← hrec]; rfl
  have hcu : rec "updated_at" = .time (w.clock w.ticks) := by rw [← hrec]; rfl
  have hold := filter_sqlEq_of_not_violatesUnique _ _ "id" _ hc0 (huniq "id" (by simp))
  have hself : List.filter
      (fun x => (x "id").sqlEq (.int64 (w.store.serial "tpt_roles" + 1))) [rec] = [rec] := by
    simp [List.filter, hc0, Cell.sqlEq_self_int64]
  rw [List.filter_append, hold, List.nil_append, hself]
  show roles.scan (sampleRow (roles.columns.map rec)) = _
  rw [roles_scan_record rec ⟨⟨_, hc0⟩, ⟨_, hc1⟩, by rw [hc2]; rfl, by rw [hc3]; rfl⟩]
  simp only [Record.asRole, hc0, hc1, hc2, hc3, hca, hcu, Cell.number, Cell.text, Cell.instant]

theorem roles_update_then_FindByID (cfg : Config) (h : cfg.Builtin) (value : Role)
    (w : World Store) (hok : (roles.UpdateIt cfg refDB value w).1 = none) :
    ∃ created : Time,
      (roles.FindByID cfg refDB value.ID (roles.UpdateIt cfg refDB value w).2).1
        = (some { ID := value.ID, Name := value.Name, Description := value.Description, PermissionKeys := value.PermissionKeys,
                  CreatedAt := created, UpdatedAt := w.clock w.ticks }, none) := by
  obtain ⟨hrows, hne⟩ := roles_UpdateIt_refDB cfg h value w hok
  rw [roles_FindByID_refDB cfg h, hrows,
    filter_map_change _ (fun r => (r "id").sqlEq (.int64 value.ID))
      (fun r => Record.set r
        [("name", .string value.Name), ("description", .string value.Description),
          ("permission_keys", .string value.PermissionKeys),
          ("updated_at", .time (w.clock w.ticks))])
      (fun r => rfl)]
  cases hf : (w.store.rows "tpt_roles").filter (fun r => (r "id").sqlEq (.int64 value.ID)) with
  | nil => exact absurd hf hne
  | cons r0 rest =>
    have hr0 : (r0 "id").sqlEq (.int64 value.ID) = true := by
      have hmem : r0 ∈ (w.store.rows "tpt_roles").filter
          (fun r => (r "id").sqlEq (.int64 value.ID)) := by rw [hf]; exact List.mem_cons_self _ _
      exact (List.mem_filter.1 hmem).2
    rw [Cell.sqlEq_int64] at hr0
    refine ⟨(r0 "created_at").instant, ?_⟩
    rw [List.map_cons, List.map_cons]
    generalize hrec : Record.set r0
        [("name", .string value.Name), ("description", .string value.Description),
          ("permission_keys", .string value.PermissionKeys),
          ("updated_at", .time (w.clock w.ticks))] = rec
    have hc0 : rec "id" = .int64 value.ID := by rw [← hrec, ← hr0]; rfl
    have hc1 : rec "name" = .string value.Name := by rw [← hrec]; rfl
    have hc2 : rec "description" = .string value.Description := by rw [← hrec]; rfl
    have hc3 : rec "permission_keys" = .string value.PermissionKeys := by rw [← hrec]; rfl
    have hca : rec "created_at" = r0 "created_at" := by rw [← hrec]; rfl
    have hcu : rec "updated_at" = .time (w.clock w.ticks) := by rw [← hrec]; rfl
    show roles.scan (sampleRow (roles.columns.map rec)) = _
    rw [roles_scan_record rec ⟨⟨_, hc0⟩, ⟨_, hc1⟩, by rw [hc2]; rfl, by rw [hc3]; rfl⟩]
    simp only [Record.asRole, hc0, hc1, hc2, hc3, hca, hcu, Cell.number, Cell.text, Cell.instant]

theorem read_roles_byName (cfg : Config) (h : cfg.Builtin) :
    ∃ q, cfg.PlaceholderFormat "WHERE name = ?" = (q, none) ∧
      Sql.read (rolePrefix ++ q) = some (.select roles.columns "tpt_roles"
        (.eq (.column 0 "name") (.param 1))) := by
  rcases h with h | h <;> rw [h]
  · exact ⟨_, rfl, by decide⟩
  · exact ⟨_, Dollar_format_value _, by decide⟩

theorem roles_FindByName_refDB (cfg : Config) (h : cfg.Builtin) (name : String)
    (w : World Store) :
    (roles.FindByName cfg refDB name w).1 = roles.scan (rowScanner
      (((w.store.rows "tpt_roles").filter fun r => (r "name").sqlEq (.string name)).map
        fun r => roles.columns.map r)) := by
  obtain ⟨q, hq, hread⟩ := read_roles_byName cfg h
  simp only [roles.FindByName, roles.QueryRowWith, hq, DB.queryRow,
    refDB_QueryRow_read w.store _ [.string name] _ hread rfl]
  simp [Sql.run, Store.select, Cond.eval, Operand.eval, Value.toCell]

theorem roles_create_then_FindByName (cfg : Config) (h : cfg.Builtin) (value : Role)
    (w : World Store) (hok : (roles.CreateIt cfg refDB value w).1.2 = none) :
    (roles.FindByName cfg refDB value.Name (roles.CreateIt cfg refDB value w).2.2).1
      = (some { ID := (roles.CreateIt cfg refDB value w).1.1, Name := value.Name, Description := value.Description, PermissionKeys := value.PermissionKeys,
                CreatedAt := w.clock w.ticks, UpdatedAt := w.clock w.ticks }, none) := by
  obtain ⟨hid, hrows, huniq⟩ := roles_CreateIt_refDB cfg h value w hok
  rw [roles_FindByName_refDB cfg h, hrows, hid]
  generalize hrec : insertRecord (w.store.serial "tpt_roles" + 1)
      ["name", "description", "permission_keys", "created_at", "updated_at"]
      [.string value.Name, .string value.Description, .string value.PermissionKeys,
          .time (w.clock w.ticks), .time (w.clock w.ticks)] = rec at huniq ⊢
  have hc0 : rec "id" = .int64 (w.store.serial "tpt_roles" + 1) := by rw [← hrec]; rfl
  have hc1 : rec "name" = .string value.Name := by rw [← hrec]; rfl
  have hc2 : rec "description" = .string value.Description := by rw [← hrec]; rfl
  have hc3 : rec "permission_keys" = .string value.PermissionKeys := by rw [← hrec]; rfl
  have hca : rec "created_at" = .time (w.clock w.ticks) := by rw [← hrec]; rfl
  have hcu : rec "updated_at" = .time (w.clock w.ticks) := by rw [← hrec]; rfl
  have hold := filter_sqlEq_of_not_violatesUnique _ _ "name" _ hc1 (huniq "name" (by simp))
  have hself : List.filter
      (fun x => (x "name").sqlEq (.string value.Name)) [rec] = [rec] := by
    simp [List.filter, hc1, Cell.sqlEq_self_string]
  rw [List.filter_append, hold, List.nil_append, hself]
  show roles.scan (sampleRow (roles.columns.map rec)) = _
  rw [roles_scan_record rec ⟨⟨_, hc0⟩, ⟨_, hc1⟩, by rw [hc2]; rfl, by rw [hc3]; rfl⟩]
  simp only [Record.asRole, hc0, hc1, hc2, hc3, hca, hcu, Cell.number, Cell.text, Cell.instant]

theorem users_UpdateIt_refDB (cfg : Config) (h : cfg.Builtin) (value : User)
    (w : World Store) (hok : (users.UpdateIt cfg refDB value w).1 = none) :
    (users.UpdateIt cfg refDB value w).2.store.rows "tpt_users"
      = (w.store.rows "tpt_users").map (fun r =>
          if (r "id").sqlEq (.int64 value.ID) then
            r.set
              [("name", .string value.Name), ("description", .string value.Description),
                ("password", .string value.Password), ("phone", .string value.Phone),
                ("email", .string value.Email), ("state", .int64 value.State),
                ("updated_at", .time (w.clock w.ticks))]
          else r) ∧
    (w.store.rows "tpt_users").filter (fun r => (r "id").sqlEq (.int64 value.ID)) ≠ [] := by
  obtain ⟨q, hq, hread⟩ := read_users_update cfg h
  by_cases hid : 0 = value.ID
  · simp [users.UpdateIt, hid] at hok
  · simp only [users.UpdateIt, hid, if_false, hq, time.Now, DB.exec,
      refDB_Exec_read w.store q
        [.string value.Name, .string value.Description, .string value.Password,
          .string value.Phone, .string value.Email, .int64 value.State,
          .time (w.clock w.ticks), .int64 value.ID] _ hread rfl,
      Sql.run, tableDef_users, List.map, Cond.eval, Operand.eval, List.get?,
      Value.toCell] at hok ⊢
    generalize hupd : Store.update w.store _ _ _ = res at hok ⊢
    cases res with
    | error e => simp at hok
    | ok o =>
      obtain ⟨h1, _, h3⟩ := Store.update_ok _ _ _ _ _ hupd
      simp only at hok ⊢
      by_cases haff : 0 = o.affected
      · rw [if_pos haff] at hok
        cases hok
      · rw [if_neg haff]
        refine ⟨h1, ?_⟩
        intro hnil
        rw [h3, hnil] at haff
        exact haff rfl

theorem users_create_then_FindByID (cfg : Config) (h : cfg.Builtin) (value : User)
    (w : World Store) (hok : (users.CreateIt cfg refDB value w).1.2 = none) :
    (users.FindByID cfg refDB (users.CreateIt cfg refDB value w).1.1
        (users.CreateIt cfg refDB value w).2.2).1
      = (some { ID := (users.CreateIt cfg refDB value w).1.1, Name := value.Name, Description := value.Description,
                Password := value.Password, Phone := value.Phone,
                Email := value.Email, State := value.State,
                CreatedAt := w.clock w.ticks, UpdatedAt := w.clock w.ticks }, none) := by
  obtain ⟨hid, hrows, huniq⟩ := users_CreateIt_refDB cfg h value w hok
  rw [users_FindByID_refDB cfg h, hrows, hid]
  generalize hrec : insertRecord (w.store.serial "tpt_users" + 1)
      ["name", "description", "password", "phone", "email", "state", "created_at",
        "updated_at"]
      [.string value.Name, .string value.Description, .string value.Password,
          .string value.Phone, .string value.Email, .int64 value.State,
          .time (w.clock w.ticks), .time (w.clock w.ticks)] = rec at huniq ⊢
  have hc0 : rec "id" = .int64 (w.store.serial "tpt_users" + 1) := by rw [← hrec]; rfl
  have hc1 : rec "name" = .string value.Name := by rw [← hrec]; rfl
  have hc2 : rec "description" = .string value.Description := by rw [← hrec]; rfl
  have hc3 : rec "password" = .string value.Password := by rw [← hrec]; rfl
  have hc4 : rec "phone" = .string value.Phone := by rw [← hrec]; rfl
  have hc5 : rec "email" = .string value.Email := by rw [← hrec]; rfl
  have hc6 : rec "state" = .int64 value.State := by rw [← hrec]; rfl
  have hca : rec "created_at" = .time (w.clock w.ticks) := by rw [← hrec]; rfl
  have hcu : rec "updated_at" = .time (w.clock w.ticks) := by rw [← hrec]; rfl
  have hold := filter_sqlEq_of_not_violatesUnique _ _ "id" _ hc0 (huniq "id" (by simp))
  have hself : List.filter
      (fun x => (x "id").sqlEq (.int64 (w.store.serial "tpt_users" + 1))) [rec] = [rec] := by
    simp [List.filter, hc0, Cell.sqlEq_self_int64]
  rw [List.filter_append, hold, List.nil_append, hself]
  show users.scan (sampleRow (users.columns.map rec)) = _
  rw [users_scan_record rec ⟨⟨_, hc0⟩, ⟨_, hc1⟩, by rw [hc2]; rfl, by rw [hc3]; rfl, by rw [hc4]; rfl,
    by rw [hc5]; rfl, by rw [hc6]; rfl⟩]
  simp only [Record.asUser, hc0, hc1, hc2, hc3, hc4, hc5, hc6, hca, hcu, Cell.number, Cell.text, Cell.instant]

theorem users_update_then_FindByID (cfg : Config) (h : cfg.Builtin) (value : User)
    (w : World Store) (hok : (users.UpdateIt cfg refDB value w).1 = none) :
    ∃ created : Time,
      (users.FindByID cfg refDB value.ID (users.UpdateIt cfg refDB value w).2).1
        = (some { ID := value.ID, Name := value.Name, Description := value.Description,
                  Password := value.Password, Phone := value.Phone,
                  Email := value.Email, State := value.State,
                  CreatedAt := created, UpdatedAt := w.clock w.ticks }, none) := by
  obtain ⟨hrows, hne⟩ := users_UpdateIt_refDB cfg h value w hok
  rw [users_FindByID_refDB cfg h, hrows,
    filter_map_change _ (fun r => (r "id").sqlEq (.int64 value.ID))
      (fun r => Record.set r
        [("name", .string value.Name), ("description", .string value.Description),
          ("password", .string value.Password), ("phone", .string value.Phone),
          ("email", .string value.Email), ("state", .int64 value.State),
          ("updated_at", .time (w.clock w.ticks))])
      (fun r => rfl)]
  cases hf : (w.store.rows "tpt_users").filter (fun r => (r "id").sqlEq (.int64 value.ID)) with
  | nil => exact absurd hf hne
  | cons r0 rest =>
    have hr0 : (r0 "id").sqlEq (.int64 value.ID) = true := by
      have hmem : r0 ∈ (w.store.rows "tpt_users").filter
          (fun r => (r "id").sqlEq (.int64 value.ID)) := by rw [hf]; exact List.mem_cons_self _ _
      exact (List.mem_filter.1 hmem).2
    rw [Cell.sqlEq_int64] at hr0
    refine ⟨(r0 "created_at").instant, ?_⟩
    rw [List.map_cons, List.map_cons]
    generalize hrec : Record.set r0
        [("name", .string value.Name), ("description", .string value.Description),
          ("password", .string value.Password), ("phone", .string value.Phone),
          ("email", .string value.Email), ("state", .int64 value.State),
          ("updated_at", .time (w.clock w.ticks))] = rec
    have hc0 : rec "id" = .int64 value.ID := by rw [← hrec, ← hr0]; rfl
    have hc1 : rec "name" = .string value.Name := by rw [← hrec]; rfl
    have hc2 : rec "description" = .string value.Description := by rw [← hrec]; rfl
    have hc3 : rec "password" = .string value.Password := by rw [← hrec]; rfl
    have hc4 : rec "phone" = .string value.Phone := by rw [← hrec]; rfl
    have hc5 : rec "email" = .string value.Email := by rw [← hrec]; rfl
    have hc6 : rec "state" = .int64 value.State := by rw [← hrec]; rfl
    have hca : rec "created_at" = r0 "created_at" := by rw [← hrec]; rfl
    have hcu : rec "updated_at" = .time (w.clock w.ticks) := by rw [← hrec]; rfl
    show users.scan (sampleRow (users.columns.map rec)) = _
    rw [users_scan_record rec ⟨⟨_, hc0⟩, ⟨_, hc1⟩, by rw [hc2]; rfl, by rw [hc3]; rfl, by rw [hc4]; rfl,
      by rw [hc5]; rfl, by rw [hc6]; rfl⟩]
    simp only [Record.asUser, hc0, hc1, hc2, hc3, hc4, hc5, hc6, hca, hcu, Cell.number, Cell.text, Cell.instant]

theorem read_users_byName (cfg : Config) (h : cfg.Builtin) :
    ∃ q, cfg.PlaceholderFormat "WHERE name = ?" = (q, none) ∧
      Sql.read (userPrefix ++ q) = some (.select users.columns "tpt_users"
        (.eq (.column 0 "name") (.param 1))) := by
  rcases h with h | h <;> rw [h]
  · exact ⟨_, rfl, by decide⟩
  · exact ⟨_, Dollar_format_value _, by decide⟩

theorem users_FindByName_refDB (cfg : Config) (h : cfg.Builtin) (name : String)
    (w : World Store) :
    (users.FindByName cfg refDB name w).1 = users.scan (rowScanner
      (((w.store.rows "tpt_users").filter fun r => (r "name").sqlEq (.string name)).map
        fun r => users.columns.map r)) := by
  obtain ⟨q, hq, hread⟩ := read_users_byName cfg h
  simp only [users.FindByName, users.QueryRowWith, hq, DB.queryRow,
    refDB_QueryRow_read w.store _ [.string name] _ hread rfl]
  simp [Sql.run, Store.select, Cond.eval, Operand.eval, Value.toCell]

theorem users_create_then_FindByName (cfg : Config) (h : cfg.Builtin) (value : User)
    (w : World Store) (hok : (users.CreateIt cfg refDB value w).1.2 = none) :
    (users.FindByName cfg refDB value.Name (users.CreateIt cfg refDB value w).2.2).1
      = (some { ID := (users.CreateIt cfg refDB value w).1.1, Name := value.Name, Description := value.Description,
                Password := value.Password, Phone := value.Phone,
                Email := value.Email, State := value.State,
                CreatedAt := w.clock w.ticks, UpdatedAt := w.clock w.ticks }, none) := by
  obtain ⟨hid, hrows, huniq⟩ := users_CreateIt_refDB cfg h value w hok
  rw [users_FindByName_refDB cfg h, hrows, hid]
  generalize hrec : insertRecord (w.store.serial "tpt_users" + 1)
      ["name", "description", "password", "phone", "email", "state", "created_at",
        "updated_at"]
      [.string value.Name, .string value.Description, .string value.Password,
          .string value.Phone, .string value.Email, .int64 value.State,
          .time (w.clock w.ticks), .time (w.clock w.ticks)] = rec at huniq ⊢
  have hc0 : rec "id" = .int64 (w.store.serial "tpt_users" + 1) := by rw [← hrec]; rfl
  have hc1 : rec "name" = .string value.Name := by rw [← hrec]; rfl
  have hc2 : rec "description" = .string value.Description := by rw [← hrec]; rfl
  have hc3 : rec "password" = .string value.Password := by rw [← hrec]; rfl
  have hc4 : rec "phone" = .string value.Phone := by rw [← hrec]; rfl
  have hc5 : rec "email" = .string value.Email := by rw [← hrec]; rfl
  have hc6 : rec "state" = .int64 value.State := by rw [← hrec]; rfl
  have hca : rec "created_at" = .time (w.clock w.ticks) := by rw [← hrec]; rfl
  have hcu : rec "updated_at" = .time (w.clock w.ticks) := by rw [← hrec]; rfl
  have hold := filter_sqlEq_of_not_violatesUnique _ _ "name" _ hc1 (huniq "name" (by simp))
  have hself : List.filter
      (fun x => (x "name").sqlEq (.string value.Name)) [rec] = [rec] := by
    simp [List.filter, hc1, Cell.sqlEq_self_string]
  rw [List.filter_append, hold, List.nil_append, hself]
  show users.scan (sampleRow (users.columns.map rec)) = _
  rw [users_scan_record rec ⟨⟨_, hc0⟩, ⟨_, hc1⟩, by rw [hc2]; rfl, by rw [hc3]; rfl, by rw [hc4]; rfl,
    by rw [hc5]; rfl, by rw [hc6]; rfl⟩]
  simp only [Record.asUser, hc0, hc1, hc2, hc3, hc4, hc5, hc6, hca, hcu, Cell.number, Cell.text, Cell.instant]

theorem userProfiles_UpdateIt_refDB (cfg : Config) (h : cfg.Builtin) (value : UserProfile)
    (w : World Store) (hok : (userProfiles.UpdateIt cfg refDB value w).1 = none) :
    (userProfiles.UpdateIt cfg refDB value w).2.store.rows "tpt_user_profiles"
      = (w.store.rows "tpt_user_profiles").map (fun r =>
          if (r "id").sqlEq (.int64 value.ID) then
            r.set
              [("usr", .string value.User), ("name", .string value.Name),
                ("value", .string value.Value), ("updated_at", .time (w.clock w.ticks))]
          else r) ∧
    (w.store.rows "tpt_user_profiles").filter (fun r => (r "id").sqlEq (.int64 value.ID)) ≠ [] := by
  obtain ⟨q, hq, hread⟩ := read_userProfiles_update cfg h
  by_cases hid : 0 = value.ID
  · simp [userProfiles.UpdateIt, hid] at hok
  · simp only [userProfiles.UpdateIt, hid, if_false, hq, time.Now, DB.exec,
      refDB_Exec_read w.store q
        [.string value.User, .string value.Name, .string value.Value,
          .time (w.clock w.ticks), .int64 value.ID] _ hread rfl,
      Sql.run, tableDef_userProfiles, List.map, Cond.eval, Operand.eval, List.get?,
      Value.toCell] at hok ⊢
    generalize hupd : Store.update w.store _ _ _ = res at hok ⊢
    cases res with
    | error e => simp at hok
    | ok o =>
      obtain ⟨h1, _, h3⟩ := Store.update_ok _ _ _ _ _ hupd
      simp only at hok ⊢
      by_cases haff : 0 = o.affected
      · rw [if_pos haff] at hok
        cases hok
      · rw [if_neg haff]
        refine ⟨h1, ?_⟩
        intro hnil
        rw [h3, hnil] at haff
        exact haff rfl

theorem userProfiles_create_then_FindByID (cfg : Config) (h : cfg.Builtin) (value : UserProfile)
    (w : World Store) (hok : (userProfiles.CreateIt cfg refDB value w).1.2 = none) :
    (userProfiles.FindByID cfg refDB (userProfiles.CreateIt cfg refDB value w).1.1
        (userProfiles.CreateIt cfg refDB value w).2.2).1
      = (some { ID := (userProfiles.CreateIt cfg refDB value w).1.1, User := value.User, Name := value.Name, Value := value.Value,
                CreatedAt := w.clock w.ticks, UpdatedAt := w.clock w.ticks }, none) := by
  obtain ⟨hid, hrows, huniq⟩ := userProfiles_CreateIt_refDB cfg h value w hok
  rw [userProfiles_FindByID_refDB cfg h, hrows, hid]
  generalize hrec : insertRecord (w.store.serial "tpt_user_profiles" + 1)
      ["usr", "name", "value", "created_at", "updated_at"]
      [.string value.User, .string value.Name, .string value.Value,
          .time (w.clock w.ticks), .time (w.clock w.ticks)] = rec at huniq ⊢
  have hc0 : rec "id" = .int64 (w.store.serial "tpt_user_profiles" + 1) := by rw [← hrec]; rfl
  have hc1 : rec "usr" = .string value.User := by rw [← hrec]; rfl
  have hc2 : rec "name" = .string value.Name := by rw [← hrec]; rfl
  have hc3 : rec "value" = .string value.Value := by rw [← hrec]; rfl
  have hca : rec "created_at" = .time (w.clock w.ticks) := by rw [← hrec]; rfl
  have hcu : rec "updated_at" = .time (w.clock w.ticks) := by rw [← hrec]; rfl
  have hold := filter_sqlEq_of_not_violatesUnique _ _ "id" _ hc0 (huniq "id" (by simp))
  have hself : List.filter
      (fun x => (x "id").sqlEq (.int64 (w.store.serial "tpt_user_profiles" + 1))) [rec] = [rec] := by
    simp [List.filter, hc0, Cell.sqlEq_self_int64]
  rw [List.filter_append, hold, List.nil_append, hself]
  show userProfiles.scan (sampleRow (userProfiles.columns.map rec)) = _
  rw [userProfiles_scan_record rec ⟨⟨_, hc0⟩, by rw [hc1]; rfl, by rw [hc2]; rfl, by rw [hc3]; rfl⟩]
  simp only [Record.asUserProfile, hc0, hc1, hc2, hc3, hca, hcu, Cell.number, Cell.text, Cell.instant]

theorem userProfiles_update_then_FindByID (cfg : Config) (h : cfg.Builtin) (value : UserProfile)
    (w : World Store) (hok : (userProfiles.UpdateIt cfg refDB value w).1 = none) :
    ∃ created : Time,
      (userProfiles.FindByID cfg refDB value.ID (userProfiles.UpdateIt cfg refDB value w).2).1
        = (some { ID := value.ID, User := value.User, Name := value.Name, Value := value.Value,
                  CreatedAt := created, UpdatedAt := w.clock w.ticks }, none) := by
  obtain ⟨hrows, hne⟩ := userProfiles_UpdateIt_refDB cfg h value w hok
  rw [userProfiles_FindByID_refDB cfg h, hrows,
    filter_map_change _ (fun r => (r "id").sqlEq (.int64 value.ID))
      (fun r => Record.set r
        [("usr", .string value.User), ("name", .string value.Name),
          ("value", .string value.Value), ("updated_at", .time (w.clock w.ticks))])
      (fun r => rfl)]
  cases hf : (w.store.rows "tpt_user_profiles").filter (fun r => (r "id").sqlEq (.int64 value.ID)) with
  | nil => exact absurd hf hne
  | cons r0 rest =>
    have hr0 : (r0 "id").sqlEq (.int64 value.ID) = true := by
      have hmem : r0 ∈ (w.store.rows "tpt_user_profiles").filter
          (fun r => (r "id").sqlEq (.int64 value.ID)) := by rw [hf]; exact List.mem_cons_self _ _
      exact (List.mem_filter.1 hmem).2
    rw [Cell.sqlEq_int64] at hr0
    refine ⟨(r0 "created_at").instant, ?_⟩
    rw [List.map_cons, List.map_cons]
    generalize hrec : Record.set r0
        [("usr", .string value.User), ("name", .string value.Name),
          ("value", .string value.Value), ("updated_at", .time (w.clock w.ticks))] = rec
    have hc0 : rec "id" = .int64 value.ID := by rw [← hrec, ← hr0]; rfl
    have hc1 : rec "usr" = .string value.User := by rw [← hrec]; rfl
    have hc2 : rec "name" = .string value.Name := by rw [← hrec]; rfl
    have hc3 : rec "value" = .string value.Value := by rw [← hrec]; rfl
    have hca : rec "created_at" = r0 "created_at" := by rw [← hrec]; rfl
    have hcu : rec "updated_at" = .time (w.clock w.ticks) := by rw [← hrec]; rfl
    show userProfiles.scan (sampleRow (userProfiles.columns.map rec)) = _
    rw [userProfiles_scan_record rec ⟨⟨_, hc0⟩, by rw [hc1]; rfl, by rw [hc2]; rfl, by rw [hc3]; rfl⟩]
    simp only [Record.asUserProfile, hc0, hc1, hc2, hc3, hca, hcu, Cell.number, Cell.text, Cell.instant]

/-- C11: on the reference store, under either built-in placeholder policy and
either setting of `IsReturning`, for every Role, User and UserProfile value and
every state of the store: after a successful `CreateIt` returning `id`, with
the clock not showing the zero time, `FindByID(id)` (and `FindByName(name)`
for Role and User) succeeds and yields an entity with that identity, equal to
the input on all mutable fields, with non-zero CreatedAt and UpdatedAt; and
after a successful `UpdateIt` of an entity, `FindByID` of its identity succeeds
and yields an entity equal to the updated value on all mutable fields. -/
theorem read_back_round_trip (cfg : Config) (hcfg : cfg.Builtin) (w : World Store) :
    (∀ value : Role, w.clock w.ticks ≠ Time.zero →
      (roles.CreateIt cfg refDB value w).1.2 = none →
      ∃ e : Role,
        (roles.FindByID cfg refDB (roles.CreateIt cfg refDB value w).1.1
            (roles.CreateIt cfg refDB value w).2.2).1 = (some e, none) ∧
        (roles.FindByName cfg refDB value.Name (roles.CreateIt cfg refDB value w).2.2).1
          = (some e, none) ∧
        e.ID = (roles.CreateIt cfg refDB value w).1.1 ∧
        (e.Name = value.Name ∧ e.Description = value.Description ∧ e.PermissionKeys = value.PermissionKeys) ∧
        e.CreatedAt ≠ Time.zero ∧ e.UpdatedAt ≠ Time.zero) ∧
    (∀ value : Role, (roles.UpdateIt cfg refDB value w).1 = none →
      ∃ e : Role,
        (roles.FindByID cfg refDB value.ID (roles.UpdateIt cfg refDB value w).2).1
          = (some e, none) ∧
        e.ID = value.ID ∧
        (e.Name = value.Name ∧ e.Description = value.Description ∧ e.PermissionKeys = value.PermissionKeys)) ∧
    (∀ value : User, w.clock w.ticks ≠ Time.zero →
      (users.CreateIt cfg refDB value w).1.2 = none →
      ∃ e : User,
        (users.FindByID cfg refDB (users.CreateIt cfg refDB value w).1.1
            (users.CreateIt cfg refDB value w).2.2).1 = (some e, none) ∧
        (users.FindByName cfg refDB value.Name (users.CreateIt cfg refDB value w).2.2).1
          = (some e, none) ∧
        e.ID = (users.CreateIt cfg refDB value w).1.1 ∧
        (e.Name = value.Name ∧ e.Description = value.Description ∧
          e.Password = value.Password ∧ e.Phone = value.Phone ∧
          e.Email = value.Email ∧ e.State = value.State) ∧
        e.CreatedAt ≠ Time.zero ∧ e.UpdatedAt ≠ Time.zero) ∧
    (∀ value : User, (users.UpdateIt cfg refDB value w).1 = none →
      ∃ e : User,
        (users.FindByID cfg refDB value.ID (users.UpdateIt cfg refDB value w).2).1
          = (some e, none) ∧
        e.ID = value.ID ∧
        (e.Name = value.Name ∧ e.Description = value.Description ∧
          e.Password = value.Password ∧ e.Phone = value.Phone ∧
          e.Email = value.Email ∧ e.State = value.State)) ∧
    (∀ value : UserProfile, w.clock w.ticks ≠ Time.zero →
      (userProfiles.CreateIt cfg refDB value w).1.2 = none →
      ∃ e : UserProfile,
        (userProfiles.FindByID cfg refDB (userProfiles.CreateIt cfg refDB value w).1.1
            (userProfiles.CreateIt cfg refDB value w).2.2).1 = (some e, none) ∧
        e.ID = (userProfiles.CreateIt cfg refDB value w).1.1 ∧
        (e.User = value.User ∧ e.Name = value.Name ∧ e.Value = value.Value) ∧
        e.CreatedAt ≠ Time.zero ∧ e.UpdatedAt ≠ Time.zero) ∧
    (∀ value : UserProfile, (userProfiles.UpdateIt cfg refDB value w).1 = none →
      ∃ e : UserProfile,
        (userProfiles.FindByID cfg refDB value.ID (userProfiles.UpdateIt cfg refDB value w).2).1
          = (some e, none) ∧
        e.ID = value.ID ∧
        (e.User = value.User ∧ e.Name = value.Name ∧ e.Value = value.Value)) :=
  ⟨fun value hclock hok =>
      ⟨_, roles_create_then_FindByID cfg hcfg value w hok, roles_create_then_FindByName cfg hcfg value w hok, rfl,
        ⟨rfl, rfl, rfl⟩, hclock, hclock⟩,
    fun value hok =>
      (roles_update_then_FindByID cfg hcfg value w hok).elim fun _ hfind =>
        ⟨_, hfind, rfl, rfl, rfl, rfl⟩,
    fun value hclock hok =>
      ⟨_, users_create_then_FindByID cfg hcfg value w hok, users_create_then_FindByName cfg hcfg value w hok, rfl,
        ⟨rfl, rfl, rfl, rfl, rfl, rfl⟩, hclock, hclock⟩,
    fun value hok =>
      (users_update_then_FindByID cfg hcfg value w hok).elim fun _ hfind =>
        ⟨_, hfind, rfl, rfl, rfl, rfl, rfl, rfl, rfl⟩,
    fun value hclock hok =>
      ⟨_, userProfiles_create_then_FindByID cfg hcfg value w hok, rfl,
        ⟨rfl, rfl, rfl⟩, hclock, hclock⟩,
    fun value hok =>
      (userProfiles_update_then_FindByID cfg hcfg value w hok).elim fun _ hfind =>
        ⟨_, hfind, rfl, rfl, rfl, rfl⟩⟩

/-- Witness for C11: on the empty reference store, under the `Dollar` policy in
returning mode, the role created from the test's values is read back by
`FindByID` with identity 1, the same mutable fields and non-zero timestamps. -/
theorem read_back_round_trip_witness :
    ∃ e : Role,
      (roles.FindByID (dollarConfig true) refDB
          (roles.CreateIt (dollarConfig true) refDB
            { Name := "a", Description := "a_descr", PermissionKeys := "k1,k2" }
            emptyWorld).1.1
          (roles.CreateIt (dollarConfig true) refDB
            { Name := "a", Description := "a_descr", PermissionKeys := "k1,k2" }
            emptyWorld).2.2).1 = (some e, none) ∧
      e.Name = "a" ∧ e.Description = "a_descr" ∧ e.PermissionKeys = "k1,k2" ∧
      e.CreatedAt ≠ Time.zero ∧ e.UpdatedAt ≠ Time.zero := by
  obtain ⟨e, hfind, _, _, hfields, hca, hua⟩ :=
    (read_back_round_trip (dollarConfig true) (Or.inr rfl) emptyWorld).1
      { Name := "a", Description := "a_descr", PermissionKeys := "k1,k2" }
      (by decide) (by decide)
  exact ⟨e, hfind, hfields.1, hfields.2.1, hfields.2.2, hca, hua⟩

/-! ## The reference store: associations -/

theorem tableDef_user_roles : tableDef "tpt_user_roles" = some
    { name := "tpt_user_roles",
      columns := ["id", "user_id", "role_id", "created_at", "updated_at"],
      unique := [],
      references := [("user_id", "tpt_users"), ("role_id", "tpt_roles")] } := by
  decide

theorem read_AddRole (cfg : Config) (h : cfg.Builtin) :
    ∃ q, cfg.PlaceholderFormat users.AddRole.insertString = (q, none) ∧
      Sql.read q = some (.insert "tpt_user_roles"
        ["user_id", "role_id", "created_at", "updated_at"]
        [.param 1, .param 2, .param 3, .param 4] none) := by
  rcases h with h | h <;> rw [h]
  · exact ⟨_, rfl, by decide⟩
  · exact ⟨_, Dollar_format_value _, by decide⟩

theorem read_RemoveRole (cfg : Config) (h : cfg.Builtin) :
    ∃ q, cfg.PlaceholderFormat users.RemoveRole.deleteString = (q, none) ∧
      Sql.read q = some (.delete "tpt_user_roles"
        (.and (.eq (.column 0 "user_id") (.param 1))
          (.eq (.column 0 "role_id") (.param 2)))) := by
  rcases h with h | h <;> rw [h]
  · exact ⟨_, rfl, by decide⟩
  · exact ⟨_, Dollar_format_value _, by decide⟩

theorem users_AddRole_refDB (cfg : Config) (h : cfg.Builtin) (u r : Int) (w : World Store)
    (hok : (users.AddRole cfg refDB u r w).1 = none) :
    (∃ rec : Record, rec "user_id" = .int64 u ∧ rec "role_id" = .int64 r ∧
      (users.AddRole cfg refDB u r w).2.store.rows "tpt_user_roles"
        = w.store.rows "tpt_user_roles" ++ [rec]) ∧
    (∀ t, t ≠ "tpt_user_roles" →
      (users.AddRole cfg refDB u r w).2.store.rows t = w.store.rows t) ∧
    ∃ ρ ∈ w.store.rows "tpt_roles", ρ "id" = .int64 r := by
  obtain ⟨q, hq, hread⟩ := read_AddRole cfg h
  simp only [users.AddRole, hq, time.Now, DB.exec,
    refDB_Exec_read w.store q
      [.int64 u, .int64 r, .time (w.clock w.ticks), .time (w.clock w.ticks)] _ hread rfl,
    Sql.run, tableDef_user_roles, List.map, Operand.eval, List.get?, Value.toCell] at hok ⊢
  generalize hins : Store.insert w.store _ _ _ _ = res at hok ⊢
  cases res with
  | error e => simp at hok
  | ok o =>
    obtain ⟨h1, h2, _, _, _, _, h7⟩ := Store.insert_ok _ _ _ _ _ _ hins
    refine ⟨⟨_, rfl, rfl, h1⟩, h2, ?_⟩
    have hfk := h7 ("role_id", "tpt_roles") (by simp)
    have hrr : insertRecord (w.store.serial "tpt_user_roles" + 1)
        ["user_id", "role_id", "created_at", "updated_at"]
        [.int64 u, .int64 r, .time (w.clock w.ticks), .time (w.clock w.ticks)] "role_id"
        = .int64 r := rfl
    simp only [missingReference, hrr] at hfk
    simp only [bne_iff_ne, ne_eq, Bool.and_eq_false_imp, Bool.not_eq_false',
      decide_eq_true_eq, reduceCtorEq, not_false_eq_true, forall_const, List.any_eq_true,
      Cell.sqlEq_int64] at hfk

    exact hfk

theorem users_RemoveRole_refDB (cfg : Config) (h : cfg.Builtin) (u r : Int)
    (w : World Store) :
    (users.RemoveRole cfg refDB u r w).1 = none ∧
    (users.RemoveRole cfg refDB u r w).2.store.rows "tpt_user_roles"
      = (w.store.rows "tpt_user_roles").filter (fun ur =>
          !((ur "user_id").sqlEq (.int64 u) && (ur "role_id").sqlEq (.int64 r))) ∧
    (users.RemoveRole cfg refDB u r w).2.store.rows "tpt_roles" = w.store.rows "tpt_roles" ∧
    (users.RemoveRole cfg refDB u r w).2.store.rows "tpt_users" = w.store.rows "tpt_users" := by
  obtain ⟨q, hq, hread⟩ := read_RemoveRole cfg h
  simp only [users.RemoveRole, hq, DB.exec,
    refDB_Exec_read w.store q [.int64 u, .int64 r] _ hread rfl,
    Sql.run, Cond.eval, Operand.eval, List.get?, Value.toCell]
  refine ⟨trivial, ?_, ?_, ?_⟩
  · simp [Store.delete, tableDef_user_roles, Store.setRows]
  · simp [Store.delete, tableDef_roles, Store.setRows]
  · simp [Store.delete, tableDef_users, Store.setRows]

theorem read_FindByUserID (cfg : Config) (h : cfg.Builtin) :
    ∃ q, cfg.PlaceholderFormat
        "WHERE EXISTS (SELECT * FROM tpt_user_roles WHERE user_id = ? AND tpt_roles.id = tpt_user_roles.role_id)"
        = (q, none) ∧
      Sql.read (rolePrefix ++ q) = some (.select roles.columns "tpt_roles"
        (.exists "tpt_user_roles"
          (.and (.eq (.column 0 "user_id") (.param 1))
            (.eq (.column 1 "id") (.column 0 "role_id"))))) := by
  rcases h with h | h <;> rw [h]
  · exact ⟨_, rfl, by decide⟩
  · exact ⟨_, Dollar_format_value _, by decide⟩

theorem read_FindByUserName (cfg : Config) (h : cfg.Builtin) :
    ∃ q, cfg.PlaceholderFormat
        "WHERE EXISTS (SELECT * FROM tpt_user_roles WHERE tpt_roles.id = tpt_user_roles.role_id AND EXISTS (SELECT * FROM tpt_users WHERE name = ? AND tpt_user_roles.user_id = tpt_users.id))"
        = (q, none) ∧
      Sql.read (rolePrefix ++ q) = some (.select roles.columns "tpt_roles"
        (.exists "tpt_user_roles"
          (.and (.eq (.column 1 "id") (.column 0 "role_id"))
            (.exists "tpt_users"
              (.and (.eq (.column 0 "name") (.param 1))
                (.eq (.column 1 "user_id") (.column 0 "id"))))))) := by
  rcases h with h | h <;> rw [h]
  · exact ⟨_, rfl, by decide⟩
  · exact ⟨_, Dollar_format_value _, by decide⟩

theorem roles_loop_records (rows : List Record) (hall : ∀ ρ ∈ rows, ρ.isRole) :
    roles.QueryWith.loop none (rows.map fun ρ => sampleRow (roles.columns.map ρ)) []
      = (some (rows.map fun ρ => some ρ.asRole), none) := by
  rw [roles_QueryWith_loop_ok none _ [] (by
    intro r hr
    obtain ⟨ρ, hρ, rfl⟩ := List.mem_map.1 hr
    rw [roles_scan_record ρ (hall ρ hρ)])]
  simp only [List.nil_append, List.map_map]
  congr 2
  apply List.map_congr_left
  intro ρ hρ
  simp [roles_scan_record ρ (hall ρ hρ)]

theorem roles_FindByUserID_refDB (cfg : Config) (h : cfg.Builtin) (u : Int)
    (w : World Store) :
    (roles.FindByUserID cfg refDB u w).1 = roles.QueryWith.loop none
      (((w.store.rows "tpt_roles").filter fun ρ =>
          (w.store.rows "tpt_user_roles").any fun ur =>
            (ur "user_id").sqlEq (.int64 u) && (ρ "id").sqlEq (ur "role_id")).map
        fun ρ => sampleRow (roles.columns.map ρ)) [] := by
  obtain ⟨q, hq, hread⟩ := read_FindByUserID cfg h
  simp only [roles.FindByUserID, roles.QueryWith, hq, DB.query,
    refDB_Query_read w.store _ [.int64 u] _ hread rfl]
  simp [Sql.run, Store.select, Cond.eval, Operand.eval, Value.toCell]
  rfl

theorem roles_FindByUserName_refDB (cfg : Config) (h : cfg.Builtin) (username : String)
    (w : World Store) :
    (roles.FindByUserName cfg refDB username w).1 = roles.QueryWith.loop none
      (((w.store.rows "tpt_roles").filter fun ρ =>
          (w.store.rows "tpt_user_roles").any fun ur =>
            (ρ "id").sqlEq (ur "role_id") &&
              (w.store.rows "tpt_users").any fun usr =>
                (usr "name").sqlEq (.string username) && (ur "user_id").sqlEq (usr "id")).map
        fun ρ => sampleRow (roles.columns.map ρ)) [] := by
  obtain ⟨q, hq, hread⟩ := read_FindByUserName cfg h
  simp only [roles.FindByUserName, roles.QueryWith, hq, DB.query,
    refDB_Query_read w.store _ [.string username] _ hread rfl]
  simp [Sql.run, Store.select, Cond.eval, Operand.eval, Value.toCell]
  rfl

theorem AssociationsOf.start (s0 : Store) (u : Int)
    (hnone : ∀ ur ∈ s0.rows "tpt_user_roles", (ur "user_id").sqlEq (.int64 u) = false) :
    AssociationsOf s0 s0 u (fun _ => false) where
  roles := rfl
  users := rfl
  sound := by
    intro ur hur hu
    rw [hnone ur hur] at hu
    cases hu
  complete := by intro r hr; cases hr
  known := by intro r hr; cases hr

theorem AssociationsOf.add (cfg : Config) (h : cfg.Builtin) (s0 : Store) (u r : Int)
    (live : Int → Bool) (w : World Store) (inv : AssociationsOf s0 w.store u live)
    (hok : (users.AddRole cfg refDB u r w).1 = none) :
    AssociationsOf s0 (users.AddRole cfg refDB u r w).2.store u
      (fun x => x == r || live x) := by
  obtain ⟨⟨rec, hru, hrr, hrows⟩, hother, ρ, hρ, hρid⟩ := users_AddRole_refDB cfg h u r w hok
  refine ⟨?_, ?_, ?_, ?_, ?_⟩
  · rw [hother _ (by decide), inv.roles]
  · rw [hother _ (by decide), inv.users]
  · intro ur hur hu
    rw [hrows, List.mem_append, List.mem_singleton] at hur
    rcases hur with hur | rfl
    · obtain ⟨x, hx, hl⟩ := inv.sound ur hur hu
      exact ⟨x, hx, by simp [hl]⟩
    · exact ⟨r, hrr, by simp⟩
  · intro x hx
    rw [hrows]
    by_cases hxr : x = r
    · subst hxr
      exact ⟨rec, by simp, hru, hrr⟩
    · have hl : live x = true := by simpa [hxr] using hx
      obtain ⟨ur, hur, h1, h2⟩ := inv.complete x hl
      exact ⟨ur, List.mem_append_left _ hur, h1, h2⟩
  · intro x hx
    by_cases hxr : x = r
    · subst hxr
      rw [← inv.roles]
      exact ⟨ρ, hρ, hρid⟩
    · have hl : live x = true := by simpa [hxr] using hx
      exact inv.known x hl

theorem AssociationsOf.remove (cfg : Config) (h : cfg.Builtin) (s0 : Store) (u r : Int)
    (live : Int → Bool) (w : World Store) (inv : AssociationsOf s0 w.store u live) :
    AssociationsOf s0 (users.RemoveRole cfg refDB u r w).2.store u
      (fun x => x != r && live x) := by
  obtain ⟨_, hrows, hroles, husers⟩ := users_RemoveRole_refDB cfg h u r w
  refine ⟨?_, ?_, ?_, ?_, ?_⟩
  · rw [hroles, inv.roles]
  · rw [husers, inv.users]
  · intro ur hur hu
    rw [hrows, List.mem_filter] at hur
    obtain ⟨hmem, hkeep⟩ := hur
    obtain ⟨x, hx, hl⟩ := inv.sound ur hmem hu
    refine ⟨x, hx, ?_⟩
    have hxr : x ≠ r := by
      intro hxr
      subst hxr
      simp [hu, hx, Cell.sqlEq_self_int64] at hkeep
    simp [hxr, hl]
  · intro x hx
    have hx' : x ≠ r ∧ live x = true := by simpa using hx
    obtain ⟨ur, hur, h1, h2⟩ := inv.complete x hx'.2
    refine ⟨ur, ?_, h1, h2⟩
    rw [hrows, List.mem_filter]
    refine ⟨hur, ?_⟩
    have : (Cell.int64 x).sqlEq (.int64 r) = false := by
      cases hq : (Cell.int64 x).sqlEq (.int64 r)
      · rfl
      · rw [Cell.sqlEq_int64] at hq
        exact absurd (Cell.int64.inj hq) hx'.1
    simp [h1, h2, this]
  · intro x hx
    have hx' : x ≠ r ∧ live x = true := by simpa using hx
    exact inv.known x hx'.2

theorem AssociationsOf.applyRoleOps (cfg : Config) (h : cfg.Builtin) (s0 : Store) (u : Int) :
    ∀ (ops : List RoleOp) (live : Int → Bool) (w w' : World Store),
      AssociationsOf s0 w.store u live →
      users.applyRoleOps cfg refDB u ops w = some w' →
      AssociationsOf s0 w'.store u (RoleOp.associated ops live) := by
  intro ops
  induction ops with
  | nil =>
    intro live w w' inv hrun
    simp only [users.applyRoleOps, Option.some.injEq] at hrun
    subst hrun
    exact inv
  | cons op ops ih =>
    intro live w w' inv hrun
    cases op with
    | add r =>
      simp only [users.applyRoleOps] at hrun
      rcases hres : users.AddRole cfg refDB u r w with ⟨_ | e, w1⟩
      · rw [hres] at hrun
        have hok : (users.AddRole cfg refDB u r w).1 = none := by rw [hres]
        have inv1 := AssociationsOf.add cfg h s0 u r live w inv hok
        rw [hres] at inv1
        exact ih _ w1 w' inv1 hrun
      · rw [hres] at hrun
        cases hrun
    | remove r =>
      simp only [users.applyRoleOps] at hrun
      rcases hres : users.RemoveRole cfg refDB u r w with ⟨_ | e, w1⟩
      · rw [hres] at hrun
        have inv1 := AssociationsOf.remove cfg h s0 u r live w inv
        rw [hres] at inv1
        exact ih _ w1 w' inv1 hrun
      · rw [hres] at hrun
        cases hrun

theorem AssociationsOf.listed (s0 s : Store) (u : Int) (live : Int → Bool)
    (inv : AssociationsOf s0 s u live) (ρ : Record) (hρ : ∃ v, ρ "id" = .int64 v) :
    ((s.rows "tpt_user_roles").any fun ur =>
        (ur "user_id").sqlEq (.int64 u) && (ρ "id").sqlEq (ur "role_id"))
      = live (ρ "id").number := by
  obtain ⟨v, hv⟩ := hρ
  rw [hv, Bool.eq_iff_iff, List.any_eq_true]
  simp only [Cell.number, Bool.and_eq_true]
  constructor
  · rintro ⟨ur, hur, hu, hr⟩
    obtain ⟨x, hx, hl⟩ := inv.sound ur hur hu
    rw [hx, Cell.sqlEq_int64] at hr
    rw [Cell.int64.inj hr]
    exact hl
  · intro hl
    obtain ⟨ur, hur, h1, h2⟩ := inv.complete v hl
    exact ⟨ur, hur, by rw [h1]; exact Cell.sqlEq_self_int64 u,
      by rw [h2]; exact Cell.sqlEq_self_int64 v⟩

theorem users_named (rows : List Record) (u : Int) (username : String)
    (huser : ∃ usr ∈ rows, usr "id" = .int64 u ∧ usr "name" = .string username)
    (hname : ∀ usr ∈ rows, usr "name" = .string username → usr "id" = .int64 u) (c : Cell) :
    (rows.any fun usr => (usr "name").sqlEq (.string username) && c.sqlEq (usr "id"))
      = c.sqlEq (.int64 u) := by
  rw [Bool.eq_iff_iff, List.any_eq_true]
  simp only [Bool.and_eq_true]
  constructor
  · rintro ⟨usr, husr, hn, hc⟩
    rw [Cell.sqlEq_string] at hn
    rw [hname usr husr hn] at hc
    exact hc
  · intro hc
    obtain ⟨usr, husr, hid, hn⟩ := huser
    exact ⟨usr, husr, by rw [hn]; exact Cell.sqlEq_self_string username, by rw [hid]; exact hc⟩

theorem listed_ids_nodup (rows : List Record) (p : Record → Bool)
    (hids : ∀ ρ ∈ rows, ∃ v, ρ "id" = .int64 v) (hkey : (rows.map fun ρ => ρ "id").Nodup) :
    (((rows.filter p).map Record.asRole).map fun e => e.ID).Nodup := by
  have hall : (rows.map fun ρ => (ρ "id").number).Nodup := by
    have hmap : (rows.map fun ρ => (ρ "id").number)
        = (rows.map fun ρ => ρ "id").map Cell.number := by
      rw [List.map_map]; rfl
    rw [hmap]
    refine List.Nodup.map_on ?_ hkey
    intro c hc d hd hcd
    obtain ⟨ρ, hρ, rfl⟩ := List.mem_map.1 hc
    obtain ⟨ρ', hρ', rfl⟩ := List.mem_map.1 hd
    obtain ⟨v, hv⟩ := hids ρ hρ
    obtain ⟨v', hv'⟩ := hids ρ' hρ'
    simp only [hv, hv', Cell.number] at hcd ⊢
    rw [hcd]
  have hsub : (((rows.filter p).map Record.asRole).map fun e => e.ID).Sublist
      (rows.map fun ρ => (ρ "id").number) := by
    rw [List.map_map]
    exact (List.filter_sublist rows).map _
  exact hsub.nodup hall

/-- Where the claim of the listing holds.  On the reference store, under either
built-in placeholder policy, for a user `u` that exists with the name
`username` (no other user row has that name) and has no association, a roles
table whose identities are distinct integers and in which every role that ends
up associated has a name, and every sequence of `AddRole(u, r)` and
`RemoveRole(u, r)` calls that all return `nil`: `Users.ListRoles(u)` and
`Roles.FindByUserName(username)` both succeed and return the same list of
roles, each a row of the roles table, no identity twice, and a role identity is
in the list exactly when the role was added and not subsequently removed. -/
theorem listing_of_named_roles (cfg : Config) (hcfg : cfg.Builtin)
    (w0 w' : World Store) (u : Int) (username : String) (ops : List RoleOp)
    (hrun : users.applyRoleOps cfg refDB u ops w0 = some w')
    (hnone : ∀ ur ∈ w0.store.rows "tpt_user_roles", (ur "user_id").sqlEq (.int64 u) = false)
    (huser : ∃ usr ∈ w0.store.rows "tpt_users",
      usr "id" = .int64 u ∧ usr "name" = .string username)
    (hname : ∀ usr ∈ w0.store.rows "tpt_users",
      usr "name" = .string username → usr "id" = .int64 u)
    (hids : ∀ ρ ∈ w0.store.rows "tpt_roles", ∃ v, ρ "id" = .int64 v)
    (hkey : ((w0.store.rows "tpt_roles").map fun ρ => ρ "id").Nodup)
    (hroles : ∀ ρ ∈ w0.store.rows "tpt_roles",
      RoleOp.associated ops (fun _ => false) (ρ "id").number = true → ρ.isRole) :
    ∃ l : List Role,
      (users.ListRoles cfg refDB u w').1 = (some (l.map some), none) ∧
      (roles.FindByUserName cfg refDB username w').1 = (some (l.map some), none) ∧
      (l.map fun e => e.ID).Nodup ∧
      (∀ r, r ∈ (l.map fun e => e.ID) ↔ RoleOp.associated ops (fun _ => false) r = true) ∧
      (∀ e ∈ l, ∃ ρ ∈ w0.store.rows "tpt_roles", e = ρ.asRole) := by
  have inv := AssociationsOf.applyRoleOps cfg hcfg w0.store u ops (fun _ => false) w0 w'
    (AssociationsOf.start w0.store u hnone) hrun
  have hfilter : ∀ (p : Record → Bool),
      (∀ ρ ∈ w0.store.rows "tpt_roles",
        p ρ = RoleOp.associated ops (fun _ => false) (ρ "id").number) →
      roles.QueryWith.loop none
        (((w'.store.rows "tpt_roles").filter p).map
          fun ρ => sampleRow (roles.columns.map ρ)) []
        = (some ((((w0.store.rows "tpt_roles").filter fun ρ =>
            RoleOp.associated ops (fun _ => false) (ρ "id").number).map
              Record.asRole).map some), none) := by
    intro p hp
    rw [inv.roles, List.filter_congr hp, roles_loop_records _ (fun ρ hρ =>
      hroles ρ (List.mem_filter.1 hρ).1 (List.mem_filter.1 hρ).2), List.map_map]
    rfl
  refine ⟨((w0.store.rows "tpt_roles").filter fun ρ =>
      RoleOp.associated ops (fun _ => false) (ρ "id").number).map Record.asRole,
    ?_, ?_, listed_ids_nodup _ _ hids hkey, ?_, ?_⟩
  · rw [users.ListRoles, roles_FindByUserID_refDB cfg hcfg]
    exact hfilter _ (fun ρ hρ => AssociationsOf.listed _ _ _ _ inv ρ (hids ρ hρ))
  · rw [roles_FindByUserName_refDB cfg hcfg]
    refine hfilter _ (fun ρ hρ => ?_)
    rw [← AssociationsOf.listed _ _ _ _ inv ρ (hids ρ hρ), inv.users]
    congr 1
    funext ur
    rw [users_named _ u username huser hname, Bool.and_comm]
  · intro r
    simp only [List.map_map, List.mem_map, List.mem_filter, Function.comp]
    constructor
    · rintro ⟨ρ, ⟨_, hl⟩, rfl⟩
      exact hl
    · intro hl
      obtain ⟨ρ, hρ, hid⟩ := inv.known r hl
      have hnum : (ρ "id").number = r := by rw [hid]; rfl
      exact ⟨ρ, ⟨hρ, by rw [hnum]; exact hl⟩, by simp [Record.asRole, hnum]⟩
  · intro e he
    obtain ⟨ρ, hρ, rfl⟩ := List.mem_map.1 he
    exact ⟨ρ, (List.mem_filter.1 hρ).1, rfl⟩

/-- An instance of the listing of named roles: on the sample state with the
nameless role 9, under the `Dollar` policy, adding the roles 1, 2 and 3 to
user 1 and then removing role 1 succeeds, and both listings return roles whose
identities are exactly 2 and 3. -/
theorem listing_of_named_roles_sample :
    ∃ w' : World Store,
      users.applyRoleOps (dollarConfig true) refDB 1 [.add 1, .add 2, .add 3, .remove 1]
        nullNameWorld = some w' ∧
      ∃ l : List Role,
        (users.ListRoles (dollarConfig true) refDB 1 w').1 = (some (l.map some), none) ∧
        (roles.FindByUserName (dollarConfig true) refDB "user1" w').1
          = (some (l.map some), none) ∧
        (l.map fun e => e.ID).Nodup ∧
        ∀ r, r ∈ (l.map fun e => e.ID) ↔ r = 2 ∨ r = 3 := by
  have hsome : (users.applyRoleOps (dollarConfig true) refDB 1
      [.add 1, .add 2, .add 3, .remove 1] nullNameWorld).isSome = true := by decide
  obtain ⟨w', hw'⟩ := Option.isSome_iff_exists.1 hsome
  have hrows : ∀ ρ ∈ nullNameWorld.store.rows "tpt_roles",
      ρ = insertRecord 1 ["name", "description", "permission_keys"]
          [.string "a1", .string "a_descr", .string "k1,k2"] ∨
      ρ = insertRecord 2 ["name", "description", "permission_keys"]
          [.string "a2", .string "a_descr", .string "k1,k2"] ∨
      ρ = insertRecord 3 ["name", "description", "permission_keys"]
          [.string "a3", .string "a_descr", .string "k1,k2"] ∨
      ρ = insertRecord 9 [] [] := by
    intro ρ hρ
    simp only [nullNameWorld, nullNameStore, sampleStore] at hρ
    simpa using hρ
  obtain ⟨l, h1, h2, h3, h4, _⟩ := listing_of_named_roles (dollarConfig true)
    (Or.inr rfl) nullNameWorld w' 1 "user1" [.add 1, .add 2, .add 3, .remove 1] hw'
    (by intro ur hur; simp [nullNameWorld, nullNameStore, sampleStore] at hur)
    ⟨insertRecord 1 ["name", "description", "password", "phone", "email", "state"]
        [.string "user1", .string "a_descr", .string "a_pwd", .string "123",
          .string "a@h.com", .int64 23],
      by simp [nullNameWorld, nullNameStore, sampleStore], rfl, rfl⟩
    (by
      intro usr husr _
      simp only [nullNameWorld, nullNameStore, sampleStore] at husr
      simp at husr
      subst husr
      rfl)
    (by
      intro ρ hρ
      rcases hrows ρ hρ with rfl | rfl | rfl | rfl <;> exact ⟨_, rfl⟩)
    (by
      have : (nullNameWorld.store.rows "tpt_roles").map (fun ρ => ρ "id")
          = [.int64 1, .int64 2, .int64 3, .int64 9] := rfl
      rw [this]
      decide)
    (by
      intro ρ hρ hl
      rcases hrows ρ hρ with rfl | rfl | rfl | rfl
      · exact ⟨⟨_, rfl⟩, ⟨_, rfl⟩, rfl, rfl⟩
      · exact ⟨⟨_, rfl⟩, ⟨_, rfl⟩, rfl, rfl⟩
      · exact ⟨⟨_, rfl⟩, ⟨_, rfl⟩, rfl, rfl⟩
      · exact absurd hl (by decide))
  refine ⟨w', hw', l, h1, h2, h3, ?_⟩
  intro r
  rw [h4]
  simp only [RoleOp.associated]
  by_cases h1 : r = 1 <;> by_cases h2 : r = 2 <;> by_cases h3 : r = 3 <;>
    simp [h1, h2, h3]

/-- C12: on the reference store, with user 1 named user1, no association, and
an existing role 9 whose name is NULL, under the policy of the tests and under
the package defaults: before any call `Users.ListRoles(1)` returns the empty
list and no error; `AddRole(1, 9)` returns `nil` and leaves the one
association (1, 9); after it `Users.ListRoles(1)` and
`Roles.FindByUserName("user1")` both return no list and an error, instead of
the list holding the role 9. -/
theorem listing_fails_on_added_NULL_named_role :
    ((users.ListRoles (dollarConfig true) refDB 1 nullNameWorld).1 = (some [], none) ∧
      (users.AddRole (dollarConfig true) refDB 1 9 nullNameWorld).1 = none ∧
      (users.AddRole (dollarConfig true) refDB 1 9 nullNameWorld).2.store.associations
        = [(.int64 1, .int64 9)] ∧
      (users.ListRoles (dollarConfig true) refDB 1
        (users.AddRole (dollarConfig true) refDB 1 9 nullNameWorld).2).1.1 = none ∧
      (users.ListRoles (dollarConfig true) refDB 1
        (users.AddRole (dollarConfig true) refDB 1 9 nullNameWorld).2).1.2 ≠ none ∧
      (roles.FindByUserName (dollarConfig true) refDB "user1"
        (users.AddRole (dollarConfig true) refDB 1 9 nullNameWorld).2).1.1 = none ∧
      (roles.FindByUserName (dollarConfig true) refDB "user1"
        (users.AddRole (dollarConfig true) refDB 1 9 nullNameWorld).2).1.2 ≠ none) ∧
    ((users.ListRoles defaultConfig refDB 1 nullNameWorld).1 = (some [], none) ∧
      (users.AddRole defaultConfig refDB 1 9 nullNameWorld).1 = none ∧
      (users.AddRole defaultConfig refDB 1 9 nullNameWorld).2.store.associations
        = [(.int64 1, .int64 9)] ∧
      (users.ListRoles defaultConfig refDB 1
        (users.AddRole defaultConfig refDB 1 9 nullNameWorld).2).1.1 = none ∧
      (users.ListRoles defaultConfig refDB 1
        (users.AddRole defaultConfig refDB 1 9 nullNameWorld).2).1.2 ≠ none ∧
      (roles.FindByUserName defaultConfig refDB "user1"
        (users.AddRole defaultConfig refDB 1 9 nullNameWorld).2).1.1 = none ∧
      (roles.FindByUserName defaultConfig refDB "user1"
        (users.AddRole defaultConfig refDB 1 9 nullNameWorld).2).1.2 ≠ none) := by
  refine ⟨⟨?_, ?_, ?_, ?_, ?_, ?_, ?_⟩, ?_, ?_, ?_, ?_, ?_, ?_, ?_⟩ <;> decide

end Permissions
